import Mathlib

/-!
# Manta SV scorer: a shallow embedding of `SVScorer.cpp`

The definitions below follow
`src/c++/lib/applications/GenerateSVCandidates/SVScorer.cpp` function by
function and keep the names of the source.

Conventions of the embedding.

* `unsigned` counters are natural numbers; every increment of the source is
  written with its wrap-around modulo `2^32` (`UINT_RANGE`).
* `pos_t` values are mathematical integers (signed overflow has no defined
  behaviour in the source, so no wrap-around is modelled for positions).
* `float` / `double` values are rationals.  In the functions whose result is
  decided by a comparison of rounded values (`lnToProb`,
  `addConservativeSplitReadSupport`, `addConservativeSpanningPairSupport`,
  `finishRms`) every `float` / `double` operation is followed by the rounding of
  its format (`toFloat`, `toDouble`: IEEE 754 binary32 / binary64, round to
  nearest, ties to even, subnormal numbers included; overflow to infinity is
  not modelled).  In the diploid model the arithmetic is exact, and a logarithm
  is kept exactly, by its argument (`LnVal`), so that sums of logarithms are
  products of arguments.
* A BAM stream positioned on a region is the list of records it yields.
* A function that can fail an assertion or throw returns `Except` with the
  failure; a function whose only failure is a write outside a vector returns
  `Option`.
-/

namespace Manta

/-- Number of values of a 32-bit `unsigned`. -/
def UINT_RANGE : Nat := 4294967296

/-! ## Binary floating point -/

/-- Rounding of a rational to the nearest integer, a tie going to the even
neighbour. -/
def roundHalfEven (x : ℚ) : Int :=
  let f : Int := ⌊x⌋
  let r : ℚ := x - f
  if r < 1 / 2 then f
  else if r > 1 / 2 then f + 1
  else if f % 2 = 0 then f else f + 1

/-- The exponent of the unit in the last place at `x` in the binary format with
`prec` significand bits and least exponent `emin`. -/
def ulpExponent (prec : Nat) (emin : Int) (x : ℚ) : Int :=
  max (Int.log 2 |x| - ((prec : Int) - 1)) emin

/-- Rounding to the nearest number of the binary floating-point format with `prec`
significand bits and least exponent `emin`, ties to even (the IEEE 754 default).
Numbers beyond the largest finite one are rounded in the same way: no infinity
is modelled. -/
def roundFloat (prec : Nat) (emin : Int) (x : ℚ) : ℚ :=
  (roundHalfEven (x / 2 ^ ulpExponent prec emin x) : ℚ) * 2 ^ ulpExponent prec emin x

/-- The conversion to `float` (IEEE 754 binary32). -/
def toFloat (x : ℚ) : ℚ := roundFloat 24 (-149) x

/-- The conversion to `double` (IEEE 754 binary64). -/
def toDouble (x : ℚ) : ℚ := roundFloat 53 (-1074) x

/-! ## Score records -/

/-- Modelled from the spec: the per-sample, per-allele counts of `SVScoreInfo.hh`
(§3 SampleAlleleCounts); the header is not among the sources, the field names
are the ones `SVScorer.cpp` uses. -/
structure SVSampleAlleleInfo where
  bp1SpanReadCount : Nat := 0
  bp2SpanReadCount : Nat := 0
  confidentSpanningPairCount : Nat := 0
  confidentSplitReadCount : Nat := 0
  splitReadCount : Nat := 0
  splitReadEvidence : ℚ := 0
  splitReadMapQ : ℚ := 0
deriving DecidableEq, Repr

/-- Modelled from the spec: one sample of `SVScoreInfo` with its `ref` and `alt`
allele counts (§3 SVScoreInfo). -/
structure SVSampleInfo where
  alt : SVSampleAlleleInfo := {}
  ref : SVSampleAlleleInfo := {}
deriving DecidableEq, Repr

/-- Modelled from the spec: `SVScoreInfo` (§3): the two breakend depths and the
tumor and normal sample records. -/
structure SVScoreInfo where
  normal : SVSampleInfo := {}
  tumor : SVSampleInfo := {}
  bp1MaxDepth : Nat := 0
  bp2MaxDepth : Nat := 0
deriving DecidableEq, Repr

/-- Modelled from the spec: `SVScoreInfoSomatic` (§3 SomaticScoreInfo): the
somatic score and the set of filter labels. -/
structure SVScoreInfoSomatic where
  filters : Finset String := ∅
  somaticScore : Nat := 0
deriving DecidableEq

/-! ## Candidates and depth filters -/

/-- Modelled from the spec: the half-open range `[begin_pos, end_pos)` of a
breakend interval (§3 Breakend). -/
structure known_pos_range2 where
  begin_pos : Int := 0
  end_pos : Int := 0
deriving DecidableEq, Repr

/-- Modelled from the spec: a genomic interval `(tid, range)` (§3 Breakend). -/
structure GenomeInterval where
  tid : Int := 0
  range : known_pos_range2 := {}
deriving DecidableEq, Repr

/-- Modelled from the spec: a breakend; only its interval is read by
`SVScorer.cpp`. -/
structure SVBreakend where
  interval : GenomeInterval := {}
deriving DecidableEq, Repr

/-- Modelled from the spec: an SV candidate (§3 SVCandidate): two breakends and
the flag read through `isImprecise()`. -/
structure SVCandidate where
  bp1 : SVBreakend := {}
  bp2 : SVBreakend := {}
  isImprecise : Bool := false
deriving DecidableEq, Repr

/-- Modelled from the spec: `ChromDepthFilterUtil` (§6 ChromDepthFilter):
`isMaxDepthFilter()` and the per-chromosome `maxDepth(tid)`. -/
structure ChromDepthFilterUtil where
  isMaxDepthFilter : Bool
  maxDepth : Int → ℚ

/-- Modelled from the spec: the part of `CallOptionsSomatic` that
`scoreSomaticSV` reads. -/
structure CallOptionsSomatic where
  maxDepthFilterLabel : String

/-! ## `scoreSomaticSV` (SVScorer.cpp:797-885) -/

/-- The quotient `static_cast<double>(tumor)/static_cast<double>(normal)` of two
counters, as an exact rational.  (Both counters convert to `double` exactly and
a correctly rounded quotient lies below 9 exactly when the exact one does.) -/
def countRatio (tumor normal : Nat) : ℚ := (tumor : ℚ) / (normal : ℚ)

/-- Lines 812-814 of `scoreSomaticSV`: "first check for substantial support in
the normal"; `q` is the value of `isNonzeroSomaticQuality` on entry. -/
def somaticNormalSupportCheck (baseInfo : SVScoreInfo) (q : Bool) : Bool :=
  let q1 := if baseInfo.normal.alt.confidentSpanningPairCount > 1 then false else q
  if baseInfo.normal.alt.confidentSplitReadCount > 5 then false else q1

/-- Lines 816-826 of `scoreSomaticSV`: "allow single pair support to rescue an SV
only if the evidence looks REALLY good". -/
def somaticSingleSupportCheck (baseInfo : SVScoreInfo) (q : Bool) : Bool :=
  if q then
    let lowPairSupport := decide (baseInfo.tumor.alt.confidentSpanningPairCount < 6)
    let lowSplitSupport := decide (baseInfo.tumor.alt.confidentSplitReadCount < 6)
    let lowSingleSupport :=
      decide (baseInfo.tumor.alt.bp1SpanReadCount < 14) ||
        decide (baseInfo.tumor.alt.bp2SpanReadCount < 14)
    let highSingleContam :=
      decide (baseInfo.normal.alt.bp1SpanReadCount > 1) ||
        decide (baseInfo.normal.alt.bp2SpanReadCount > 1)
    if (lowPairSupport && lowSplitSupport) && (lowSingleSupport || highSingleContam)
    then false else q
  else q

/-- One of the three ratio tests of lines 830-853: when the normal counter is
nonzero and tumor/normal is below 9 the flag is cleared. -/
def somaticRatioTest (tumor normal : Nat) (q : Bool) : Bool :=
  if normal ≠ 0 then
    if countRatio tumor normal < 9 then false else q
  else q

/-- Lines 828-854 of `scoreSomaticSV`: the three tumor/normal ratio tests, run
only while the flag is still set. -/
def somaticRatioCheck (baseInfo : SVScoreInfo) (q : Bool) : Bool :=
  if q then
    let r1 := somaticRatioTest baseInfo.tumor.alt.confidentSpanningPairCount
      baseInfo.normal.alt.confidentSpanningPairCount q
    let r2 := somaticRatioTest baseInfo.tumor.alt.bp1SpanReadCount
      baseInfo.normal.alt.bp1SpanReadCount r1
    somaticRatioTest baseInfo.tumor.alt.bp2SpanReadCount
      baseInfo.normal.alt.bp2SpanReadCount r2
  else q

/-- Lines 856-862 of `scoreSomaticSV`: "there needs to be some ref support in
the normal as well". -/
def somaticNormalRefCheck (baseInfo : SVScoreInfo) (q : Bool) : Bool :=
  let normRefPairSupport := decide (baseInfo.normal.ref.confidentSpanningPairCount > 6)
  let normRefSplitSupport := decide (baseInfo.normal.ref.confidentSplitReadCount > 6)
  if !(normRefPairSupport || normRefSplitSupport) then false else q

/-- The value of the local `isNonzeroSomaticQuality` when the quality block of
`scoreSomaticSV` ends (lines 810-862): it starts `true` and runs through the
four checks in source order. -/
def isNonzeroSomaticQuality (baseInfo : SVScoreInfo) : Bool :=
  somaticNormalRefCheck baseInfo
    (somaticRatioCheck baseInfo
      (somaticSingleSupportCheck baseInfo
        (somaticNormalSupportCheck baseInfo true)))

/-- The filter block of `scoreSomaticSV` (lines 871-884): the max-depth label is
inserted when the filter is enabled and a breakend depth exceeds the threshold
of its chromosome. -/
def somaticFilters (somaticOpt : CallOptionsSomatic) (sv : SVCandidate)
    (dFilter : ChromDepthFilterUtil) (baseInfo : SVScoreInfo)
    (filters : Finset String) : Finset String :=
  if dFilter.isMaxDepthFilter then
    if (baseInfo.bp1MaxDepth : ℚ) > dFilter.maxDepth sv.bp1.interval.tid then
      insert somaticOpt.maxDepthFilterLabel filters
    else if (baseInfo.bp2MaxDepth : ℚ) > dFilter.maxDepth sv.bp2.interval.tid then
      insert somaticOpt.maxDepthFilterLabel filters
    else filters
  else filters

/-- The function `scoreSomaticSV`: the score is set to 60 when
`isNonzeroSomaticQuality` survives and is otherwise left as it was; then the
filters are applied. -/
def scoreSomaticSV (somaticOpt : CallOptionsSomatic) (sv : SVCandidate)
    (dFilter : ChromDepthFilterUtil) (baseInfo : SVScoreInfo)
    (somaticInfo : SVScoreInfoSomatic) : SVScoreInfoSomatic :=
  let scored : SVScoreInfoSomatic :=
    if isNonzeroSomaticQuality baseInfo then { somaticInfo with somaticScore := 60 }
    else somaticInfo
  { scored with filters := somaticFilters somaticOpt sv dFilter baseInfo scored.filters }

/-! ### The four vetoes, as the specification words them -/

/-- Veto (a): substantial alt support in the normal sample. -/
def vetoNormalSupport (b : SVScoreInfo) : Prop :=
  b.normal.alt.confidentSpanningPairCount > 1 ∨ b.normal.alt.confidentSplitReadCount > 5

/-- Veto (b): weak tumor support that single-breakend reads cannot rescue. -/
def vetoWeakTumor (b : SVScoreInfo) : Prop :=
  b.tumor.alt.confidentSpanningPairCount < 6 ∧ b.tumor.alt.confidentSplitReadCount < 6 ∧
    (b.tumor.alt.bp1SpanReadCount < 14 ∨ b.tumor.alt.bp2SpanReadCount < 14 ∨
      b.normal.alt.bp1SpanReadCount > 1 ∨ b.normal.alt.bp2SpanReadCount > 1)

/-- Veto (c): for one of the three counters the normal value is nonzero and
tumor/normal is below 9. -/
def vetoRatio (b : SVScoreInfo) : Prop :=
  (b.normal.alt.confidentSpanningPairCount ≠ 0 ∧
      (b.tumor.alt.confidentSpanningPairCount : ℚ) /
        (b.normal.alt.confidentSpanningPairCount : ℚ) < 9) ∨
    (b.normal.alt.bp1SpanReadCount ≠ 0 ∧
      (b.tumor.alt.bp1SpanReadCount : ℚ) / (b.normal.alt.bp1SpanReadCount : ℚ) < 9) ∨
    (b.normal.alt.bp2SpanReadCount ≠ 0 ∧
      (b.tumor.alt.bp2SpanReadCount : ℚ) / (b.normal.alt.bp2SpanReadCount : ℚ) < 9)

/-- Veto (d): no ref support in the normal sample. -/
def vetoNoNormalRef (b : SVScoreInfo) : Prop :=
  ¬ (b.normal.ref.confidentSpanningPairCount > 6) ∧
    ¬ (b.normal.ref.confidentSplitReadCount > 6)

/-- The score info of the "somatic pass" scenario: tumor alt pairs 20, normal
alt pairs 0, normal ref pairs 10, every other count 0. -/
def somaticPassInfo : SVScoreInfo :=
  { normal := { alt := {}, ref := { confidentSpanningPairCount := 10 } },
    tumor := { alt := { confidentSpanningPairCount := 20 }, ref := {} } }

/-- Somatic options with the label `MaxDepth`. -/
def somaticOptDefault : CallOptionsSomatic := { maxDepthFilterLabel := "MaxDepth" }

/-- A depth filter that is switched off. -/
def noDepthFilter : ChromDepthFilterUtil := { isMaxDepthFilter := false, maxDepth := fun _ => 0 }

/-! ## Alignment records -/

/-- Modelled from the spec: the CIGAR segment types of `ALIGNPATH`
(`blt_util/align_path.hh` is not among the sources). -/
inductive align_t where
  | NONE
  | MATCH
  | INSERT
  | DELETE
  | SKIP
  | SOFT_CLIP
  | HARD_CLIP
  | PAD
deriving DecidableEq, Repr

/-- Modelled from the spec: `is_segment_type_ref_length` of `ALIGNPATH` (not
among the sources): the reference-consuming segment types are MATCH, DELETE and
SKIP; soft clips, hard clips, insertions and padding consume no reference. -/
def is_segment_type_ref_length : align_t → Bool
  | align_t.MATCH => true
  | align_t.DELETE => true
  | align_t.SKIP => true
  | _ => false

/-- Modelled from the spec: one segment of an alignment path: its type and its
(unsigned) length. -/
structure path_segment where
  type : align_t
  length : Nat
deriving DecidableEq, Repr

/-- Modelled from the spec: the fields of a BAM record that `SVScorer.cpp` reads
(§6 AlignmentStream).  `pos` is the 1-based value of `bam_record::pos()`, `cigar`
the path that `bam_cigar_to_apath` decodes, `readSeq` the string of
`get_bam_read()`. -/
structure bam_record where
  qname : String := ""
  pos : Int := 1
  cigar : List path_segment := []
  map_qual : Nat := 0
  readSeq : String := ""
  qual : List Nat := []
  is_first : Bool := true
  is_unmapped : Bool := false
  is_filter : Bool := false
  is_dup : Bool := false
  is_secondary : Bool := false
  is_supplement : Bool := false
deriving DecidableEq, Repr

/-! ## `addReadToDepthEst` (SVScorer.cpp:80-113) -/

/-- The statement `depth[i]++` on a `std::vector<unsigned>`: `none` when the
index is outside the vector. -/
def depthIncrement (depth : List Nat) (i : Int) : Option (List Nat) :=
  if 0 ≤ i ∧ i < depth.length then
    some (depth.set i.toNat ((depth.getD i.toNat 0 + 1) % UINT_RANGE))
  else none

/-- The `for` loop of lines 102-109 over the positions of one MATCH segment:
`n` iterations remain and `pos` is the loop variable.  The result is the depth
array together with a flag telling that the function executed `return`. -/
def addMatchToDepthEst (beginPos endPos : Int) :
    Nat → Int → List Nat → Option (List Nat × Bool)
  | 0, _, depth => some (depth, false)
  | n + 1, pos, depth =>
    if pos ≥ beginPos then
      if pos ≥ endPos then some (depth, true)
      else
        match depthIncrement depth (pos - beginPos) with
        | none => none
        | some depth1 => addMatchToDepthEst beginPos endPos n (pos + 1) depth1
    else addMatchToDepthEst beginPos endPos n (pos + 1) depth

/-- The loop of lines 96-112 over the segments of the alignment path, `refPos`
being the reference position reached so far. -/
def addPathToDepthEst (beginPos endPos : Int) :
    List path_segment → Int → List Nat → Option (List Nat)
  | [], _, depth => some depth
  | ps :: apath, refPos, depth =>
    if refPos ≥ endPos then some depth
    else
      match (if ps.type = align_t.MATCH then
          addMatchToDepthEst beginPos endPos ps.length refPos depth
        else some (depth, false)) with
      | none => none
      | some (depth1, true) => some depth1
      | some (depth1, false) =>
        addPathToDepthEst beginPos endPos apath
          (if is_segment_type_ref_length ps.type then refPos + ps.length else refPos) depth1

/-- The function `addReadToDepthEst`: `none` stands for a write outside the
depth array. -/
def addReadToDepthEst (bamRead : bam_record) (beginPos : Int) (depth : List Nat) :
    Option (List Nat) :=
  let endPos : Int := beginPos + depth.length
  addPathToDepthEst beginPos endPos bamRead.cigar (bamRead.pos - 1) depth

/-- Specification side: position `p` lies in a MATCH segment of the path when
the path is laid out from `refPos`, the reference position advancing over the
reference-consuming segments only. -/
def coveredByMatch (p : Int) : List path_segment → Int → Bool
  | [], _ => false
  | ps :: apath, refPos =>
    (decide (ps.type = align_t.MATCH) && decide (refPos ≤ p) &&
        decide (p < refPos + ps.length)) ||
      coveredByMatch p apath
        (if is_segment_type_ref_length ps.type then refPos + ps.length else refPos)

/-- The depth array `depth1` is `depth` with the counters of the window positions
that satisfy `P` incremented (modulo `2^32`) and all others untouched. -/
def IncrementedOn (P : Int → Prop) [DecidablePred P] (beginPos : Int)
    (depth depth1 : List Nat) : Prop :=
  depth1.length = depth.length ∧
    ∀ j : Nat, j < depth.length →
      depth1.getD j 0 =
        if P (beginPos + j) then (depth.getD j 0 + 1) % UINT_RANGE else depth.getD j 0

/-- A read with CIGAR `15M` whose 0-based reference start is `start`. -/
def read15M (name : String) (start : Int) : bam_record :=
  { qname := name, pos := start + 1, cigar := [{ type := align_t.MATCH, length := 15 }] }

/-! ## Fragment evidence -/

/-- Modelled from the spec: the result of one split-read alignment (§3
SplitReadAlignment): `has_evidence()`, `get_evidence()` and
`get_alignment().get_alignLnLhood()`. -/
structure SplitReadAlignment where
  has_evidence : Bool := false
  evidence : ℚ := 0
  alignLnLhood : ℚ := 0
deriving DecidableEq, Repr

/-- Modelled from the spec: the split-read cell of one (allele, breakend, read)
(§3 PerReadAlleleBreakendEvidence); `SVEvidence.hh` is not among the sources,
the field names are the ones `SVScorer.cpp` uses. -/
structure SVFragmentEvidenceAlleleBreakendPerRead where
  isSplitEvaluated : Bool := false
  isSplitSupport : Bool := false
  splitEvidence : ℚ := 0
  splitLnLhood : ℚ := 0
deriving DecidableEq, Repr

/-- Modelled from the spec: the evidence of one (allele, breakend): the
fragment-level pair support and the two per-read split cells. -/
structure SVFragmentEvidenceAlleleBreakend where
  isFragmentSupport : Bool := false
  fragLengthProb : ℚ := 0
  read1 : SVFragmentEvidenceAlleleBreakendPerRead := {}
  read2 : SVFragmentEvidenceAlleleBreakendPerRead := {}
deriving DecidableEq, Repr

/-- The accessor `getRead(isRead1)` of an (allele, breakend) record. -/
def SVFragmentEvidenceAlleleBreakend.getRead (x : SVFragmentEvidenceAlleleBreakend)
    (isRead1 : Bool) : SVFragmentEvidenceAlleleBreakendPerRead :=
  if isRead1 then x.read1 else x.read2

/-- Writing through the reference that `getRead(isRead1)` returns. -/
def SVFragmentEvidenceAlleleBreakend.setRead (x : SVFragmentEvidenceAlleleBreakend)
    (isRead1 : Bool) (c : SVFragmentEvidenceAlleleBreakendPerRead) :
    SVFragmentEvidenceAlleleBreakend :=
  if isRead1 then { x with read1 := c } else { x with read2 := c }

/-- Modelled from the spec: the evidence of one allele: a breakend pair. -/
structure SVFragmentEvidenceAllele where
  bp1 : SVFragmentEvidenceAlleleBreakend := {}
  bp2 : SVFragmentEvidenceAlleleBreakend := {}
deriving DecidableEq, Repr

/-- Modelled from the spec: the per-read record of a fragment with its "observed
anchor" flag (§3 FragmentEvidence), read through `isObservedAnchor()`. -/
structure SVFragmentEvidenceRead where
  isObservedAnchor : Bool := false
deriving DecidableEq, Repr

/-- Modelled from the spec: the evidence of one fragment (§3 FragmentEvidence):
two per-read records and the `alt` / `ref` allele records. -/
structure SVFragmentEvidence where
  read1 : SVFragmentEvidenceRead := {}
  read2 : SVFragmentEvidenceRead := {}
  alt : SVFragmentEvidenceAllele := {}
  ref : SVFragmentEvidenceAllele := {}
deriving DecidableEq, Repr

/-- The accessor `getRead(isRead1)` of a fragment. -/
def SVFragmentEvidence.getRead (f : SVFragmentEvidence) (isRead1 : Bool) :
    SVFragmentEvidenceRead :=
  if isRead1 then f.read1 else f.read2

/-- Writing through the reference that `getRead(isRead1)` of a fragment returns. -/
def SVFragmentEvidence.setRead (f : SVFragmentEvidence) (isRead1 : Bool)
    (r : SVFragmentEvidenceRead) : SVFragmentEvidence :=
  if isRead1 then { f with read1 := r } else { f with read2 := r }

/-- Modelled from the spec: `isAnyPairSupport()`: some allele and breakend shows
fragment support. -/
def SVFragmentEvidence.isAnyPairSupport (f : SVFragmentEvidence) : Bool :=
  f.alt.bp1.isFragmentSupport || f.alt.bp2.isFragmentSupport ||
    f.ref.bp1.isFragmentSupport || f.ref.bp2.isFragmentSupport

/-- Modelled from the spec: `isAnySplitSupportForRead(isRead1)`: some allele and
breakend shows split support for that read. -/
def SVFragmentEvidence.isAnySplitSupportForRead (f : SVFragmentEvidence)
    (isRead1 : Bool) : Bool :=
  (f.alt.bp1.getRead isRead1).isSplitSupport || (f.alt.bp2.getRead isRead1).isSplitSupport ||
    (f.ref.bp1.getRead isRead1).isSplitSupport || (f.ref.bp2.getRead isRead1).isSplitSupport

/-- The type `SVEvidence::evidenceTrack_t`, a `std::map` from fragment name to
fragment evidence, as the list of its entries in iteration order. -/
abbrev evidenceTrack_t := List (String × SVFragmentEvidence)

/-- The entry stored under `qname`, if any (`std::map::find`). -/
def evidenceFind (qname : String) : evidenceTrack_t → Option SVFragmentEvidence
  | [] => none
  | (k, v) :: rest => if qname = k then some v else evidenceFind qname rest

/-- The value `sampleEvidence[qname]` refers to: the stored entry, or the
default-constructed fragment that `operator[]` inserts. -/
def evidenceAt (sampleEvidence : evidenceTrack_t) (qname : String) : SVFragmentEvidence :=
  (evidenceFind qname sampleEvidence).getD {}

/-- Storing `v` under `qname`: the entry is replaced when the key is present and
inserted at its place in key order otherwise (keys are compared character by
character, as `std::string` does). -/
def evidenceAssign (qname : String) (v : SVFragmentEvidence) :
    evidenceTrack_t → evidenceTrack_t
  | [] => [(qname, v)]
  | (k, w) :: rest =>
    if qname = k then (k, v) :: rest
    else if qname.toList < k.toList then (qname, v) :: (k, w) :: rest
    else (k, w) :: evidenceAssign qname v rest

/-- Modelled from the spec: `SVEvidence`: one evidence track per sample. -/
structure SVEvidence where
  normal : evidenceTrack_t := []
  tumor : evidenceTrack_t := []
deriving DecidableEq, Repr

/-- The accessor `getSample(isTumor)`. -/
def SVEvidence.getSample (e : SVEvidence) (isTumor : Bool) : evidenceTrack_t :=
  if isTumor then e.tumor else e.normal

/-- Writing through the reference that `getSample(isTumor)` returns. -/
def SVEvidence.setSample (e : SVEvidence) (isTumor : Bool) (t : evidenceTrack_t) :
    SVEvidence :=
  if isTumor then { e with tumor := t } else { e with normal := t }

/-! ## `incrementAlleleEvidence` (SVScorer.cpp:166-214) -/

/-- The function `incrementAlleleEvidence`; the three objects it mutates through
references are returned as a triple (allele, bp1Support, bp2Support). -/
def incrementAlleleEvidence (bp1SR bp2SR : SplitReadAlignment) (readMapQ : Nat)
    (allele : SVSampleAlleleInfo)
    (bp1Support bp2Support : SVFragmentEvidenceAlleleBreakendPerRead) :
    SVSampleAlleleInfo × SVFragmentEvidenceAlleleBreakendPerRead ×
      SVFragmentEvidenceAlleleBreakendPerRead :=
  let bp1Evidence : ℚ := if bp1SR.has_evidence then bp1SR.evidence else 0
  let bp1Support1 : SVFragmentEvidenceAlleleBreakendPerRead :=
    if bp1SR.has_evidence then
      { bp1Support with isSplitSupport := true, splitEvidence := bp1Evidence }
    else bp1Support
  let bp1Support2 := { bp1Support1 with splitLnLhood := bp1SR.alignLnLhood }
  let bp2Evidence : ℚ := if bp2SR.has_evidence then bp2SR.evidence else 0
  let bp2Support1 : SVFragmentEvidenceAlleleBreakendPerRead :=
    if bp2SR.has_evidence then
      { bp2Support with isSplitSupport := true, splitEvidence := bp2Evidence }
    else bp2Support
  let bp2Support2 := { bp2Support1 with splitLnLhood := bp2SR.alignLnLhood }
  let evidence : ℚ := max bp1Evidence bp2Evidence
  let allele1 : SVSampleAlleleInfo :=
    if bp1SR.has_evidence || bp2SR.has_evidence then
      { allele with
        splitReadCount := (allele.splitReadCount + 1) % UINT_RANGE,
        splitReadEvidence := allele.splitReadEvidence + evidence,
        splitReadMapQ := allele.splitReadMapQ + (((readMapQ * readMapQ) % UINT_RANGE : Nat) : ℚ) }
    else allele
  (allele1, bp1Support2, bp2Support2)

/-! ## `scoreSplitReads` (SVScorer.cpp:218-277) -/

/-- Modelled from the spec: `SVAlignmentInfo` (§3): per breakend a contig
sequence with its offset and a reference sequence with its offset. -/
structure SVAlignmentInfo where
  bp1ContigSeq : String := ""
  bp2ContigSeq : String := ""
  bp1ReferenceSeq : String := ""
  bp2ReferenceSeq : String := ""
  bp1ContigOffset : Nat := 0
  bp2ContigOffset : Nat := 0
  bp1RefOffset : Nat := 0
  bp2RefOffset : Nat := 0
deriving DecidableEq, Repr

/-- The collaborators of the split-read scorer whose code is not among the
sources, taken as parameters: `align` is `SplitReadAlignment::align` (§4.2) on
(read bases, qualities, template, offset) and `setReadEvidence` the helper of
`SVScorerShared.hh` that marks the read side of a fragment (§4.4). -/
structure SplitReadCollaborators where
  align : String → List Nat → String → Nat → SplitReadAlignment
  setReadEvidence : Nat → bam_record → SVFragmentEvidenceRead → SVFragmentEvidenceRead

/-- Modelled from the spec: a `bam_streamer` (§6 AlignmentStream):
`records tid beginPos endPos` is the sequence of records that `next()` yields
after `set_new_region(tid, beginPos, endPos)`. -/
structure bam_streamer where
  records : Int → Int → Int → List bam_record

/-- The record filter of lines 234-237. -/
def isSplitReadFiltered (bamRead : bam_record) : Bool :=
  bamRead.is_filter || bamRead.is_dup || bamRead.is_secondary || bamRead.is_supplement

/-- One iteration of the `while` loop of `scoreSplitReads` (lines 232-275) on the
record `bamRead`. -/
def scoreSplitRead (c : SplitReadCollaborators) (svAlignInfo : SVAlignmentInfo)
    (minMapQ : Nat) (bamRead : bam_record)
    (st : evidenceTrack_t × SVSampleInfo) : evidenceTrack_t × SVSampleInfo :=
  if bamRead.is_filter then st
  else if bamRead.is_dup then st
  else if bamRead.is_secondary then st
  else if bamRead.is_supplement then st
  else
    let sampleEvidence := st.1
    let sample := st.2
    let readSeq := bamRead.readSeq
    let qual := bamRead.qual
    let readMapQ := bamRead.map_qual
    let fragment0 := evidenceAt sampleEvidence bamRead.qname
    let fragment := fragment0.setRead bamRead.is_first
      (c.setReadEvidence minMapQ bamRead (fragment0.getRead bamRead.is_first))
    let altBp1ReadSupport := fragment.alt.bp1.getRead bamRead.is_first
    let refBp1ReadSupport := fragment.ref.bp1.getRead bamRead.is_first
    let altBp2ReadSupport := fragment.alt.bp2.getRead bamRead.is_first
    let refBp2ReadSupport := fragment.ref.bp2.getRead bamRead.is_first
    if altBp1ReadSupport.isSplitEvaluated then
      (evidenceAssign bamRead.qname fragment sampleEvidence, sample)
    else
      let altBp1E := { altBp1ReadSupport with isSplitEvaluated := true }
      let refBp1E := { refBp1ReadSupport with isSplitEvaluated := true }
      let altBp2E := { altBp2ReadSupport with isSplitEvaluated := true }
      let refBp2E := { refBp2ReadSupport with isSplitEvaluated := true }
      -- align the read to the somatic contig
      let bp1ContigSR := c.align readSeq qual svAlignInfo.bp1ContigSeq svAlignInfo.bp1ContigOffset
      let bp2ContigSR := c.align readSeq qual svAlignInfo.bp2ContigSeq svAlignInfo.bp2ContigOffset
      -- align the read to reference regions
      let bp1RefSR := c.align readSeq qual svAlignInfo.bp1ReferenceSeq svAlignInfo.bp1RefOffset
      let bp2RefSR := c.align readSeq qual svAlignInfo.bp2ReferenceSeq svAlignInfo.bp2RefOffset
      -- scoring
      let a := incrementAlleleEvidence bp1ContigSR bp2ContigSR readMapQ sample.alt altBp1E altBp2E
      let r := incrementAlleleEvidence bp1RefSR bp2RefSR readMapQ sample.ref refBp1E refBp2E
      let fragment1 : SVFragmentEvidence :=
        { fragment with
          alt := { bp1 := fragment.alt.bp1.setRead bamRead.is_first a.2.1,
                   bp2 := fragment.alt.bp2.setRead bamRead.is_first a.2.2 },
          ref := { bp1 := fragment.ref.bp1.setRead bamRead.is_first r.2.1,
                   bp2 := fragment.ref.bp2.setRead bamRead.is_first r.2.2 } }
      (evidenceAssign bamRead.qname fragment1 sampleEvidence,
        { sample with alt := a.1, ref := r.1 })

/-- The `while` loop of `scoreSplitReads` over the records the stream yields. -/
def scoreSplitReadRecords (c : SplitReadCollaborators) (svAlignInfo : SVAlignmentInfo)
    (minMapQ : Nat) (records : List bam_record)
    (st : evidenceTrack_t × SVSampleInfo) : evidenceTrack_t × SVSampleInfo :=
  records.foldl (fun acc bamRead => scoreSplitRead c svAlignInfo minMapQ bamRead acc) st

/-- The function `scoreSplitReads`: the stream is set to the breakend interval
and every record it yields is processed; the evidence track and the sample
record it mutates are returned. -/
def scoreSplitReads (c : SplitReadCollaborators) (bp : SVBreakend)
    (svAlignInfo : SVAlignmentInfo) (minMapQ : Nat) (sampleEvidence : evidenceTrack_t)
    (readStream : bam_streamer) (sample : SVSampleInfo) : evidenceTrack_t × SVSampleInfo :=
  scoreSplitReadRecords c svAlignInfo minMapQ
    (readStream.records bp.interval.tid bp.interval.range.begin_pos bp.interval.range.end_pos)
    (sampleEvidence, sample)

/-! ## `finishRms`, `finishSampleSRData` (SVScorer.cpp:281-313) -/

/-- The function `finishRms(sumSqr, count)`: "return rms given sum of squares".
`sumSqr` is the value of the `float` parameter; the count is converted to
`float` and the quotient is a `float` division.  The parameter `sqrt` is
`std::sqrt` on `float`, the single-precision square root of the C library. -/
def finishRms (sqrt : ℚ → ℚ) (sumSqr : ℚ) (count : Nat) : ℚ :=
  if count = 0 then 0 else sqrt (toFloat (sumSqr / toFloat (count : ℚ)))

/-- The overload `finishRms(sai)` on an allele record: the sum is converted to
the `float` parameter of `finishRms`. -/
def finishRmsAllele (sqrt : ℚ → ℚ) (sai : SVSampleAlleleInfo) : SVSampleAlleleInfo :=
  { sai with splitReadMapQ := finishRms sqrt (toFloat sai.splitReadMapQ) sai.splitReadCount }

/-- The function `finishSampleSRData`: "finish rms mapq" on both alleles. -/
def finishSampleSRData (sqrt : ℚ → ℚ) (sample : SVSampleInfo) : SVSampleInfo :=
  { sample with alt := finishRmsAllele sqrt sample.alt, ref := finishRmsAllele sqrt sample.ref }

/-! ## `SVScorer::getSVSplitReadSupport` (SVScorer.cpp:317-392) -/

/-- Modelled from the spec: the members of an `SVScorer` object that the scoring
functions read (`SVScorer.hh` is not among the sources): the tumor flag and the
stream of every alignment file, the two depth filters, and the minimum mapping
quality `_readScanner.getMinMapQ()`. -/
structure SVScorer where
  _isAlignmentTumor : List Bool
  _bamStreams : List bam_streamer
  _dFilterDiploid : ChromDepthFilterUtil
  _dFilterSomatic : ChromDepthFilterUtil
  minMapQ : Nat

/-- The constant `maxDepthSRFactor`: "at what multiple of the maxDepth do we skip
split read analysis?". -/
def maxDepthSRFactor : Nat := 2

/-- The value of `isSkipSRSearchDepth` computed in lines 327-336. -/
def isSkipSRSearchDepth (scorer : SVScorer) (sv : SVCandidate) (baseInfo : SVScoreInfo) :
    Bool :=
  if scorer._dFilterDiploid.isMaxDepthFilter && scorer._dFilterSomatic.isMaxDepthFilter then
    let bp1MaxMaxDepth : ℚ := max (scorer._dFilterDiploid.maxDepth sv.bp1.interval.tid)
      (scorer._dFilterSomatic.maxDepth sv.bp1.interval.tid)
    let bp2MaxMaxDepth : ℚ := max (scorer._dFilterDiploid.maxDepth sv.bp2.interval.tid)
      (scorer._dFilterSomatic.maxDepth sv.bp2.interval.tid)
    decide ((baseInfo.bp1MaxDepth : ℚ) > (maxDepthSRFactor : ℚ) * bp1MaxMaxDepth) ||
      decide ((baseInfo.bp2MaxDepth : ℚ) > (maxDepthSRFactor : ℚ) * bp2MaxMaxDepth)
  else false

/-- One iteration of the loop over the alignment files (lines 358-372): both
breakend regions of file `bamIndex` are scored into the track and the sample
record chosen by the file's tumor flag. -/
def scoreSplitReadsOfFile (scorer : SVScorer) (c : SplitReadCollaborators)
    (SVAlignInfo : SVAlignmentInfo) (sv : SVCandidate)
    (st : SVScoreInfo × SVEvidence) (bamIndex : Nat) : SVScoreInfo × SVEvidence :=
  match scorer._bamStreams.get? bamIndex with
  | none => st
  | some bamStream =>
    let baseInfo := st.1
    let evidence := st.2
    let isTumor := scorer._isAlignmentTumor.getD bamIndex false
    let sample := if isTumor then baseInfo.tumor else baseInfo.normal
    let sampleEvidence := evidence.getSample isTumor
    -- scoring split reads overlapping bp1
    let s1 := scoreSplitReads c sv.bp1 SVAlignInfo scorer.minMapQ sampleEvidence bamStream sample
    -- scoring split reads overlapping bp2
    let s2 := scoreSplitReads c sv.bp2 SVAlignInfo scorer.minMapQ s1.1 bamStream s1.2
    let baseInfo1 : SVScoreInfo :=
      if isTumor then { baseInfo with tumor := s2.2 } else { baseInfo with normal := s2.2 }
    (baseInfo1, evidence.setSample isTumor s2.1)

/-- The part of `getSVSplitReadSupport` after the gate (lines 347-375): every
alignment file is scored and the split-read data of both samples is finished. -/
def splitReadSearch (scorer : SVScorer) (c : SplitReadCollaborators) (sqrt : ℚ → ℚ)
    (SVAlignInfo : SVAlignmentInfo) (sv : SVCandidate) (baseInfo : SVScoreInfo)
    (evidence : SVEvidence) : SVScoreInfo × SVEvidence :=
  let bamCount := scorer._bamStreams.length
  let st := (List.range bamCount).foldl
    (scoreSplitReadsOfFile scorer c SVAlignInfo sv) (baseInfo, evidence)
  let baseInfo1 := { st.1 with tumor := finishSampleSRData sqrt st.1.tumor }
  let baseInfo2 := { baseInfo1 with normal := finishSampleSRData sqrt baseInfo1.normal }
  (baseInfo2, st.2)

/-- The function `SVScorer::getSVSplitReadSupport`.  `SVAlignInfo` is the value
of `SVAlignmentInfo(sv, assemblyData)` (its constructor is not among the
sources); the score info and the evidence it mutates are returned. -/
def getSVSplitReadSupport (scorer : SVScorer) (c : SplitReadCollaborators) (sqrt : ℚ → ℚ)
    (SVAlignInfo : SVAlignmentInfo) (sv : SVCandidate) (baseInfo : SVScoreInfo)
    (evidence : SVEvidence) : SVScoreInfo × SVEvidence :=
  let isSkipSRSearch : Bool := sv.isImprecise || isSkipSRSearchDepth scorer sv baseInfo
  if isSkipSRSearch then (baseInfo, evidence)
  else splitReadSearch scorer c sqrt SVAlignInfo sv baseInfo evidence

/-- Specification side: the gate as the specification words it: the SV is
imprecise, or both depth filters are enabled and the depth at bp1 or at bp2
exceeds twice the larger of the two thresholds of its chromosome. -/
def SkipsSplitReadWork (scorer : SVScorer) (sv : SVCandidate) (baseInfo : SVScoreInfo) :
    Prop :=
  sv.isImprecise = true ∨
    (scorer._dFilterDiploid.isMaxDepthFilter = true ∧
      scorer._dFilterSomatic.isMaxDepthFilter = true ∧
      ((baseInfo.bp1MaxDepth : ℚ) >
          2 * max (scorer._dFilterDiploid.maxDepth sv.bp1.interval.tid)
            (scorer._dFilterSomatic.maxDepth sv.bp1.interval.tid) ∨
        (baseInfo.bp2MaxDepth : ℚ) >
          2 * max (scorer._dFilterDiploid.maxDepth sv.bp2.interval.tid)
            (scorer._dFilterSomatic.maxDepth sv.bp2.interval.tid)))

instance (scorer : SVScorer) (sv : SVCandidate) (baseInfo : SVScoreInfo) :
    Decidable (SkipsSplitReadWork scorer sv baseInfo) := by
  unfold SkipsSplitReadWork; infer_instance

/-- A depth filter with the same threshold on every chromosome. -/
def constDepthFilter (t : ℚ) : ChromDepthFilterUtil :=
  { isMaxDepthFilter := true, maxDepth := fun _ => t }

/-- A scorer whose depth filters are both enabled with threshold `t` on every
chromosome, reading the given streams. -/
def thresholdScorer (t : ℚ) (isTumor : List Bool) (streams : List bam_streamer) : SVScorer :=
  { _isAlignmentTumor := isTumor, _bamStreams := streams,
    _dFilterDiploid := constDepthFilter t, _dFilterSomatic := constDepthFilter t,
    minMapQ := 15 }

/-! ## Logarithms -/

/-- A natural logarithm `ln arg`, kept exactly by its argument: the values that
the source computes with `std::log` and adds up in log space.  `arg = 0` stands
for `-inf`. -/
structure LnVal where
  arg : ℚ
deriving DecidableEq, Repr

/-- The value `std::log(x)`. -/
def LnVal.log (x : ℚ) : LnVal := { arg := x }

/-- The sum of two logarithms: `ln a + ln b = ln (a b)`. -/
def LnVal.add (a b : LnVal) : LnVal := { arg := a.arg * b.arg }

instance : Add LnVal := ⟨LnVal.add⟩

/-- The value `0.` as a logarithm: `0 = ln 1`. -/
instance : Zero LnVal := ⟨{ arg := 1 }⟩

/-- The value `std::exp(a)`. -/
def LnVal.exp (a : LnVal) : ℚ := a.arg

/-! ## The diploid model (SVScorer.cpp:576-792) -/

/-- The struct `ProbSet`: "record a set of convenient companion values for any
probability". -/
structure ProbSet where
  prob : ℚ
  comp : ℚ
  lnProb : LnVal
  lnComp : LnVal
deriving DecidableEq, Repr

/-- The constructor `ProbSet(initProb)`. -/
def ProbSet.mk1 (initProb : ℚ) : ProbSet :=
  { prob := initProb, comp := 1 - initProb, lnProb := LnVal.log initProb,
    lnComp := LnVal.log (1 - initProb) }

/-- The constant `chimeraProb(1e-3)` of `scoreDiploidSV`. -/
def chimeraProb : ProbSet := ProbSet.mk1 (1 / 1000)

/-- The function `getSpanningPairAlleleLhood` (lines 447-464). -/
def getSpanningPairAlleleLhood (allele : SVFragmentEvidenceAllele) : ℚ :=
  let fragProb0 : ℚ := 0
  let fragProb1 : ℚ :=
    if allele.bp1.isFragmentSupport then allele.bp1.fragLengthProb else fragProb0
  if allele.bp2.isFragmentSupport then max fragProb1 allele.bp2.fragLengthProb
  else fragProb1

/-- The function `incrementSpanningPairAlleleLhood` (lines 595-604); the new value
of `bpLhood` is returned. -/
def incrementSpanningPairAlleleLhood (chimeraProb : ProbSet)
    (allele : SVFragmentEvidenceAllele) (bpLhood : ℚ) : ℚ :=
  let fragProb := getSpanningPairAlleleLhood allele
  bpLhood * (chimeraProb.comp * fragProb + chimeraProb.prob)

/-- The struct `AlleleLhood` with the initial values of its constructor. -/
structure AlleleLhood where
  fragPair : ℚ := 1
  read1Split : ℚ := 1
  read2Split : ℚ := 1
deriving DecidableEq, Repr

/-- Modelled from the spec: the genotype index `DIPLOID_GT::index_t` (§3
DiploidScoreInfo): REF is HOMREF, HOM is HOMALT. -/
inductive DIPLOID_GT where
  | REF
  | HET
  | HOM
deriving DecidableEq, Repr

/-- Modelled from the spec: `DIPLOID_GT::altFraction` (§4.7): the alt fraction
f(G) is 0, 0.5, 1 for HOMREF, HET, HOMALT. -/
def DIPLOID_GT.altFraction : DIPLOID_GT → ℚ
  | DIPLOID_GT.REF => 0
  | DIPLOID_GT.HET => 1 / 2
  | DIPLOID_GT.HOM => 1

/-- Lines 699-716 of `scoreDiploidSV`: the pair `(refProbs, altProbs)` of one
fragment after the spanning-pair increments. -/
def diploidAlleleLhoods (fragev : SVFragmentEvidence) : AlleleLhood × AlleleLhood :=
  let refProbs : AlleleLhood := {}
  let altProbs : AlleleLhood := {}
  -- high-quality spanning support relies on read1 and read2 mapping well:
  if fragev.read1.isObservedAnchor && fragev.read2.isObservedAnchor then
    -- only add to the likelihood if the fragment "supports" at least one allele:
    if fragev.isAnyPairSupport then
      ({ refProbs with
          fragPair := incrementSpanningPairAlleleLhood chimeraProb fragev.alt refProbs.fragPair },
        { altProbs with
          fragPair := incrementSpanningPairAlleleLhood chimeraProb fragev.ref altProbs.fragPair })
    else (refProbs, altProbs)
  else (refProbs, altProbs)

/-- One iteration of the loop over `evidence.normal` in `scoreDiploidSV` (lines
695-740): the fragment's contribution is added to `loglhood[gt]` for every
genotype. -/
def diploidFragmentLoglhood (loglhood : DIPLOID_GT → LnVal) (fragev : SVFragmentEvidence) :
    DIPLOID_GT → LnVal :=
  let probs := diploidAlleleLhoods fragev
  let refProbs := probs.1
  let altProbs := probs.2
  fun gt =>
    let altFrac : ℚ := DIPLOID_GT.altFraction gt
    let reflhood : ℚ := refProbs.fragPair * (1 - altFrac)
    let altlhood : ℚ := altProbs.fragPair * altFrac
    loglhood gt + LnVal.log (reflhood + altlhood)

/-- The array `loglhood` after the loop over the normal evidence track, starting
from `0.` for every genotype. -/
def diploidLoglhood (normal : evidenceTrack_t) : DIPLOID_GT → LnVal :=
  normal.foldl (fun loglhood val => diploidFragmentLoglhood loglhood val.2) (fun _ => 0)

/-- Modelled from the spec: the index that `normalize_ln_distro` reports (§4.7
"pick argmax as the call"; `blt_util/prob_util.hh` is not among the sources):
the genotype with the largest value, the first one on ties. -/
def normalize_ln_distro_max (pprob : DIPLOID_GT → LnVal) : DIPLOID_GT :=
  let m0 := DIPLOID_GT.REF
  let m1 := if (pprob DIPLOID_GT.HET).arg > (pprob m0).arg then DIPLOID_GT.HET else m0
  if (pprob DIPLOID_GT.HOM).arg > (pprob m1).arg then DIPLOID_GT.HOM else m1

/-- Modelled from the spec: the values that `normalize_ln_distro` leaves in the
array (§4.7 "normalize across the three genotypes in log-space"): the
exponentials divided by their sum. -/
def normalize_ln_distro (pprob : DIPLOID_GT → LnVal) : DIPLOID_GT → ℚ :=
  fun gt => (pprob gt).exp /
    ((pprob DIPLOID_GT.REF).exp + (pprob DIPLOID_GT.HET).exp + (pprob DIPLOID_GT.HOM).exp)

/-- Modelled from the spec: `prob_comp` (§4.7 "1 − P(called)"): the sum of the
probabilities of the other genotypes. -/
def prob_comp (pprob : DIPLOID_GT → ℚ) (gt : DIPLOID_GT) : ℚ :=
  (if gt = DIPLOID_GT.REF then 0 else pprob DIPLOID_GT.REF) +
    (if gt = DIPLOID_GT.HET then 0 else pprob DIPLOID_GT.HET) +
    (if gt = DIPLOID_GT.HOM then 0 else pprob DIPLOID_GT.HOM)

/-- Modelled from the spec: `SVScoreInfoDiploid` (§3 DiploidScoreInfo). -/
structure SVScoreInfoDiploid where
  filters : Finset String := ∅
  gt : DIPLOID_GT := DIPLOID_GT.REF
  altScore : Nat := 0
  gtScore : Nat := 0
deriving DecidableEq

/-- Modelled from the spec: the part of `CallOptionsDiploid` that `scoreDiploidSV`
reads. -/
structure CallOptionsDiploid where
  minOutputAltScore : Nat
  minGTScoreFilter : Nat
  maxDepthFilterLabel : String
  minGTFilterLabel : String

/-- Modelled from the spec: `CallOptionsDiploidDeriv`: the configured log-priors
of the three genotypes (§4.7). -/
structure CallOptionsDiploidDeriv where
  prior : DIPLOID_GT → LnVal

/-- The posterior `pprob` of lines 742-749 after normalisation. -/
def diploidPosterior (diploidDopt : CallOptionsDiploidDeriv) (evidence : SVEvidence) :
    DIPLOID_GT → ℚ :=
  normalize_ln_distro (fun gt => diploidLoglhood evidence.normal gt + diploidDopt.prior gt)

/-- The genotype `maxGt` of lines 748-749. -/
def diploidMaxGt (diploidDopt : CallOptionsDiploidDeriv) (evidence : SVEvidence) :
    DIPLOID_GT :=
  normalize_ln_distro_max (fun gt => diploidLoglhood evidence.normal gt + diploidDopt.prior gt)

/-- The filter block of `scoreDiploidSV` (lines 772-791). -/
def diploidFilters (diploidOpt : CallOptionsDiploid) (sv : SVCandidate)
    (dFilter : ChromDepthFilterUtil) (baseInfo : SVScoreInfo)
    (diploidInfo : SVScoreInfoDiploid) : Finset String :=
  if diploidInfo.altScore ≥ diploidOpt.minOutputAltScore then
    let f1 : Finset String :=
      if dFilter.isMaxDepthFilter then
        if (baseInfo.bp1MaxDepth : ℚ) > dFilter.maxDepth sv.bp1.interval.tid then
          insert diploidOpt.maxDepthFilterLabel diploidInfo.filters
        else if (baseInfo.bp2MaxDepth : ℚ) > dFilter.maxDepth sv.bp2.interval.tid then
          insert diploidOpt.maxDepthFilterLabel diploidInfo.filters
        else diploidInfo.filters
      else diploidInfo.filters
    if diploidInfo.gtScore < diploidOpt.minGTScoreFilter then
      insert diploidOpt.minGTFilterLabel f1
    else f1
  else diploidInfo.filters

/-- The function `scoreDiploidSV`.  The phred conversion `error_prob_to_qphred` of
`blt_util/qscore.hh` (not among the sources) is a parameter. -/
def scoreDiploidSV (error_prob_to_qphred : ℚ → Nat) (diploidOpt : CallOptionsDiploid)
    (diploidDopt : CallOptionsDiploidDeriv) (sv : SVCandidate)
    (dFilter : ChromDepthFilterUtil) (evidence : SVEvidence) (baseInfo : SVScoreInfo)
    (diploidInfo : SVScoreInfoDiploid) : SVScoreInfoDiploid :=
  let pprob := diploidPosterior diploidDopt evidence
  let maxGt := diploidMaxGt diploidDopt evidence
  let scored : SVScoreInfoDiploid :=
    { diploidInfo with
      gt := maxGt,
      altScore := error_prob_to_qphred (pprob DIPLOID_GT.REF),
      gtScore := error_prob_to_qphred (prob_comp pprob maxGt) }
  { scored with filters := diploidFilters diploidOpt sv dFilter baseInfo scored }

/-- The uniform prior: log(1/3) for every genotype. -/
def uniformPrior : CallOptionsDiploidDeriv := { prior := fun _ => LnVal.log (1 / 3) }

/-- A fragment whose two reads are observed anchors and whose pair supports the
alt allele with `fragLengthProb = 0.9` and the ref allele with `1e-4`. -/
def altSupportingFragment : SVFragmentEvidence :=
  { read1 := { isObservedAnchor := true }, read2 := { isObservedAnchor := true },
    alt := { bp1 := { isFragmentSupport := true, fragLengthProb := 9 / 10 } },
    ref := { bp1 := { isFragmentSupport := true, fragLengthProb := 1 / 10000 } } }

/-- The "diploid call" scenario: a normal track of 10 alt-supporting fragments. -/
def diploidCallEvidence : SVEvidence :=
  { normal := [("frag0", altSupportingFragment), ("frag1", altSupportingFragment),
      ("frag2", altSupportingFragment), ("frag3", altSupportingFragment),
      ("frag4", altSupportingFragment), ("frag5", altSupportingFragment),
      ("frag6", altSupportingFragment), ("frag7", altSupportingFragment),
      ("frag8", altSupportingFragment), ("frag9", altSupportingFragment)] }

/-- Diploid options for the examples. -/
def diploidOptDefault : CallOptionsDiploid :=
  { minOutputAltScore := 10, minGTScoreFilter := 15, maxDepthFilterLabel := "MaxDepth",
    minGTFilterLabel := "MinGQ" }

/-! ## The evidence summary (SVScorer.cpp:396-505) -/

/-- The function `lnToProb` on two `float` variables; the new values of
`(lower, higher)` are returned.  The difference is a `float` subtraction, the
parameter `exp` is `std::exp` on `float` and its result is stored in a `float`;
the literal `1.` makes the sum and the two quotients `double` operations, whose
results are stored in `float` variables. -/
def lnToProb (exp : ℚ → ℚ) (lower higher : ℚ) : ℚ × ℚ :=
  let lower1 : ℚ := toFloat (exp (toFloat (lower - higher)))
  let higher1 : ℚ := toFloat (toDouble (1 / toDouble (lower1 + 1)))
  let lower2 : ℚ := toFloat (toDouble (lower1 / toDouble (lower1 + 1)))
  (lower2, higher1)

/-- The constant `static const float splitSupportProb(0.999)`: the `double`
literal 0.999 converted to `float`. -/
def splitSupportProb : ℚ := toFloat (toDouble (999 / 1000))

/-- The statement `allele.confidentSplitReadCount++`. -/
def incrConfidentSplitReadCount (allele : SVSampleAlleleInfo) : SVSampleAlleleInfo :=
  { allele with confidentSplitReadCount := (allele.confidentSplitReadCount + 1) % UINT_RANGE }

/-- The function `addConservativeSplitReadSupport` (lines 409-443); the sample
record it mutates is returned.  The cells hold `float` values, so that the two
`std::max` results are stored in the `float` variables as they are. -/
def addConservativeSplitReadSupport (exp : ℚ → ℚ) (fragev : SVFragmentEvidence)
    (isRead1 : Bool) (sampleBaseInfo : SVSampleInfo) : SVSampleInfo :=
  -- only consider reads where at least one allele and one breakend is confident
  if !fragev.isAnySplitSupportForRead isRead1 then sampleBaseInfo
  else
    let altLnLhood : ℚ :=
      max (fragev.alt.bp1.getRead isRead1).splitLnLhood
        (fragev.alt.bp2.getRead isRead1).splitLnLhood
    let refLnLhood : ℚ :=
      max (fragev.ref.bp1.getRead isRead1).splitLnLhood
        (fragev.ref.bp2.getRead isRead1).splitLnLhood
    -- convert to normalized prob:
    if altLnLhood > refLnLhood then
      let p := lnToProb exp refLnLhood altLnLhood
      if p.2 > splitSupportProb then
        { sampleBaseInfo with alt := incrConfidentSplitReadCount sampleBaseInfo.alt }
      else sampleBaseInfo
    else
      let p := lnToProb exp altLnLhood refLnLhood
      if p.2 > splitSupportProb then
        { sampleBaseInfo with ref := incrConfidentSplitReadCount sampleBaseInfo.ref }
      else sampleBaseInfo

/-- The ways a scoring function can fail: a failed `assert` and the
`LogicException` thrown through `BOOST_THROW_EXCEPTION`. -/
inductive ScoringFailure where
  | AssertionFailure
  | LogicException
deriving DecidableEq, Repr

/-- The constant `static const float pairSupportProb(0.9)`: the `double` literal
0.9 converted to `float`. -/
def pairSupportProb : ℚ := toFloat (toDouble (9 / 10))

/-- The statement `allele.confidentSpanningPairCount++`. -/
def incrConfidentSpanningPairCount (allele : SVSampleAlleleInfo) : SVSampleAlleleInfo :=
  { allele with
    confidentSpanningPairCount := (allele.confidentSpanningPairCount + 1) % UINT_RANGE }

/-- The function `addConservativeSpanningPairSupport` (lines 468-505); the sample
record it mutates is returned, or the failure it ends with.  The sum and the
two quotients are `float` operations; the likelihoods are `float` values, so
that the sum of two of them is positive when one of them is, and the quotients
do not divide by zero. -/
def addConservativeSpanningPairSupport (fragev : SVFragmentEvidence)
    (sampleBaseInfo : SVSampleInfo) : Except ScoringFailure SVSampleInfo :=
  if !fragev.isAnyPairSupport then Except.ok sampleBaseInfo
  -- high-quality spanning support relies on read1 and read2 mapping well:
  else if !(fragev.read1.isObservedAnchor && fragev.read2.isObservedAnchor) then
    Except.ok sampleBaseInfo
  else
    let altLhood : ℚ := getSpanningPairAlleleLhood fragev.alt
    let refLhood : ℚ := getSpanningPairAlleleLhood fragev.ref
    if ¬ (altLhood ≥ 0) then Except.error ScoringFailure.AssertionFailure
    else if ¬ (refLhood ≥ 0) then Except.error ScoringFailure.AssertionFailure
    else if altLhood ≤ 0 ∧ refLhood ≤ 0 then Except.error ScoringFailure.LogicException
    else
      -- convert to normalized prob:
      let sum : ℚ := toFloat (altLhood + refLhood)
      if altLhood > refLhood then
        if toFloat (altLhood / sum) > pairSupportProb then
          Except.ok { sampleBaseInfo with
            alt := incrConfidentSpanningPairCount sampleBaseInfo.alt }
        else Except.ok sampleBaseInfo
      else
        if toFloat (refLhood / sum) > pairSupportProb then
          Except.ok { sampleBaseInfo with
            ref := incrConfidentSpanningPairCount sampleBaseInfo.ref }
        else Except.ok sampleBaseInfo

/-- Specification side: `alt_ln`, the larger split log-likelihood of the two alt
cells of a read. -/
def splitAltLn (fragev : SVFragmentEvidence) (isRead1 : Bool) : ℚ :=
  max (fragev.alt.bp1.getRead isRead1).splitLnLhood (fragev.alt.bp2.getRead isRead1).splitLnLhood

/-- Specification side: `ref_ln`, the larger split log-likelihood of the two ref
cells of a read. -/
def splitRefLn (fragev : SVFragmentEvidence) (isRead1 : Bool) : ℚ :=
  max (fragev.ref.bp1.getRead isRead1).splitLnLhood (fragev.ref.bp2.getRead isRead1).splitLnLhood

/-- Specification side: `p_low = exp(low − high) / (exp(low − high) + 1)` with
`low` / `high` the smaller / larger of the two log-likelihoods. -/
def splitPLow (exp : ℚ → ℚ) (alt_ln ref_ln : ℚ) : ℚ :=
  exp (min alt_ln ref_ln - max alt_ln ref_ln) /
    (exp (min alt_ln ref_ln - max alt_ln ref_ln) + 1)

/-- Specification side: `p_high = 1 − p_low`. -/
def splitPHigh (exp : ℚ → ℚ) (alt_ln ref_ln : ℚ) : ℚ := 1 - splitPLow exp alt_ln ref_ln

/-- Specification side: the exponential as `lnToProb` obtains it: the argument is
a `float` difference and the result is stored in a `float`. -/
def expAsFloat (exp : ℚ → ℚ) (x : ℚ) : ℚ := toFloat (exp (toFloat x))

/-- Specification side: the `float` value `p_high` that `lnToProb` leaves in
`higher`, for `low` / `high` the smaller / larger of the two log-likelihoods:
`1. / (e + 1.)` in `double` arithmetic with `e` the `float` exponential of
`low − high`, stored in a `float`. -/
def floatPHigh (exp : ℚ → ℚ) (alt_ln ref_ln : ℚ) : ℚ :=
  toFloat (toDouble (1 / toDouble (expAsFloat exp (min alt_ln ref_ln - max alt_ln ref_ln) + 1)))

/-- A sample record with `confidentSplitReadCount` of its alt allele raised by 1. -/
def withAltConfidentSplit (sample : SVSampleInfo) : SVSampleInfo :=
  { sample with
    alt := { sample.alt with confidentSplitReadCount := sample.alt.confidentSplitReadCount + 1 } }

/-- A sample record with `confidentSplitReadCount` of its ref allele raised by 1. -/
def withRefConfidentSplit (sample : SVSampleInfo) : SVSampleInfo :=
  { sample with
    ref := { sample.ref with confidentSplitReadCount := sample.ref.confidentSplitReadCount + 1 } }

/-- A sample record with `confidentSpanningPairCount` of its alt allele raised
by 1. -/
def withAltConfidentPair (sample : SVSampleInfo) : SVSampleInfo :=
  { sample with
    alt := { sample.alt with
      confidentSpanningPairCount := sample.alt.confidentSpanningPairCount + 1 } }

/-- A sample record with `confidentSpanningPairCount` of its ref allele raised
by 1. -/
def withRefConfidentPair (sample : SVSampleInfo) : SVSampleInfo :=
  { sample with
    ref := { sample.ref with
      confidentSpanningPairCount := sample.ref.confidentSpanningPairCount + 1 } }

/-- The guard of lines 708-711 of `scoreDiploidSV`: both reads are observed
anchors and the fragment has any pair support. -/
def contributesToDiploid (fragev : SVFragmentEvidence) : Bool :=
  fragev.read1.isObservedAnchor && fragev.read2.isObservedAnchor && fragev.isAnyPairSupport

/-! ## `SVScorer::getBreakendMaxMappedDepth` (SVScorer.cpp:117-162) -/

/-- Modelled from the spec: `known_pos_range2::center_pos()`, the midpoint of
the interval (§3 Breakend; `blt_util/known_pos_range2.hh` is not among the
sources). -/
def known_pos_range2.center_pos (r : known_pos_range2) : Int :=
  r.begin_pos + (r.end_pos - r.begin_pos) / 2

/-- Modelled from the spec: `known_pos_range2::size()`, the number of positions
of the half-open range, 0 when it is empty. -/
def known_pos_range2.size (r : known_pos_range2) : Nat := (r.end_pos - r.begin_pos).toNat

/-- The ways `getBreakendMaxMappedDepth` can end without a depth: the failed
`assert(isNormalFound)`, and an execution without defined behaviour (a write
outside the depth array, `_bamStreams` indexed outside its bounds, or
`std::max_element` dereferenced on an empty array). -/
inductive DepthFailure where
  | AssertionFailure
  | UndefinedBehaviour
deriving DecidableEq, Repr

/-- The range `searchRange` of lines 124-126: 50 bases to either side of the
center position of the breakend, the begin clamped at 0. -/
def depthSearchRange (bp : SVBreakend) : known_pos_range2 :=
  let regionSize : Int := 50
  let centerPos : Int := bp.interval.range.center_pos
  { begin_pos := max (centerPos - regionSize) 0, end_pos := centerPos + regionSize }

/-- The `while` loop of lines 142-153 over the records the stream yields:
unmapped records are passed over, the loop ends at the first mapped record that
starts at or behind the end of the range, and every other record is added to
the depth array.  The read filter of line 147 is commented out in the source. -/
def addStreamToDepthEst (searchRange : known_pos_range2) :
    List bam_record → List Nat → Option (List Nat)
  | [], depth => some depth
  | bamRead :: rest, depth =>
    if bamRead.is_unmapped then addStreamToDepthEst searchRange rest depth
    else if bamRead.pos - 1 ≥ searchRange.end_pos then some depth
    else
      match addReadToDepthEst bamRead searchRange.begin_pos depth with
      | none => none
      | some depth1 => addStreamToDepthEst searchRange rest depth1

/-- The `for` loop of lines 133-157 over the alignment files, `bamIndices` being
the indices still to visit: tumor files are passed over and the loop ends after
the first other file.  The result is the depth array with the value of
`isNormalFound`. -/
def addFirstNormalToDepthEst (scorer : SVScorer) (bp : SVBreakend)
    (searchRange : known_pos_range2) : List Nat → List Nat → Option (List Nat × Bool)
  | [], depth => some (depth, false)
  | bamIndex :: bamIndices, depth =>
    if scorer._isAlignmentTumor.getD bamIndex false then
      addFirstNormalToDepthEst scorer bp searchRange bamIndices depth
    else
      match scorer._bamStreams.get? bamIndex with
      | none => none
      | some bamStream =>
        -- set bam stream to new search interval:
        match addStreamToDepthEst searchRange
            (bamStream.records bp.interval.tid searchRange.begin_pos searchRange.end_pos)
            depth with
        | none => none
        | some depth1 => some (depth1, true)

/-- Lines 124-159 of `getBreakendMaxMappedDepth`: the depth array at the
`return` statement. -/
def getBreakendDepth (scorer : SVScorer) (bp : SVBreakend) :
    Except DepthFailure (List Nat) :=
  let searchRange := depthSearchRange bp
  let depth : List Nat := List.replicate searchRange.size 0
  let bamCount := scorer._bamStreams.length
  match addFirstNormalToDepthEst scorer bp searchRange (List.range bamCount) depth with
  | none => Except.error DepthFailure.UndefinedBehaviour
  | some (depth1, isNormalFound) =>
    if isNormalFound then Except.ok depth1
    else Except.error DepthFailure.AssertionFailure

/-- The function `SVScorer::getBreakendMaxMappedDepth`: the largest counter of
the depth array. -/
def getBreakendMaxMappedDepth (scorer : SVScorer) (bp : SVBreakend) :
    Except DepthFailure Nat :=
  match getBreakendDepth scorer bp with
  | Except.error e => Except.error e
  | Except.ok [] => Except.error DepthFailure.UndefinedBehaviour
  | Except.ok (d :: depth) => Except.ok (depth.foldl max d)

/-- Specification side: the index `i` is the first alignment file whose tumor
flag is false, and `bamStream` is its stream. -/
def IsFirstNormal (scorer : SVScorer) (i : Nat) (bamStream : bam_streamer) : Prop :=
  (∀ j : Nat, j < i → scorer._isAlignmentTumor.getD j false = true) ∧
    scorer._isAlignmentTumor.getD i false = false ∧
    scorer._bamStreams.get? i = some bamStream

/-- Specification side: the depth array that the records of one stream produce
over the search range of the breakend, from zeroed counters. -/
def streamDepth (bp : SVBreakend) (bamStream : bam_streamer) : Option (List Nat) :=
  addStreamToDepthEst (depthSearchRange bp)
    (bamStream.records bp.interval.tid (depthSearchRange bp).begin_pos
      (depthSearchRange bp).end_pos)
    (List.replicate (depthSearchRange bp).size 0)

/-- The scorer `scorer` with the record sequence of every stream passed through
`g`: the same alignment files with other records in them. -/
def SVScorer.mapRecords (scorer : SVScorer) (g : List bam_record → List bam_record) :
    SVScorer :=
  { scorer with
    _bamStreams := scorer._bamStreams.map
      (fun bamStream => { records := fun tid b e => g (bamStream.records tid b e) }) }

/-! ## `getSampleCounts`, `getSVSupportSummary` (SVScorer.cpp:509-541) -/

/-- The function `getSampleCounts`: every fragment of the track, in map order,
goes through the two split-read tests and the spanning-pair test; the first
failure ends the loop. -/
def getSampleCounts (exp : ℚ → ℚ) :
    evidenceTrack_t → SVSampleInfo → Except ScoringFailure SVSampleInfo
  | [], sampleBaseInfo => Except.ok sampleBaseInfo
  | val :: rest, sampleBaseInfo =>
    let fragev := val.2
    -- evaluate read1 and read2 from this fragment
    let s1 := addConservativeSplitReadSupport exp fragev true sampleBaseInfo
    let s2 := addConservativeSplitReadSupport exp fragev false s1
    match addConservativeSpanningPairSupport fragev s2 with
    | Except.error e => Except.error e
    | Except.ok s3 => getSampleCounts exp rest s3

/-- The function `getSVSupportSummary`: the normal sample, then the tumor
sample. -/
def getSVSupportSummary (exp : ℚ → ℚ) (evidence : SVEvidence) (baseInfo : SVScoreInfo) :
    Except ScoringFailure SVScoreInfo :=
  match getSampleCounts exp evidence.normal baseInfo.normal with
  | Except.error e => Except.error e
  | Except.ok normal =>
    match getSampleCounts exp evidence.tumor baseInfo.tumor with
    | Except.error e => Except.error e
    | Except.ok tumor => Except.ok { baseInfo with normal := normal, tumor := tumor }

/-! ## `SVScorer::scoreSV` (SVScorer.cpp:546-572 and 889-912) -/

/-- The functions and values that `scoreSV` reaches and whose code is not among
the sources, taken as parameters: the collaborators of the split-read scorer,
the C library functions `sqrt` and `exp`, the phred conversion, the member
function `getSVPairSupport` (it returns the score info and the evidence it
mutates), and the constructor `SVAlignmentInfo(sv, assemblyData)`. -/
structure ScoreSVCollaborators (SetData AssemblyData : Type) where
  split : SplitReadCollaborators
  sqrt : ℚ → ℚ
  exp : ℚ → ℚ
  error_prob_to_qphred : ℚ → Nat
  getSVPairSupport : SetData → SVCandidate → SVScoreInfo → SVEvidence → SVScoreInfo × SVEvidence
  SVAlignInfo : SVCandidate → AssemblyData → SVAlignmentInfo

/-- Modelled from the spec: the option members `_diploidOpt`, `_diploidDopt` and
`_somaticOpt` of an `SVScorer` object (`SVScorer.hh` is not among the
sources). -/
structure SVScorerOptions where
  _diploidOpt : CallOptionsDiploid
  _diploidDopt : CallOptionsDiploidDeriv
  _somaticOpt : CallOptionsSomatic

/-- The ways `scoreSV` can end without a result: a failure of one of the two
depth estimates or a failure of the evidence summary. -/
inductive ScoreSVFailure where
  | depth (e : DepthFailure)
  | summary (e : ScoringFailure)
deriving DecidableEq, Repr

/-- The overload of `SVScorer::scoreSV` with the "shared information gathering
steps of all scoring models" (lines 546-572); the score info and the evidence
it mutates are returned. -/
def scoreSVShared {SetData AssemblyData : Type} (scorer : SVScorer)
    (k : ScoreSVCollaborators SetData AssemblyData) (svData : SetData)
    (assemblyData : AssemblyData) (sv : SVCandidate) (baseInfo : SVScoreInfo)
    (evidence : SVEvidence) : Except ScoreSVFailure (SVScoreInfo × SVEvidence) :=
  -- get breakend center_pos depth estimate:
  match getBreakendMaxMappedDepth scorer sv.bp1 with
  | Except.error e => Except.error (ScoreSVFailure.depth e)
  | Except.ok bp1MaxDepth =>
    match getBreakendMaxMappedDepth scorer sv.bp2 with
    | Except.error e => Except.error (ScoreSVFailure.depth e)
    | Except.ok bp2MaxDepth =>
      let baseInfo1 : SVScoreInfo :=
        { baseInfo with bp1MaxDepth := bp1MaxDepth, bp2MaxDepth := bp2MaxDepth }
      -- count the paired-read fragments supporting the ref and alt alleles in each sample:
      let p := k.getSVPairSupport svData sv baseInfo1 evidence
      -- count the split reads supporting the ref and alt alleles in each sample
      let s := getSVSplitReadSupport scorer k.split k.sqrt (k.SVAlignInfo sv assemblyData)
        sv p.1 p.2
      -- compute allele likelihoods, and any other summary metric shared between all models:
      match getSVSupportSummary k.exp s.2 s.1 with
      | Except.error e => Except.error (ScoreSVFailure.summary e)
      | Except.ok baseInfo2 => Except.ok (baseInfo2, s.2)

/-- Modelled from the spec: `SVModelScoreInfo` (§6 `ModelScoreInfo`): the shared
score info and one record per scoring model. -/
structure SVModelScoreInfo where
  base : SVScoreInfo := {}
  diploid : SVScoreInfoDiploid := {}
  somatic : SVScoreInfoSomatic := {}
deriving DecidableEq

/-- Modelled from the spec: `SVModelScoreInfo::clear()` (§4.9 "Reset all mutable
score records at entry"): every record returns to its initial value. -/
def SVModelScoreInfo.clear (_modelScoreInfo : SVModelScoreInfo) : SVModelScoreInfo := {}

/-- The overload of `SVScorer::scoreSV` with the flag `isSomatic` (lines
889-912); the model score info it mutates is returned. -/
def scoreSV {SetData AssemblyData : Type} (scorer : SVScorer) (opts : SVScorerOptions)
    (k : ScoreSVCollaborators SetData AssemblyData) (svData : SetData)
    (assemblyData : AssemblyData) (sv : SVCandidate) (isSomatic : Bool)
    (modelScoreInfo : SVModelScoreInfo) : Except ScoreSVFailure SVModelScoreInfo :=
  let cleared := modelScoreInfo.clear
  -- accumulate model-neutral evidence for each candidate (or its corresponding reference allele)
  let evidence : SVEvidence := {}
  match scoreSVShared scorer k svData assemblyData sv cleared.base evidence with
  | Except.error e => Except.error e
  | Except.ok (base, evidence1) =>
    -- score components specific to diploid-germline model:
    let diploid := scoreDiploidSV k.error_prob_to_qphred opts._diploidOpt opts._diploidDopt sv
      scorer._dFilterDiploid evidence1 base cleared.diploid
    -- score components specific to somatic model:
    let somatic :=
      if isSomatic then
        scoreSomaticSV opts._somaticOpt sv scorer._dFilterSomatic base cleared.somatic
      else cleared.somatic
    Except.ok { base := base, diploid := diploid, somatic := somatic }

/-- Specification side: the normalized prior probability of a genotype, the
posterior of a model that has seen no fragment. -/
def priorProb (diploidDopt : CallOptionsDiploidDeriv) (gt : DIPLOID_GT) : ℚ :=
  (diploidDopt.prior gt).exp /
    ((diploidDopt.prior DIPLOID_GT.REF).exp + (diploidDopt.prior DIPLOID_GT.HET).exp +
      (diploidDopt.prior DIPLOID_GT.HOM).exp)

/-- The search behind `qphredModel`: `n` grows while `-10 log10 p ≥ n + 1/2`,
that is while `p ^ 20 * 10 ^ (2 n + 1) ≤ 1`, for at most `fuel` steps. -/
def qphredSearch (p : ℚ) : Nat → Nat → Nat
  | 0, n => n
  | fuel + 1, n => if p ^ 20 * 10 ^ (2 * n + 1) ≤ 1 then qphredSearch p fuel (n + 1) else n

/-- Modelled from the spec: a phred conversion for the examples (glossary:
"Phred score: -10 log10(p)"), rounded to the nearest integer and capped
at 3000. -/
def qphredModel (p : ℚ) : Nat := qphredSearch p 3000 0

/-! ## Relations between evidence stores -/

/-- Two (allele, breakend) records agree on every field that is not a split-read
field: the pair support flag and the fragment length probability. -/
def SameExceptSplitBreakend (x y : SVFragmentEvidenceAlleleBreakend) : Prop :=
  x.isFragmentSupport = y.isFragmentSupport ∧ x.fragLengthProb = y.fragLengthProb

/-- Two fragments differ at most in the split-read fields (`isSplitEvaluated`,
`isSplitSupport`, `splitEvidence`, `splitLnLhood`) of their cells. -/
def SameExceptSplit (f g : SVFragmentEvidence) : Prop :=
  f.read1 = g.read1 ∧ f.read2 = g.read2 ∧
    SameExceptSplitBreakend f.alt.bp1 g.alt.bp1 ∧ SameExceptSplitBreakend f.alt.bp2 g.alt.bp2 ∧
    SameExceptSplitBreakend f.ref.bp1 g.ref.bp1 ∧ SameExceptSplitBreakend f.ref.bp2 g.ref.bp2

/-- Two evidence tracks hold the same fragment names in the same order and their
fragments differ at most in split-read fields. -/
def TrackSameExceptSplit (m1 m2 : evidenceTrack_t) : Prop :=
  List.Forall₂ (fun a b => a.1 = b.1 ∧ SameExceptSplit a.2 b.2) m1 m2

/-! ## Invariants of the evidence store -/

/-- The four `isSplitEvaluated` cells (alt/ref × bp1/bp2) of one read side of a
fragment are all set. -/
def AllSplitEvaluated (f : SVFragmentEvidence) (isRead1 : Bool) : Prop :=
  (f.alt.bp1.getRead isRead1).isSplitEvaluated = true ∧
    (f.ref.bp1.getRead isRead1).isSplitEvaluated = true ∧
    (f.alt.bp2.getRead isRead1).isSplitEvaluated = true ∧
    (f.ref.bp2.getRead isRead1).isSplitEvaluated = true

/-- The four `isSplitEvaluated` cells of one read side of a fragment are all
clear. -/
def NoneSplitEvaluated (f : SVFragmentEvidence) (isRead1 : Bool) : Prop :=
  (f.alt.bp1.getRead isRead1).isSplitEvaluated = false ∧
    (f.ref.bp1.getRead isRead1).isSplitEvaluated = false ∧
    (f.alt.bp2.getRead isRead1).isSplitEvaluated = false ∧
    (f.ref.bp2.getRead isRead1).isSplitEvaluated = false

/-- Invariant I1 on one fragment: for each read side the four cells are all set
or all clear. -/
def SplitEvaluatedTogether (f : SVFragmentEvidence) : Prop :=
  ∀ isRead1 : Bool, AllSplitEvaluated f isRead1 ∨ NoneSplitEvaluated f isRead1

/-- Invariant I1 on an evidence track: it holds for every stored fragment. -/
def TrackSplitEvaluatedTogether (sampleEvidence : evidenceTrack_t) : Prop :=
  ∀ kv ∈ sampleEvidence, SplitEvaluatedTogether kv.2

/-- Two evidence tracks hold the same `alt` and `ref` allele evidence (all split
and pair fields of all four cells) under every fragment name. -/
def SameAlleleEvidence (m1 m2 : evidenceTrack_t) : Prop :=
  ∀ k : String, (evidenceAt m1 k).alt = (evidenceAt m2 k).alt ∧
    (evidenceAt m1 k).ref = (evidenceAt m2 k).ref

/-! ## Concrete inputs used in the examples -/

/-- Collaborators for the examples: every alignment has evidence 1 and
log-likelihood -1, and a read is an observed anchor when its mapping quality
reaches the minimum. -/
def exampleCollaborators : SplitReadCollaborators :=
  { align := fun _ _ _ _ => { has_evidence := true, evidence := 1, alignLnLhood := -1 },
    setReadEvidence := fun minMapQ bamRead _ =>
      { isObservedAnchor := decide (bamRead.map_qual ≥ minMapQ) } }

/-- A first-in-pair read named `Read-1` with mapping quality 20. -/
def exampleSplitRead : bam_record := { qname := "Read-1", map_qual := 20 }

/-- A stream that yields the single record `r` for every region. -/
def singleRecordStream (r : bam_record) : bam_streamer := { records := fun _ _ _ => [r] }

/-- A rational stand-in for `std::exp` in the examples: the compound-interest
approximation with 32 steps, `(1 + x/32)^32` for positive `x` and its
reciprocal form for `x ≤ 0`. -/
def expModel (x : ℚ) : ℚ :=
  if x ≤ 0 then (1 / (1 - x / 32)) ^ 32 else (1 + x / 32) ^ 32

/-- A rational stand-in for `std::exp` that is accurate far below the unit in the
last place of a `float` on arguments between −8 and 0: the Taylor polynomial of
degree 7 at `x/64`, raised to the power 64. -/
def expSeries (x : ℚ) : ℚ :=
  (∑ i in Finset.range 8, (x / 64) ^ i / (i.factorial : ℚ)) ^ 64

/-- A rational stand-in for `std::sqrt` in the examples: the integer square root
of the integer part, exact on perfect squares. -/
def sqrtModel (x : ℚ) : ℚ := (Nat.sqrt ⌊x⌋₊ : ℚ)

/-- A rational stand-in for `std::sqrt` on `float` that rounds like the library
function on the example below: the integer square root of `x · 2^60`, scaled
back by `2^30` and converted to `float`. -/
def sqrtFloatModel (x : ℚ) : ℚ := toFloat ((Nat.sqrt ⌊x * 2 ^ 60⌋₊ : ℚ) / 2 ^ 30)

/-- The cell of the "confident split read" scenario on the alt side: split
support with log-likelihood -2. -/
def confidentAltCell : SVFragmentEvidenceAlleleBreakendPerRead :=
  { isSplitEvaluated := true, isSplitSupport := true, splitEvidence := 3, splitLnLhood := -2 }

/-- The cell of the "confident split read" scenario on the ref side: no split
support, log-likelihood -20. -/
def confidentRefCell : SVFragmentEvidenceAlleleBreakendPerRead :=
  { isSplitEvaluated := true, isSplitSupport := false, splitEvidence := 0, splitLnLhood := -20 }

/-- The fragment of the "confident split read" scenario: for read 1, `alt_ln = -2`
and `ref_ln = -20` on both breakends. -/
def confidentSplitFragment : SVFragmentEvidence :=
  { alt := { bp1 := { read1 := confidentAltCell }, bp2 := { read1 := confidentAltCell } },
    ref := { bp1 := { read1 := confidentRefCell }, bp2 := { read1 := confidentRefCell } } }

/-- A ref cell without split support whose log-likelihood is the `float`
`−9339425/2^20`, about −8.90677. -/
def boundaryRefCell : SVFragmentEvidenceAlleleBreakendPerRead :=
  { isSplitEvaluated := true, isSplitSupport := false, splitEvidence := 0,
    splitLnLhood := -9339425 / 1048576 }

/-- A fragment at the edge of the split-read threshold: for read 1, `alt_ln = -2`
and `ref_ln = −9339425/2^20` on both breakends. -/
def boundarySplitFragment : SVFragmentEvidence :=
  { alt := { bp1 := { read1 := confidentAltCell }, bp2 := { read1 := confidentAltCell } },
    ref := { bp1 := { read1 := boundaryRefCell }, bp2 := { read1 := boundaryRefCell } } }

/-- A fragment with pair support on the alt allele at bp1 whose fragment length
probability is 0 and whose reads are not observed anchors. -/
def unanchoredZeroFragment : SVFragmentEvidence :=
  { alt := { bp1 := { isFragmentSupport := true, fragLengthProb := 0 } } }

/-- The fragment `unanchoredZeroFragment` with both reads observed anchors. -/
def anchoredZeroFragment : SVFragmentEvidence :=
  { unanchoredZeroFragment with
    read1 := { isObservedAnchor := true }, read2 := { isObservedAnchor := true } }

/-- A fragment at the edge of the spanning-pair threshold, alt side: both reads
are observed anchors, the alt allele has the `float` fragment probability
`0.63f = 5284823/2^23` and the ref allele `0.07f = 9395241/2^27`. -/
def roundedUpPairFragment : SVFragmentEvidence :=
  { read1 := { isObservedAnchor := true }, read2 := { isObservedAnchor := true },
    alt := { bp1 := { isFragmentSupport := true, fragLengthProb := 5284823 / 8388608 } },
    ref := { bp1 := { isFragmentSupport := true, fragLengthProb := 9395241 / 134217728 } } }

/-- A fragment at the edge of the spanning-pair threshold, the other way: both
reads are observed anchors, the alt allele has the `float` fragment probability
`0.27f = 9059697/2^25` and the ref allele `0.03f = 16106127/2^29`. -/
def roundedDownPairFragment : SVFragmentEvidence :=
  { read1 := { isObservedAnchor := true }, read2 := { isObservedAnchor := true },
    alt := { bp1 := { isFragmentSupport := true, fragLengthProb := 9059697 / 33554432 } },
    ref := { bp1 := { isFragmentSupport := true, fragLengthProb := 16106127 / 536870912 } } }

/-- The score info of the "somatic veto by normal contamination" scenario: tumor
alt pairs 20, normal alt pairs 3. -/
def somaticVetoInfo : SVScoreInfo :=
  { normal := { alt := { confidentSpanningPairCount := 3 } },
    tumor := { alt := { confidentSpanningPairCount := 20 } } }

/-- A depth filter that is switched off although its threshold function
answers 100 on every chromosome. -/
def disabledDepthFilter : ChromDepthFilterUtil :=
  { isMaxDepthFilter := false, maxDepth := fun _ => 100 }

/-- The alt-supporting fragment with split-read fields filled in for read 1. -/
def altSupportingFragmentSplit : SVFragmentEvidence :=
  { altSupportingFragment with
    alt := { bp1 := { altSupportingFragment.alt.bp1 with read1 := confidentAltCell },
             bp2 := altSupportingFragment.alt.bp2 },
    ref := { bp1 := { altSupportingFragment.ref.bp1 with read1 := confidentRefCell },
             bp2 := altSupportingFragment.ref.bp2 } }

/-- A score info whose depth at bp1 is 1000. -/
def deepScoreInfo : SVScoreInfo := { bp1MaxDepth := 1000 }

/-- A phred conversion that answers 40 for every probability. -/
def phredForty : ℚ → Nat := fun _ => 40

/-- The score info of a ratio veto: tumor alt counts 20 / 17 / 20, normal alt
`bp1SpanReadCount = 2`, normal ref pairs 10. -/
def somaticRatioInfo : SVScoreInfo :=
  { normal := { alt := { bp1SpanReadCount := 2 }, ref := { confidentSpanningPairCount := 10 } },
    tumor := { alt := { bp1SpanReadCount := 17, bp2SpanReadCount := 20,
                        confidentSpanningPairCount := 20 } } }

/-- An allele record after two counted reads of mapping quality 60 and 20. -/
def twoReadAllele : SVSampleAlleleInfo := { splitReadCount := 2, splitReadMapQ := 4000 }

/-- An allele record after 259 counted reads of mapping quality 255: the sum of
squares is 259 · 255² = 16841475. -/
def manyReadAllele : SVSampleAlleleInfo := { splitReadCount := 259, splitReadMapQ := 16841475 }

/-- A breakend on chromosome 0 with the interval `[100, 101)`: its center is 100
and its depth search range `[50, 150)`. -/
def depthBreakend : SVBreakend :=
  { interval := { tid := 0, range := { begin_pos := 100, end_pos := 101 } } }

/-- A mapped read with CIGAR `200M`, 0-based start 40 and the given mapping
quality: it covers the search range of `depthBreakend`. -/
def read200M (mapq : Nat) : bam_record :=
  { qname := "Read-1", pos := 41, cigar := [{ type := align_t.MATCH, length := 200 }],
    map_qual := mapq }

/-- A stream that yields `n` copies of the record `r` for every region. -/
def repeatedRecordStream (n : Nat) (r : bam_record) : bam_streamer :=
  { records := fun _ _ _ => List.replicate n r }

/-- A scorer over one tumor file and one normal file whose stream yields three
`200M` reads of mapping quality 60. -/
def depthScorer : SVScorer :=
  thresholdScorer 100 [true, false]
    [singleRecordStream exampleSplitRead, repeatedRecordStream 3 (read200M 60)]

/-- A scorer over one normal file whose stream yields a single `200M` read of
mapping quality 0, below the minimum mapping quality 15 of the scorer. -/
def unanchoredDepthScorer : SVScorer :=
  thresholdScorer 100 [false] [repeatedRecordStream 1 (read200M 0)]

/-- Collaborators for the examples of `scoreSV`: the split-read collaborators of
the examples, the stand-ins for `sqrt`, `exp` and the phred conversion, a pair
support step that changes nothing, and an empty alignment info. -/
def exampleScoreSVCollaborators : ScoreSVCollaborators Unit Unit :=
  { split := exampleCollaborators, sqrt := sqrtModel, exp := expModel,
    error_prob_to_qphred := qphredModel,
    getSVPairSupport := fun _ _ baseInfo evidence => (baseInfo, evidence),
    SVAlignInfo := fun _ _ => {} }

/-- Scorer options for the examples: the default options with the uniform
prior. -/
def exampleScorerOptions : SVScorerOptions :=
  { _diploidOpt := diploidOptDefault, _diploidDopt := uniformPrior,
    _somaticOpt := somaticOptDefault }

/-- An imprecise SV candidate whose two breakends are `depthBreakend`. -/
def depthCandidate : SVCandidate :=
  { bp1 := depthBreakend, bp2 := depthBreakend, isImprecise := true }

/-- A prior that puts `1 - 1.5e-5` on REF, `1e-5` on HET and `5e-6` on HOM. -/
def sharpPrior : CallOptionsDiploidDeriv :=
  { prior := fun gt =>
      match gt with
      | DIPLOID_GT.REF => LnVal.log (199997 / 200000)
      | DIPLOID_GT.HET => LnVal.log (1 / 100000)
      | DIPLOID_GT.HOM => LnVal.log (1 / 200000) }

/-- Specification side: the record loop of `getBreakendMaxMappedDepth` without the
early exit of line 150: every mapped record of the stream is added to the depth
array. -/
def scanStreamToDepthEst (searchRange : known_pos_range2) :
    List bam_record → List Nat → Option (List Nat)
  | [], depth => some depth
  | bamRead :: rest, depth =>
    if bamRead.is_unmapped then scanStreamToDepthEst searchRange rest depth
    else
      match addReadToDepthEst bamRead searchRange.begin_pos depth with
      | none => none
      | some depth1 => scanStreamToDepthEst searchRange rest depth1

/-- A stream of three `200M` reads starting at 40, 40 and 160: sorted by start
position, the last read starts behind the search range of `depthBreakend`. -/
def sortedRecordStream : bam_streamer :=
  { records := fun _ _ _ =>
      [read200M 60, read200M 60, { read200M 60 with qname := "Read-2", pos := 161 }] }

/-- The scorer `depthScorer` with `sortedRecordStream` as its normal file. -/
def sortedDepthScorer : SVScorer :=
  thresholdScorer 100 [true, false] [singleRecordStream exampleSplitRead, sortedRecordStream]

/-- Specification side: the four alt counts that `scoreSomaticSV` reads are in `y`
at least what they are in `x`. -/
def AltCountsLe (x y : SVSampleAlleleInfo) : Prop :=
  x.confidentSpanningPairCount ≤ y.confidentSpanningPairCount ∧
    x.confidentSplitReadCount ≤ y.confidentSplitReadCount ∧
    x.bp1SpanReadCount ≤ y.bp1SpanReadCount ∧ x.bp2SpanReadCount ≤ y.bp2SpanReadCount

/-- The score info `somaticPassInfo` with two more alt pairs in the normal
sample. -/
def somaticContaminatedInfo : SVScoreInfo :=
  { somaticPassInfo with
    normal := { alt := { confidentSpanningPairCount := 2 },
                ref := { confidentSpanningPairCount := 10 } } }

/-- Specification side: `alt.confidentSpanningPairCount +
ref.confidentSpanningPairCount` of a sample record. -/
def confidentPairSum (s : SVSampleInfo) : Nat :=
  s.alt.confidentSpanningPairCount + s.ref.confidentSpanningPairCount

/-- Specification side: `alt.confidentSplitReadCount + ref.confidentSplitReadCount`
of a sample record. -/
def confidentSplitSum (s : SVSampleInfo) : Nat :=
  s.alt.confidentSplitReadCount + s.ref.confidentSplitReadCount

/-! # Theorems -/

/-! ## Floating-point rounding -/

/-- The nearest integer is at distance at most 1/2. -/
theorem roundHalfEven_near (x : ℚ) : |(roundHalfEven x : ℚ) - x| ≤ 1 / 2 := by
  have h1 := Int.floor_le x
  have h2 := Int.lt_floor_add_one x
  unfold roundHalfEven
  dsimp only
  rw [abs_le]
  split_ifs with ha hb hc
  · constructor <;> linarith
  · push_cast; constructor <;> linarith
  · have : x - ⌊x⌋ = 1 / 2 := le_antisymm (not_lt.mp hb) (not_lt.mp ha)
    constructor <;> linarith
  · have : x - ⌊x⌋ = 1 / 2 := le_antisymm (not_lt.mp hb) (not_lt.mp ha)
    push_cast; constructor <;> linarith

/-- An integer strictly nearer than 1/2 is the rounded value. -/
theorem roundHalfEven_eq (x : ℚ) (n : Int) (h : |x - n| < 1 / 2) : roundHalfEven x = n := by
  have h1 := roundHalfEven_near x
  rw [abs_lt] at h
  rw [abs_le] at h1
  have h2 : ((roundHalfEven x - n : Int) : ℚ) < 1 := by push_cast; linarith [h.1, h.2, h1.1, h1.2]
  have h3 : (-1 : ℚ) < ((roundHalfEven x - n : Int) : ℚ) := by
    push_cast; linarith [h.1, h.2, h1.1, h1.2]
  have h4 : roundHalfEven x - n < 1 := by exact_mod_cast h2
  have h5 : -1 < roundHalfEven x - n := by exact_mod_cast h3
  omega

/-- The value half way between an even integer and the next one goes to the even
integer. -/
theorem roundHalfEven_tie (n : Int) : roundHalfEven ((2 * n : Int) + 1 / 2) = 2 * n ∧
    roundHalfEven ((2 * n + 1 : Int) + 1 / 2) = 2 * n + 2 := by
  have hf : ∀ m : Int, ⌊((m : Int) : ℚ) + 1 / 2⌋ = m := by
    intro m
    rw [Int.floor_eq_iff]
    constructor <;> linarith
  constructor
  · unfold roundHalfEven
    dsimp only
    rw [hf]
    have : ((2 * n : Int) : ℚ) + 1 / 2 - ((2 * n : Int) : ℚ) = 1 / 2 := by ring
    rw [this]
    simp
  · unfold roundHalfEven
    dsimp only
    rw [hf]
    have : ((2 * n + 1 : Int) : ℚ) + 1 / 2 - ((2 * n + 1 : Int) : ℚ) = 1 / 2 := by ring
    rw [this]
    have h2 : (2 * n + 1) % 2 ≠ 0 := by omega
    simp [h2]
    ring

/-- The binary logarithm of a positive number between two consecutive powers
of 2. -/
theorem int_log_eq (x : ℚ) (m : Int) (h1 : (2 : ℚ) ^ m ≤ x) (h2 : x < (2 : ℚ) ^ (m + 1)) :
    Int.log 2 x = m := by
  have hpos : 0 < x := lt_of_lt_of_le (by positivity) h1
  have ha : m ≤ Int.log 2 x := by
    rw [← Int.zpow_le_iff_le_log (by norm_num) hpos]
    exact_mod_cast h1
  have hb : Int.log 2 x < m + 1 := by
    rw [← Int.lt_zpow_iff_log_lt (by norm_num) hpos]
    exact_mod_cast h2
  omega

/-- The value of a rounding: when `|x|` lies in the binade of `2 ^ m`, the unit in
the last place is `2 ^ k` with `k = max (m - (prec - 1)) emin`, and the integer
strictly nearest to `x / 2 ^ k` gives the rounded value. -/
theorem roundFloat_eq (prec : Nat) (emin : Int) (x : ℚ) (m k n : Int)
    (h1 : (2 : ℚ) ^ m ≤ |x|) (h2 : |x| < (2 : ℚ) ^ (m + 1))
    (hk : k = max (m - ((prec : Int) - 1)) emin)
    (hn : |x / 2 ^ k - n| < 1 / 2) :
    roundFloat prec emin x = n * 2 ^ k := by
  have he : ulpExponent prec emin x = k := by
    unfold ulpExponent
    rw [int_log_eq |x| m h1 h2, hk]
  unfold roundFloat
  rw [he, roundHalfEven_eq _ n hn]

/-- Zero is rounded to zero. -/
theorem roundFloat_zero (prec : Nat) (emin : Int) : roundFloat prec emin 0 = 0 := by
  unfold roundFloat
  have : roundHalfEven 0 = 0 := roundHalfEven_eq 0 0 (by norm_num)
  simp [this]

/-- An integer is its own rounding. -/
theorem roundHalfEven_intCast (n : Int) : roundHalfEven (n : ℚ) = n :=
  roundHalfEven_eq _ n (by simp)

/-- Rounding to the nearest integer is monotone. -/
theorem roundHalfEven_mono (x y : ℚ) (h : x ≤ y) : roundHalfEven x ≤ roundHalfEven y := by
  by_contra hc
  have hc1 : roundHalfEven y + 1 ≤ roundHalfEven x := by omega
  have hc2 : ((roundHalfEven y : Int) : ℚ) + 1 ≤ (roundHalfEven x : ℚ) := by exact_mod_cast hc1
  have hx := abs_le.mp (roundHalfEven_near x)
  have hy := abs_le.mp (roundHalfEven_near y)
  have hxy : x = y := by linarith [hx.1, hx.2, hy.1, hy.2]
  rw [hxy] at hc
  exact hc (le_refl _)

/-- The rounding of a non-negative number is not negative. -/
theorem roundFloat_nonneg (prec : Nat) (emin : Int) (x : ℚ) (h : 0 ≤ x) :
    0 ≤ roundFloat prec emin x := by
  unfold roundFloat
  apply mul_nonneg _ (by positivity)
  have h0 : (0 : ℚ) ≤ x / 2 ^ ulpExponent prec emin x := div_nonneg h (by positivity)
  have := roundHalfEven_mono 0 _ h0
  rw [show roundHalfEven 0 = 0 from roundHalfEven_eq 0 0 (by norm_num)] at this
  exact_mod_cast this

/-- A number `n 2^k` with `k` at least the exponent of the unit in the last place
of `x` is reached by the rounding of `x` from below and from above. -/
theorem roundFloat_le_of_le (prec : Nat) (emin : Int) (x : ℚ) (n j : Int)
    (hj : 0 ≤ j) (h : x ≤ n * 2 ^ (ulpExponent prec emin x + j)) :
    roundFloat prec emin x ≤ n * 2 ^ (ulpExponent prec emin x + j) := by
  unfold roundFloat
  have hpos : (0 : ℚ) < 2 ^ ulpExponent prec emin x := by positivity
  obtain ⟨i, hi⟩ := Int.eq_ofNat_of_zero_le hj
  have hpow : (2 : ℚ) ^ (ulpExponent prec emin x + j) =
      ((2 ^ i : Int) : ℚ) * 2 ^ ulpExponent prec emin x := by
    rw [zpow_add₀ (by norm_num), hi]
    push_cast
    rw [zpow_natCast]
    ring
  rw [hpow] at h ⊢
  have h1 : x / 2 ^ ulpExponent prec emin x ≤ ((n * 2 ^ i : Int) : ℚ) := by
    rw [div_le_iff₀ hpos]
    push_cast at h ⊢
    linarith
  have h2 := roundHalfEven_mono _ _ h1
  rw [roundHalfEven_intCast] at h2
  have h3 : ((roundHalfEven (x / 2 ^ ulpExponent prec emin x) : Int) : ℚ) ≤
      ((n * 2 ^ i : Int) : ℚ) := by exact_mod_cast h2
  have := mul_le_mul_of_nonneg_right h3 (le_of_lt hpos)
  push_cast at this ⊢
  linarith

/-- The counterpart of `roundFloat_le_of_le` from below. -/
theorem roundFloat_ge_of_ge (prec : Nat) (emin : Int) (x : ℚ) (n j : Int)
    (hj : 0 ≤ j) (h : n * 2 ^ (ulpExponent prec emin x + j) ≤ x) :
    n * 2 ^ (ulpExponent prec emin x + j) ≤ roundFloat prec emin x := by
  unfold roundFloat
  have hpos : (0 : ℚ) < 2 ^ ulpExponent prec emin x := by positivity
  obtain ⟨i, hi⟩ := Int.eq_ofNat_of_zero_le hj
  have hpow : (2 : ℚ) ^ (ulpExponent prec emin x + j) =
      ((2 ^ i : Int) : ℚ) * 2 ^ ulpExponent prec emin x := by
    rw [zpow_add₀ (by norm_num), hi]
    push_cast
    rw [zpow_natCast]
    ring
  rw [hpow] at h ⊢
  have h1 : ((n * 2 ^ i : Int) : ℚ) ≤ x / 2 ^ ulpExponent prec emin x := by
    rw [le_div_iff₀ hpos]
    push_cast at h ⊢
    linarith
  have h2 := roundHalfEven_mono _ _ h1
  rw [roundHalfEven_intCast] at h2
  have h3 : ((n * 2 ^ i : Int) : ℚ) ≤
      ((roundHalfEven (x / 2 ^ ulpExponent prec emin x) : Int) : ℚ) := by exact_mod_cast h2
  have := mul_le_mul_of_nonneg_right h3 (le_of_lt hpos)
  push_cast at this ⊢
  linarith

/-- The exponent of the unit in the last place does not decrease with the
magnitude. -/
theorem ulpExponent_mono (prec : Nat) (emin : Int) (x y : ℚ) (hx : 0 < x) (h : x ≤ y) :
    ulpExponent prec emin x ≤ ulpExponent prec emin y := by
  unfold ulpExponent
  have hy : 0 < y := lt_of_lt_of_le hx h
  rw [abs_of_pos hx, abs_of_pos hy]
  have := Int.log_mono_right (b := 2) hx h
  exact max_le_max (by omega) (le_refl _)

/-- Rounding to a binary format is monotone on the non-negative numbers. -/
theorem roundFloat_mono (prec : Nat) (emin : Int) (hprec : 1 ≤ prec) (x y : ℚ)
    (hx : 0 ≤ x) (h : x ≤ y) : roundFloat prec emin x ≤ roundFloat prec emin y := by
  rcases eq_or_lt_of_le hx with hx0 | hxpos
  · rw [← hx0, roundFloat_zero]
    exact roundFloat_nonneg prec emin y (le_trans hx h)
  have hypos : 0 < y := lt_of_lt_of_le hxpos h
  have hexp := ulpExponent_mono prec emin x y hxpos h
  rcases eq_or_lt_of_le hexp with heq | hlt
  · unfold roundFloat
    rw [heq]
    have hpos : (0 : ℚ) < 2 ^ ulpExponent prec emin y := by positivity
    have h1 : x / 2 ^ ulpExponent prec emin y ≤ y / 2 ^ ulpExponent prec emin y :=
      div_le_div_of_nonneg_right h (le_of_lt hpos)
    have h2 : ((roundHalfEven (x / 2 ^ ulpExponent prec emin y) : Int) : ℚ) ≤
        ((roundHalfEven (y / 2 ^ ulpExponent prec emin y) : Int) : ℚ) := by
      exact_mod_cast roundHalfEven_mono _ _ h1
    exact mul_le_mul_of_nonneg_right h2 (le_of_lt hpos)
  · -- the binade boundary `B` lies between `x` and `y`
    have hey : ulpExponent prec emin y = Int.log 2 y - ((prec : Int) - 1) := by
      have h1 : emin ≤ ulpExponent prec emin x := by unfold ulpExponent; exact le_max_right _ _
      unfold ulpExponent at hlt ⊢
      rw [abs_of_pos hypos] at hlt ⊢
      rcases max_cases (Int.log 2 y - ((prec : Int) - 1)) emin with ⟨h2, _⟩ | ⟨h2, _⟩
      · exact h2
      · rw [h2] at hlt
        unfold ulpExponent at h1
        omega
    have hex : Int.log 2 x - ((prec : Int) - 1) ≤ ulpExponent prec emin x := by
      unfold ulpExponent; rw [abs_of_pos hxpos]; exact le_max_left _ _
    have hBy : (2 : ℚ) ^ (ulpExponent prec emin y + ((prec : Int) - 1)) ≤ y := by
      rw [hey]
      have := Int.zpow_log_le_self (b := 2) (r := y) (by norm_num) hypos
      have e : Int.log 2 y - ((prec : Int) - 1) + ((prec : Int) - 1) = Int.log 2 y := by ring
      rw [e]
      exact_mod_cast this
    have hxB : x ≤ (2 : ℚ) ^ (ulpExponent prec emin y + ((prec : Int) - 1)) := by
      have h1 := Int.lt_zpow_succ_log_self (b := 2) (by norm_num) x
      have h2 : Int.log 2 x + 1 ≤ ulpExponent prec emin y + ((prec : Int) - 1) := by omega
      have h3 : (2 : ℚ) ^ (Int.log 2 x + 1) ≤
          (2 : ℚ) ^ (ulpExponent prec emin y + ((prec : Int) - 1)) :=
        zpow_le_zpow_right₀ (by norm_num) h2
      have h1' : x < (2 : ℚ) ^ (Int.log 2 x + 1) := by exact_mod_cast h1
      linarith
    have hp : (0 : Int) ≤ (prec : Int) - 1 := by omega
    have e1 : ulpExponent prec emin y + ((prec : Int) - 1) =
        ulpExponent prec emin x +
          (ulpExponent prec emin y + ((prec : Int) - 1) - ulpExponent prec emin x) := by ring
    have ha := roundFloat_le_of_le prec emin x 1
      (ulpExponent prec emin y + ((prec : Int) - 1) - ulpExponent prec emin x) (by omega)
      (by rw [← e1]; push_cast; linarith)
    have hb := roundFloat_ge_of_ge prec emin y 1 ((prec : Int) - 1) hp
      (by push_cast; linarith)
    rw [← e1] at ha
    push_cast at ha hb
    linarith

/-- The rounding error is at most half a unit in the last place. -/
theorem roundFloat_error (prec : Nat) (emin : Int) (x : ℚ) :
    |roundFloat prec emin x - x| ≤ 2 ^ ulpExponent prec emin x / 2 := by
  unfold roundFloat
  have hpos : (0 : ℚ) < 2 ^ ulpExponent prec emin x := by positivity
  have h := roundHalfEven_near (x / 2 ^ ulpExponent prec emin x)
  have e : (roundHalfEven (x / 2 ^ ulpExponent prec emin x) : ℚ) * 2 ^ ulpExponent prec emin x - x =
      ((roundHalfEven (x / 2 ^ ulpExponent prec emin x) : ℚ) - x / 2 ^ ulpExponent prec emin x) *
        2 ^ ulpExponent prec emin x := by
    field_simp
  rw [e, abs_mul, abs_of_pos hpos]
  calc |(roundHalfEven (x / 2 ^ ulpExponent prec emin x) : ℚ) - x / 2 ^ ulpExponent prec emin x| *
        2 ^ ulpExponent prec emin x ≤ 1 / 2 * 2 ^ ulpExponent prec emin x :=
        mul_le_mul_of_nonneg_right h (le_of_lt hpos)
    _ = 2 ^ ulpExponent prec emin x / 2 := by ring

/-- In the normal range the relative rounding error is at most `2 ^ (-prec)`. -/
theorem roundFloat_rel_error (prec : Nat) (emin : Int) (x : ℚ)
    (hx : (2 : ℚ) ^ (emin + ((prec : Int) - 1)) ≤ x) :
    |roundFloat prec emin x - x| ≤ x / 2 ^ prec := by
  have hxpos : 0 < x := lt_of_lt_of_le (by positivity) hx
  have hlog : emin + ((prec : Int) - 1) ≤ Int.log 2 x := by
    rw [← Int.zpow_le_iff_le_log (by norm_num) hxpos]
    exact_mod_cast hx
  have he : ulpExponent prec emin x = Int.log 2 x - ((prec : Int) - 1) := by
    unfold ulpExponent
    rw [abs_of_pos hxpos]
    exact max_eq_left (by omega)
  have h1 := roundFloat_error prec emin x
  have h2 := Int.zpow_log_le_self (b := 2) (r := x) (by norm_num) hxpos
  have h3 : (2 : ℚ) ^ Int.log 2 x = 2 ^ ulpExponent prec emin x / 2 * 2 ^ prec := by
    rw [he]
    have e2 : Int.log 2 x = (Int.log 2 x - ((prec : Int) - 1)) + (-1) + (prec : Int) := by ring
    conv_lhs => rw [e2]
    rw [zpow_add₀ (by norm_num), zpow_add₀ (by norm_num), zpow_natCast]
    norm_num
    ring
  have h4 : (2 : ℚ) ^ ulpExponent prec emin x / 2 ≤ x / 2 ^ prec := by
    rw [le_div_iff₀ (by positivity)]
    have h2' : (2 : ℚ) ^ Int.log 2 x ≤ x := by exact_mod_cast h2
    linarith
  exact le_trans h1 h4

/-- A positive number whose rounding is not 0 is at most 3/2 of its rounding. -/
theorem roundFloat_three_halves (prec : Nat) (emin : Int) (x : ℚ) (hx : 0 ≤ x)
    (hne : roundFloat prec emin x ≠ 0) : x ≤ 3 / 2 * roundFloat prec emin x := by
  have hnn := roundFloat_nonneg prec emin x hx
  unfold roundFloat at hne hnn ⊢
  have hpos : (0 : ℚ) < 2 ^ ulpExponent prec emin x := by positivity
  have h0 : (0 : ℚ) ≤ x / 2 ^ ulpExponent prec emin x := div_nonneg hx (le_of_lt hpos)
  have hn0 : 0 ≤ roundHalfEven (x / 2 ^ ulpExponent prec emin x) := by
    have := roundHalfEven_mono 0 _ h0
    rw [show roundHalfEven 0 = 0 from roundHalfEven_eq 0 0 (by norm_num)] at this
    exact this
  have hn1 : roundHalfEven (x / 2 ^ ulpExponent prec emin x) ≠ 0 := by
    intro hc
    apply hne
    rw [hc]
    simp
  have hn2 : (1 : ℚ) ≤ (roundHalfEven (x / 2 ^ ulpExponent prec emin x) : ℚ) := by
    have : 1 ≤ roundHalfEven (x / 2 ^ ulpExponent prec emin x) := by omega
    exact_mod_cast this
  have h := abs_le.mp (roundHalfEven_near (x / 2 ^ ulpExponent prec emin x))
  have h5 : x / 2 ^ ulpExponent prec emin x ≤
      3 / 2 * (roundHalfEven (x / 2 ^ ulpExponent prec emin x) : ℚ) := by linarith [h.1]
  rw [div_le_iff₀ hpos] at h5
  linarith

/-- A number `n 2^k` with `|n| < 2^prec` and `k` not below the least exponent
is a number of the format: its rounding is the number itself. -/
theorem roundFloat_representable (prec : Nat) (emin : Int) (n k : Int)
    (hn : |n| < 2 ^ prec) (hk : emin ≤ k) :
    roundFloat prec emin (n * 2 ^ k) = n * 2 ^ k := by
  rcases eq_or_ne n 0 with h0 | h0
  · rw [h0]; simp [roundFloat_zero]
  have hxpos : (0 : ℚ) < |(n : ℚ) * 2 ^ k| := by
    apply abs_pos.mpr
    apply mul_ne_zero (by exact_mod_cast h0) (by positivity)
  have hlt : |(n : ℚ) * 2 ^ k| < 2 ^ ((prec : Int) + k) := by
    rw [abs_mul, abs_of_pos (show (0 : ℚ) < 2 ^ k by positivity), zpow_add₀ (by norm_num),
      zpow_natCast]
    apply mul_lt_mul_of_pos_right _ (by positivity)
    have : ((|n| : Int) : ℚ) < ((2 ^ prec : Int) : ℚ) := by exact_mod_cast hn
    push_cast at this
    exact this
  have hlog : Int.log 2 |(n : ℚ) * 2 ^ k| < (prec : Int) + k := by
    rw [← Int.lt_zpow_iff_log_lt (by norm_num) hxpos]
    exact_mod_cast hlt
  have he : ulpExponent prec emin ((n : ℚ) * 2 ^ k) ≤ k := by
    unfold ulpExponent
    exact max_le (by omega) hk
  obtain ⟨i, hi⟩ := Int.eq_ofNat_of_zero_le (show 0 ≤ k - ulpExponent prec emin ((n : ℚ) * 2 ^ k)
    by omega)
  unfold roundFloat
  have hpow : (2 : ℚ) ^ k = ((2 ^ i : Int) : ℚ) * 2 ^ ulpExponent prec emin ((n : ℚ) * 2 ^ k) := by
    have e : k = (i : Int) + ulpExponent prec emin ((n : ℚ) * 2 ^ k) := by omega
    conv_lhs => rw [e]
    rw [zpow_add₀ (by norm_num), zpow_natCast]
    push_cast
    ring
  have hq : (n : ℚ) * 2 ^ k / 2 ^ ulpExponent prec emin ((n : ℚ) * 2 ^ k) =
      ((n * 2 ^ i : Int) : ℚ) := by
    rw [div_eq_iff (by positivity)]
    conv_lhs => rw [hpow]
    push_cast
    ring
  rw [hq, roundHalfEven_intCast]
  conv_rhs => rw [hpow]
  push_cast
  ring

/-- A natural number below `2^24` is a `float`. -/
theorem toFloat_natCast (c : Nat) (h : c < 2 ^ 24) : toFloat (c : ℚ) = c := by
  have := roundFloat_representable 24 (-149) (c : Int) 0
    (by rw [abs_of_nonneg (by positivity)]; exact_mod_cast h) (by norm_num)
  unfold toFloat
  simpa using this

/-- The conversion to `float` is monotone on the non-negative numbers. -/
theorem toFloat_mono (x y : ℚ) (hx : 0 ≤ x) (h : x ≤ y) : toFloat x ≤ toFloat y :=
  roundFloat_mono 24 (-149) (by norm_num) x y hx h

/-- The conversion to `double` is monotone on the non-negative numbers. -/
theorem toDouble_mono (x y : ℚ) (hx : 0 ≤ x) (h : x ≤ y) : toDouble x ≤ toDouble y :=
  roundFloat_mono 53 (-1074) (by norm_num) x y hx h

/-- The conversion to `float` keeps non-negative numbers non-negative. -/
theorem toFloat_nonneg (x : ℚ) (h : 0 ≤ x) : 0 ≤ toFloat x := roundFloat_nonneg 24 (-149) x h

/-- The conversion to `double` keeps non-negative numbers non-negative. -/
theorem toDouble_nonneg (x : ℚ) (h : 0 ≤ x) : 0 ≤ toDouble x := roundFloat_nonneg 53 (-1074) x h

/-- From `2^-126` on, the conversion to `float` has a relative error of at most
`2^-24`. -/
theorem toFloat_rel_error (x : ℚ) (hx : 1 / 2 ^ 126 ≤ x) :
    x * (1 - 1 / 2 ^ 24) ≤ toFloat x ∧ toFloat x ≤ x * (1 + 1 / 2 ^ 24) := by
  have h := roundFloat_rel_error 24 (-149) x (by
    have : (2 : ℚ) ^ ((-149 : Int) + (((24 : Nat) : Int) - 1)) = 1 / 2 ^ 126 := by
      norm_num [zpow_neg]
    rw [this]; exact hx)
  rw [abs_le] at h
  unfold toFloat
  constructor
  · have := h.1
    norm_num at this ⊢
    linarith
  · have := h.2
    norm_num at this ⊢
    linarith

/-! ## `scoreSomaticSV` -/

/-- The first check clears the flag exactly under veto (a). -/
theorem somaticNormalSupportCheck_eq (b : SVScoreInfo) (q : Bool) :
    somaticNormalSupportCheck b q = true ↔ q = true ∧ ¬ vetoNormalSupport b := by
  unfold somaticNormalSupportCheck vetoNormalSupport
  by_cases h1 : b.normal.alt.confidentSpanningPairCount > 1 <;>
    by_cases h2 : b.normal.alt.confidentSplitReadCount > 5 <;> simp [h1, h2]

/-- The second check clears a set flag exactly under veto (b). -/
theorem somaticSingleSupportCheck_eq (b : SVScoreInfo) (q : Bool) :
    somaticSingleSupportCheck b q = true ↔ q = true ∧ ¬ vetoWeakTumor b := by
  unfold somaticSingleSupportCheck vetoWeakTumor
  cases q
  · simp
  · simp only [if_true, Bool.and_eq_true, Bool.or_eq_true, decide_eq_true_eq, true_and]
    by_cases h : (b.tumor.alt.confidentSpanningPairCount < 6 ∧
        b.tumor.alt.confidentSplitReadCount < 6) ∧
        ((b.tumor.alt.bp1SpanReadCount < 14 ∨ b.tumor.alt.bp2SpanReadCount < 14) ∨
          b.normal.alt.bp1SpanReadCount > 1 ∨ b.normal.alt.bp2SpanReadCount > 1)
    · rw [if_pos h]
      constructor
      · intro hh; cases hh
      · intro hh
        refine absurd ⟨h.1.1, h.1.2, ?_⟩ hh
        rcases h.2 with (h3 | h3) | h3 | h3
        · exact Or.inl h3
        · exact Or.inr (Or.inl h3)
        · exact Or.inr (Or.inr (Or.inl h3))
        · exact Or.inr (Or.inr (Or.inr h3))
    · rw [if_neg h]
      refine ⟨fun _ hv => h ⟨⟨hv.1, hv.2.1⟩, ?_⟩, fun _ => rfl⟩
      rcases hv.2.2 with h3 | h3 | h3 | h3
      · exact Or.inl (Or.inl h3)
      · exact Or.inl (Or.inr h3)
      · exact Or.inr (Or.inl h3)
      · exact Or.inr (Or.inr h3)

/-- One ratio test clears the flag exactly when the normal counter is nonzero and
the ratio is below 9. -/
theorem somaticRatioTest_eq (t n : Nat) (q : Bool) :
    somaticRatioTest t n q = true ↔ q = true ∧ ¬ (n ≠ 0 ∧ (t : ℚ) / (n : ℚ) < 9) := by
  unfold somaticRatioTest countRatio
  by_cases h1 : n ≠ 0 <;> by_cases h2 : (t : ℚ) / (n : ℚ) < 9 <;> simp [h1, h2]

/-- The third check clears a set flag exactly under veto (c). -/
theorem somaticRatioCheck_eq (b : SVScoreInfo) (q : Bool) :
    somaticRatioCheck b q = true ↔ q = true ∧ ¬ vetoRatio b := by
  unfold somaticRatioCheck vetoRatio
  cases q
  · simp
  · simp only [if_true, somaticRatioTest_eq]; tauto

/-- The fourth check clears the flag exactly under veto (d). -/
theorem somaticNormalRefCheck_eq (b : SVScoreInfo) (q : Bool) :
    somaticNormalRefCheck b q = true ↔ q = true ∧ ¬ vetoNoNormalRef b := by
  unfold somaticNormalRefCheck vetoNoNormalRef
  by_cases h1 : b.normal.ref.confidentSpanningPairCount > 6 <;>
    by_cases h2 : b.normal.ref.confidentSplitReadCount > 6 <;> simp [h1, h2]

/-- The local flag of `scoreSomaticSV` survives exactly when no veto holds. -/
theorem isNonzeroSomaticQuality_iff (b : SVScoreInfo) :
    isNonzeroSomaticQuality b = true ↔
      ¬ (vetoNormalSupport b ∨ vetoWeakTumor b ∨ vetoRatio b ∨ vetoNoNormalRef b) := by
  unfold isNonzeroSomaticQuality
  rw [somaticNormalRefCheck_eq, somaticRatioCheck_eq, somaticSingleSupportCheck_eq,
    somaticNormalSupportCheck_eq]
  tauto

/-- C1: on a somatic record that starts with score 0, `scoreSomaticSV` leaves
`somaticScore = 60` exactly when none of the four vetoes (a)-(d) holds and
`somaticScore = 0` exactly when one of them holds, so no other value occurs. -/
theorem scoreSomaticSV_score (somaticOpt : CallOptionsSomatic) (sv : SVCandidate)
    (dFilter : ChromDepthFilterUtil) (baseInfo : SVScoreInfo)
    (somaticInfo : SVScoreInfoSomatic) (hclear : somaticInfo.somaticScore = 0) :
    ((scoreSomaticSV somaticOpt sv dFilter baseInfo somaticInfo).somaticScore = 60 ↔
        ¬ (vetoNormalSupport baseInfo ∨ vetoWeakTumor baseInfo ∨ vetoRatio baseInfo ∨
            vetoNoNormalRef baseInfo)) ∧
      ((scoreSomaticSV somaticOpt sv dFilter baseInfo somaticInfo).somaticScore = 0 ↔
        (vetoNormalSupport baseInfo ∨ vetoWeakTumor baseInfo ∨ vetoRatio baseInfo ∨
            vetoNoNormalRef baseInfo)) := by
  have key := isNonzeroSomaticQuality_iff baseInfo
  unfold scoreSomaticSV
  by_cases hq : isNonzeroSomaticQuality baseInfo = true
  · have hv := key.mp hq
    simp [hq, hv]
  · have hv : (vetoNormalSupport baseInfo ∨ vetoWeakTumor baseInfo ∨ vetoRatio baseInfo ∨
            vetoNoNormalRef baseInfo) := by
      by_contra hc; exact hq (key.mpr hc)
    simp [hq, hv, hclear]

/-- C1 at the "somatic pass" scenario (tumor alt pairs 20, normal alt pairs 0,
normal ref pairs 10, all else 0): the score is 60. -/
theorem scoreSomaticSV_score_witness :
    ({} : SVScoreInfoSomatic).somaticScore = 0 ∧
      (scoreSomaticSV somaticOptDefault {} noDepthFilter somaticPassInfo {}).somaticScore = 60 :=
  ⟨rfl, (scoreSomaticSV_score somaticOptDefault {} noDepthFilter somaticPassInfo {} rfl).1.mpr (by
    unfold vetoNormalSupport vetoWeakTumor vetoRatio vetoNoNormalRef somaticPassInfo
    simp)⟩
/-! ## `addReadToDepthEst` -/

/-- An in-range `depth[i]++` succeeds and changes entry `i` only. -/
theorem depthIncrement_spec (depth : List Nat) (i : Int) (h0 : 0 ≤ i)
    (h1 : i < depth.length) :
    ∃ depth1, depthIncrement depth i = some depth1 ∧ depth1.length = depth.length ∧
      ∀ j : Nat, depth1.getD j 0 =
        if (j : Int) = i then (depth.getD j 0 + 1) % UINT_RANGE else depth.getD j 0 := by
  refine ⟨depth.set i.toNat ((depth.getD i.toNat 0 + 1) % UINT_RANGE), ?_, by simp, ?_⟩
  · simp only [depthIncrement]; rw [if_pos ⟨h0, h1⟩]
  intro j
  obtain ⟨k, rfl⟩ := Int.eq_ofNat_of_zero_le h0
  simp only [Int.toNat_ofNat, Nat.cast_inj]
  by_cases hj : j = k
  · subst hj
    have : j < depth.length := by exact_mod_cast h1
    simp [List.getD_eq_getElem?_getD, List.getElem?_set, this]
  · have : ¬ k = j := fun h => hj h.symm
    simp [List.getD_eq_getElem?_getD, List.getElem?_set, this, hj]

/-- The inner loop increments exactly the window positions of `[pos, pos + n)` and
returns early exactly when the segment runs past the window end. -/
theorem addMatchToDepthEst_spec (beginPos endPos : Int) (n : Nat) :
    ∀ (pos : Int) (depth : List Nat), endPos = beginPos + depth.length → pos ≤ endPos →
      ∃ depth1, addMatchToDepthEst beginPos endPos n pos depth =
          some (depth1, decide (0 < n ∧ endPos < pos + n)) ∧
        IncrementedOn (fun p => pos ≤ p ∧ p < pos + n) beginPos depth depth1 := by
  induction n with
  | zero =>
    intro pos depth _ _
    refine ⟨depth, by simp [addMatchToDepthEst], rfl, ?_⟩
    intro j _
    dsimp only
    split_ifs <;> first | rfl | (exfalso; omega)
  | succ n ih =>
    intro pos depth hend hpos
    unfold addMatchToDepthEst
    by_cases hb : pos ≥ beginPos
    · by_cases he : pos ≥ endPos
      · refine ⟨depth, ?_, rfl, ?_⟩
        · have : (0 < n + 1 ∧ endPos < pos + ((n + 1 : Nat) : Int)) := ⟨by omega, by omega⟩
          rw [if_pos hb, if_pos he, decide_eq_true this]
        · intro j hj
          dsimp only
          split_ifs <;> first | rfl | (exfalso; omega)
      · obtain ⟨d1, hd1, hlen1, hget1⟩ :=
          depthIncrement_spec depth (pos - beginPos) (by omega) (by omega)
        obtain ⟨d2, hd2, hlen2, hget2⟩ := ih (pos + 1) d1 (by omega) (by omega)
        refine ⟨d2, ?_, by omega, ?_⟩
        · rw [if_pos hb, if_neg he, hd1]
          dsimp only
          rw [hd2]
          congr 2
          rw [decide_eq_decide]
          constructor
          · rintro ⟨_, h⟩; exact ⟨by omega, by omega⟩
          · rintro ⟨_, h⟩
            have : 0 < n := by omega
            exact ⟨this, by omega⟩
        · intro j hj
          rw [hget2 j (by omega), hget1 j]
          dsimp only
          split_ifs <;> first | rfl | (exfalso; omega)
    · obtain ⟨d2, hd2, hlen2, hget2⟩ := ih (pos + 1) depth hend (by omega)
      refine ⟨d2, ?_, hlen2, ?_⟩
      · rw [if_neg hb, hd2]
        congr 2
        rw [decide_eq_decide]
        constructor
        · rintro ⟨_, h⟩; exact ⟨by omega, by omega⟩
        · rintro ⟨_, h⟩
          have : 0 < n := by omega
          exact ⟨this, by omega⟩
      · intro j hj
        rw [hget2 j hj]
        dsimp only
        split_ifs <;> first | rfl | (exfalso; omega)

/-- Every position covered by a path lies at or after the position the path is
laid out from. -/
theorem coveredByMatch_ge (p : Int) (apath : List path_segment) :
    ∀ refPos : Int, coveredByMatch p apath refPos = true → refPos ≤ p := by
  induction apath with
  | nil => intro refPos h; simp [coveredByMatch] at h
  | cons ps apath ih =>
    intro refPos h
    simp only [coveredByMatch, Bool.or_eq_true, Bool.and_eq_true, decide_eq_true_eq] at h
    rcases h with h | h
    · exact h.1.2
    · have := ih _ h
      split_ifs at this <;> omega

/-- The segment loop never writes out of bounds and increments exactly the window
positions covered by a MATCH segment. -/
theorem addPathToDepthEst_spec (beginPos endPos : Int) (apath : List path_segment) :
    ∀ (refPos : Int) (depth : List Nat), endPos = beginPos + depth.length →
      ∃ depth1, addPathToDepthEst beginPos endPos apath refPos depth = some depth1 ∧
        IncrementedOn (fun p => coveredByMatch p apath refPos = true) beginPos depth depth1 := by
  induction apath with
  | nil =>
    intro refPos depth _
    refine ⟨depth, rfl, rfl, ?_⟩
    intro j _
    simp [coveredByMatch]
  | cons ps apath ih =>
    intro refPos depth hend
    unfold addPathToDepthEst
    by_cases he : refPos ≥ endPos
    · refine ⟨depth, by rw [if_pos he], rfl, ?_⟩
      intro j hj
      dsimp only
      have : ¬ coveredByMatch (beginPos + j) (ps :: apath) refPos = true := by
        intro hc
        have := coveredByMatch_ge _ _ _ hc
        omega
      rw [if_neg this]
    · rw [if_neg he]
      by_cases hm : ps.type = align_t.MATCH
      · rw [if_pos hm]
        obtain ⟨ty, len⟩ := ps
        dsimp only at hm
        subst hm
        dsimp only
        have href : is_segment_type_ref_length align_t.MATCH = true := rfl
        rw [if_pos href]
        obtain ⟨d1, hd1, hlen1, hget1⟩ :=
          addMatchToDepthEst_spec beginPos endPos len refPos depth hend (by omega)
        rw [hd1]
        by_cases hret : (0 < len ∧ endPos < refPos + len)
        · rw [decide_eq_true hret]
          refine ⟨d1, rfl, hlen1, ?_⟩
          intro j hj
          rw [hget1 j hj]
          dsimp only
          have hrest : ¬ coveredByMatch (beginPos + j) apath (refPos + len) = true := by
            intro hc
            have := coveredByMatch_ge _ _ _ hc
            omega
          simp [coveredByMatch, hrest, href]
        · rw [decide_eq_false hret]
          dsimp only
          obtain ⟨d2, hd2, hlen2, hget2⟩ := ih (refPos + len) d1 (by omega)
          refine ⟨d2, hd2, by omega, ?_⟩
          intro j hj
          rw [hget2 j (by omega), hget1 j hj]
          dsimp only
          by_cases hc : coveredByMatch (beginPos + j) apath (refPos + len) = true
          · have hge := coveredByMatch_ge _ _ _ hc
            have h1 : ¬ (refPos ≤ beginPos + j ∧ beginPos + j < refPos + len) := by omega
            simp [coveredByMatch, hc, href, h1]
          · simp [coveredByMatch, hc, href]
      · rw [if_neg hm]
        dsimp only
        obtain ⟨d2, hd2, hlen2, hget2⟩ := ih (if is_segment_type_ref_length ps.type = true
            then refPos + ps.length else refPos) depth hend
        refine ⟨d2, hd2, hlen2, ?_⟩
        intro j hj
        rw [hget2 j hj]
        dsimp only
        simp [coveredByMatch, hm]

/-- A path without MATCH segments covers no position. -/
theorem coveredByMatch_no_match (p : Int) (apath : List path_segment) :
    ∀ refPos : Int, (∀ ps ∈ apath, ps.type ≠ align_t.MATCH) →
      coveredByMatch p apath refPos = false := by
  induction apath with
  | nil => intro _ _; rfl
  | cons ps apath ih =>
    intro refPos h
    have h1 : ps.type ≠ align_t.MATCH := h ps (List.mem_cons_self _ _)
    have h2 := ih (if is_segment_type_ref_length ps.type then refPos + ps.length else refPos)
      (fun q hq => h q (List.mem_cons_of_mem _ hq))
    simp [coveredByMatch, h1, h2]

/-- C4: for every read and every depth array (no counter at its maximum), the call
`addReadToDepthEst` writes in bounds, keeps the array length, and each counter
of the window has grown by exactly 1 if its position is covered by a MATCH
segment of the read and is unchanged otherwise; a read without MATCH segments
(only clips, insertions, deletions, skips) leaves the array as it was. -/
theorem addReadToDepthEst_spec (bamRead : bam_record) (beginPos : Int) (depth : List Nat)
    (hmax : ∀ d ∈ depth, d + 1 < UINT_RANGE) :
    ∃ depth1, addReadToDepthEst bamRead beginPos depth = some depth1 ∧
      depth1.length = depth.length ∧
      (∀ j : Nat, j < depth.length →
        depth1.getD j 0 = depth.getD j 0 +
          (if coveredByMatch (beginPos + j) bamRead.cigar (bamRead.pos - 1) = true
            then 1 else 0)) ∧
      ((∀ ps ∈ bamRead.cigar, ps.type ≠ align_t.MATCH) → depth1 = depth) := by
  obtain ⟨d1, hd1, hlen, hget⟩ :=
    addPathToDepthEst_spec beginPos (beginPos + depth.length) bamRead.cigar
      (bamRead.pos - 1) depth rfl
  have hpoint : ∀ j : Nat, j < depth.length →
      d1.getD j 0 = depth.getD j 0 +
        (if coveredByMatch (beginPos + j) bamRead.cigar (bamRead.pos - 1) = true
          then 1 else 0) := by
    intro j hj
    rw [hget j hj]
    dsimp only
    have hlt : depth.getD j 0 + 1 < UINT_RANGE := by
      apply hmax
      rw [List.getD_eq_getElem _ _ hj]
      exact List.getElem_mem _
    split_ifs
    · exact Nat.mod_eq_of_lt hlt
    · rfl
  refine ⟨d1, hd1, hlen, hpoint, ?_⟩
  intro hno
  apply List.ext_getElem hlen
  intro j h1 h2
  have := hpoint j h2
  rw [coveredByMatch_no_match _ _ _ hno] at this
  rw [List.getD_eq_getElem _ _ h1, List.getD_eq_getElem _ _ h2] at this
  simpa using this

/-- C4 at a concrete input: a `15M` read starting at 199 over the zeroed window
`[200, 203)`. -/
theorem addReadToDepthEst_spec_witness :
    (∀ d ∈ [0, 0, 0], d + 1 < UINT_RANGE) ∧
      ∃ depth1, addReadToDepthEst (read15M "Read-1" 199) 200 [0, 0, 0] = some depth1 ∧
        depth1.length = [0, 0, 0].length ∧
        (∀ j : Nat, j < [0, 0, 0].length →
          depth1.getD j 0 = [0, 0, 0].getD j 0 +
            (if coveredByMatch (200 + j) (read15M "Read-1" 199).cigar
                ((read15M "Read-1" 199).pos - 1) = true then 1 else 0)) ∧
        ((∀ ps ∈ (read15M "Read-1" 199).cigar, ps.type ≠ align_t.MATCH) →
          depth1 = [0, 0, 0]) :=
  ⟨by decide, addReadToDepthEst_spec (read15M "Read-1" 199) 200 [0, 0, 0] (by decide)⟩

/-- C5 as stated fails: two `15M` reads at 200 and 210 over a zeroed window of 30
positions starting at 200 do not give 1 on 200-209, 2 on 210-219, 1 on 220-229. -/
theorem depthPileup_not_as_claimed :
    ¬ ((addReadToDepthEst (read15M "Read-1" 200) 200 (List.replicate 30 0)).bind
        (addReadToDepthEst (read15M "Read-2" 210) 200) =
      some (List.replicate 10 1 ++ List.replicate 10 2 ++ List.replicate 10 1)) := by
  decide

/-- C5 amended: two `15M` reads at 200 and 210 over a zeroed window of 30
positions starting at 200 give 1 on 200-209, 2 on 210-214, 1 on 215-224 and 0
on 225-229. -/
theorem depthPileup_two_reads :
    (addReadToDepthEst (read15M "Read-1" 200) 200 (List.replicate 30 0)).bind
        (addReadToDepthEst (read15M "Read-2" 210) 200) =
      some (List.replicate 10 1 ++ List.replicate 5 2 ++ List.replicate 10 1 ++
        List.replicate 5 0) := by
  decide

/-! ## The evidence store -/

/-- Reading a key right after storing under it returns the stored value. -/
theorem evidenceAt_assign_same (qname : String) (v : SVFragmentEvidence)
    (m : evidenceTrack_t) : evidenceAt (evidenceAssign qname v m) qname = v := by
  induction m with
  | nil => simp [evidenceAssign, evidenceAt, evidenceFind]
  | cons kw rest ih =>
    obtain ⟨k, w⟩ := kw
    unfold evidenceAssign
    by_cases h1 : qname = k
    · simp [h1, evidenceAt, evidenceFind]
    · rw [if_neg h1]
      by_cases h2 : qname.toList < k.toList
      · rw [if_pos h2]; simp [evidenceAt, evidenceFind]
      · rw [if_neg h2]
        simp only [evidenceAt, evidenceFind, if_neg h1]
        exact ih

/-- Storing under one key leaves the value read under every other key. -/
theorem evidenceAt_assign_other (qname k2 : String) (v : SVFragmentEvidence)
    (m : evidenceTrack_t) (hne : k2 ≠ qname) :
    evidenceAt (evidenceAssign qname v m) k2 = evidenceAt m k2 := by
  induction m with
  | nil => simp [evidenceAssign, evidenceAt, evidenceFind, hne]
  | cons kw rest ih =>
    obtain ⟨k, w⟩ := kw
    unfold evidenceAssign
    by_cases h1 : qname = k
    · subst h1
      simp [evidenceAt, evidenceFind, hne]
    · rw [if_neg h1]
      by_cases h2 : qname.toList < k.toList
      · rw [if_pos h2]
        by_cases h3 : k2 = k
        · have h4 : ¬ k = qname := fun h => h1 h.symm
          simp [evidenceAt, evidenceFind, h3, h4]
        · simp [evidenceAt, evidenceFind, h3, hne]
      · rw [if_neg h2]
        by_cases h3 : k2 = k
        · simp [evidenceAt, evidenceFind, h3]
        · simp only [evidenceAt, evidenceFind, if_neg h3]
          exact ih

/-- Every entry of a track after a store is the stored entry or an old one. -/
theorem mem_evidenceAssign (qname : String) (v : SVFragmentEvidence) (m : evidenceTrack_t)
    (kv : String × SVFragmentEvidence) (h : kv ∈ evidenceAssign qname v m) :
    kv = (qname, v) ∨ kv ∈ m := by
  induction m with
  | nil => simpa [evidenceAssign] using h
  | cons kw rest ih =>
    obtain ⟨k, w⟩ := kw
    unfold evidenceAssign at h
    by_cases h1 : qname = k
    · rw [if_pos h1] at h
      rcases List.mem_cons.mp h with h | h
      · left; rw [h, h1]
      · right; exact List.mem_cons_of_mem _ h
    · rw [if_neg h1] at h
      by_cases h2 : qname.toList < k.toList
      · rw [if_pos h2] at h
        rcases List.mem_cons.mp h with h | h
        · left; exact h
        · right; exact h
      · rw [if_neg h2] at h
        rcases List.mem_cons.mp h with h | h
        · right; rw [h]; exact List.mem_cons_self _ _
        · rcases ih h with h | h
          · left; exact h
          · right; exact List.mem_cons_of_mem _ h

/-- The value read under a key is a stored entry or the default fragment. -/
theorem evidenceAt_mem_or_default (m : evidenceTrack_t) (qname : String) :
    (qname, evidenceAt m qname) ∈ m ∨ evidenceAt m qname = {} := by
  induction m with
  | nil => right; rfl
  | cons kw rest ih =>
    obtain ⟨k, w⟩ := kw
    by_cases h1 : qname = k
    · left; simp [evidenceAt, evidenceFind, h1]
    · simp only [evidenceAt, evidenceFind, if_neg h1]
      rcases ih with h | h
      · left; exact List.mem_cons_of_mem _ h
      · right; exact h

/-- Reading the read side just written returns the written cell. -/
@[simp] theorem alleleBreakend_getRead_setRead (x : SVFragmentEvidenceAlleleBreakend)
    (s : Bool) (c : SVFragmentEvidenceAlleleBreakendPerRead) :
    (x.setRead s c).getRead s = c := by
  cases s <;> rfl

/-- Writing one read side leaves the cell of the other side. -/
theorem alleleBreakend_getRead_setRead_other (x : SVFragmentEvidenceAlleleBreakend)
    (s t : Bool) (c : SVFragmentEvidenceAlleleBreakendPerRead) (h : t ≠ s) :
    (x.setRead s c).getRead t = x.getRead t := by
  cases s <;> cases t <;> first | rfl | exact absurd rfl h

/-- Writing a read-side record leaves the alt allele evidence. -/
@[simp] theorem fragment_setRead_alt (f : SVFragmentEvidence) (s : Bool)
    (r : SVFragmentEvidenceRead) : (f.setRead s r).alt = f.alt := by
  cases s <;> rfl

/-- Writing a read-side record leaves the ref allele evidence. -/
@[simp] theorem fragment_setRead_ref (f : SVFragmentEvidence) (s : Bool)
    (r : SVFragmentEvidenceRead) : (f.setRead s r).ref = f.ref := by
  cases s <;> rfl

/-- The function `incrementAlleleEvidence` never touches `isSplitEvaluated`. -/
theorem incrementAlleleEvidence_evaluated (bp1SR bp2SR : SplitReadAlignment) (readMapQ : Nat)
    (allele : SVSampleAlleleInfo)
    (bp1Support bp2Support : SVFragmentEvidenceAlleleBreakendPerRead) :
    (incrementAlleleEvidence bp1SR bp2SR readMapQ allele bp1Support bp2Support).2.1.isSplitEvaluated
        = bp1Support.isSplitEvaluated ∧
      (incrementAlleleEvidence bp1SR bp2SR readMapQ allele bp1Support bp2Support).2.2.isSplitEvaluated
        = bp2Support.isSplitEvaluated := by
  unfold incrementAlleleEvidence
  cases bp1SR.has_evidence <;> cases bp2SR.has_evidence <;> simp


/-- The bp1 cell keeps its `isSplitEvaluated` flag. -/
theorem incrementAlleleEvidence_snd_fst_eval (bp1SR bp2SR : SplitReadAlignment) (readMapQ : Nat)
    (allele : SVSampleAlleleInfo)
    (bp1Support bp2Support : SVFragmentEvidenceAlleleBreakendPerRead) :
    (incrementAlleleEvidence bp1SR bp2SR readMapQ allele bp1Support bp2Support).2.1.isSplitEvaluated
        = bp1Support.isSplitEvaluated :=
  (incrementAlleleEvidence_evaluated bp1SR bp2SR readMapQ allele bp1Support bp2Support).1

/-- The bp2 cell keeps its `isSplitEvaluated` flag. -/
theorem incrementAlleleEvidence_snd_snd_eval (bp1SR bp2SR : SplitReadAlignment) (readMapQ : Nat)
    (allele : SVSampleAlleleInfo)
    (bp1Support bp2Support : SVFragmentEvidenceAlleleBreakendPerRead) :
    (incrementAlleleEvidence bp1SR bp2SR readMapQ allele bp1Support bp2Support).2.2.isSplitEvaluated
        = bp2Support.isSplitEvaluated :=
  (incrementAlleleEvidence_evaluated bp1SR bp2SR readMapQ allele bp1Support bp2Support).2

/-- What one loop iteration leaves under a key: other keys are untouched, and
under the record's own key either only the read-side record changed (already
evaluated) or the four cells of that side were evaluated. -/
theorem scoreSplitRead_at (c : SplitReadCollaborators) (svAlignInfo : SVAlignmentInfo)
    (minMapQ : Nat) (bamRead : bam_record) (st : evidenceTrack_t × SVSampleInfo)
    (k : String) :
    let st1 := scoreSplitRead c svAlignInfo minMapQ bamRead st
    let f0 := evidenceAt st.1 k
    let f1 := evidenceAt st1.1 k
    (isSplitReadFiltered bamRead = true → st1 = st) ∧
    (k ≠ bamRead.qname → f1 = f0) ∧
    (isSplitReadFiltered bamRead = false → k = bamRead.qname →
      ((f0.alt.bp1.getRead bamRead.is_first).isSplitEvaluated = true →
          st1.2 = st.2 ∧ f1.alt = f0.alt ∧ f1.ref = f0.ref) ∧
      ((f0.alt.bp1.getRead bamRead.is_first).isSplitEvaluated = false →
          AllSplitEvaluated f1 bamRead.is_first ∧
          (∀ t, t ≠ bamRead.is_first →
            f1.alt.bp1.getRead t = f0.alt.bp1.getRead t ∧
            f1.alt.bp2.getRead t = f0.alt.bp2.getRead t ∧
            f1.ref.bp1.getRead t = f0.ref.bp1.getRead t ∧
            f1.ref.bp2.getRead t = f0.ref.bp2.getRead t))) := by
  intro st1 f0 f1
  refine ⟨?_, ?_, ?_⟩
  · intro hf
    show scoreSplitRead c svAlignInfo minMapQ bamRead st = st
    unfold scoreSplitRead
    unfold isSplitReadFiltered at hf
    cases h1 : bamRead.is_filter <;> cases h2 : bamRead.is_dup <;>
      cases h3 : bamRead.is_secondary <;> cases h4 : bamRead.is_supplement <;>
      simp [h1, h2, h3, h4] at hf ⊢
  · intro hk
    show evidenceAt (scoreSplitRead c svAlignInfo minMapQ bamRead st).1 k = evidenceAt st.1 k
    unfold scoreSplitRead
    dsimp only
    split_ifs <;> first | rfl | exact evidenceAt_assign_other _ _ _ _ hk
  · intro hf hk
    subst hk
    unfold isSplitReadFiltered at hf
    simp only [Bool.or_eq_false_iff] at hf
    obtain ⟨⟨⟨h1, h2⟩, h3⟩, h4⟩ := hf
    constructor
    · intro he
      have hst : scoreSplitRead c svAlignInfo minMapQ bamRead st =
          (evidenceAssign bamRead.qname ((evidenceAt st.1 bamRead.qname).setRead bamRead.is_first
            (c.setReadEvidence minMapQ bamRead
              ((evidenceAt st.1 bamRead.qname).getRead bamRead.is_first))) st.1, st.2) := by
        unfold scoreSplitRead
        simp only [h1, h2, h3, h4, Bool.false_eq_true, if_false, fragment_setRead_alt]
        rw [if_pos he]
      refine ⟨?_, ?_, ?_⟩
      · show (scoreSplitRead c svAlignInfo minMapQ bamRead st).2 = st.2
        rw [hst]
      · show (evidenceAt (scoreSplitRead c svAlignInfo minMapQ bamRead st).1 bamRead.qname).alt = _
        rw [hst, evidenceAt_assign_same, fragment_setRead_alt]
      · show (evidenceAt (scoreSplitRead c svAlignInfo minMapQ bamRead st).1 bamRead.qname).ref = _
        rw [hst, evidenceAt_assign_same, fragment_setRead_ref]
    · intro he
      have he2 : ¬ ((evidenceAt st.1 bamRead.qname).alt.bp1.getRead bamRead.is_first).isSplitEvaluated
          = true := by rw [he]; exact Bool.false_ne_true
      show AllSplitEvaluated (evidenceAt (scoreSplitRead c svAlignInfo minMapQ bamRead st).1
        bamRead.qname) bamRead.is_first ∧ ∀ t, t ≠ bamRead.is_first →
          (evidenceAt (scoreSplitRead c svAlignInfo minMapQ bamRead st).1
            bamRead.qname).alt.bp1.getRead t = _ ∧
          (evidenceAt (scoreSplitRead c svAlignInfo minMapQ bamRead st).1
            bamRead.qname).alt.bp2.getRead t = _ ∧
          (evidenceAt (scoreSplitRead c svAlignInfo minMapQ bamRead st).1
            bamRead.qname).ref.bp1.getRead t = _ ∧
          (evidenceAt (scoreSplitRead c svAlignInfo minMapQ bamRead st).1
            bamRead.qname).ref.bp2.getRead t = _
      unfold scoreSplitRead
      simp only [h1, h2, h3, h4, Bool.false_eq_true, if_false, fragment_setRead_alt,
        fragment_setRead_ref]
      rw [if_neg he2]
      simp only [evidenceAt_assign_same]
      refine ⟨⟨?_, ?_, ?_, ?_⟩, ?_⟩
      · simp [incrementAlleleEvidence_snd_fst_eval]
      · simp [incrementAlleleEvidence_snd_fst_eval]
      · simp [incrementAlleleEvidence_snd_snd_eval]
      · simp [incrementAlleleEvidence_snd_snd_eval]
      · intro t ht
        simp [alleleBreakend_getRead_setRead_other _ _ _ _ ht]

/-- The default-constructed fragment satisfies I1. -/
theorem splitEvaluatedTogether_default : SplitEvaluatedTogether {} := by
  intro s
  right
  cases s <;> exact ⟨rfl, rfl, rfl, rfl⟩

/-- On a track satisfying I1 the fragment read under any key satisfies I1. -/
theorem splitEvaluatedTogether_at (m : evidenceTrack_t) (h : TrackSplitEvaluatedTogether m)
    (k : String) : SplitEvaluatedTogether (evidenceAt m k) := by
  rcases evidenceAt_mem_or_default m k with hm | hd
  · exact h _ hm
  · rw [hd]; exact splitEvaluatedTogether_default

/-- The predicate `AllSplitEvaluated` depends on the allele evidence only. -/
theorem allSplitEvaluated_congr (f g : SVFragmentEvidence) (s : Bool)
    (ha : g.alt = f.alt) (hr : g.ref = f.ref) :
    AllSplitEvaluated g s ↔ AllSplitEvaluated f s := by
  unfold AllSplitEvaluated; rw [ha, hr]

/-- The predicate `NoneSplitEvaluated` depends on the allele evidence only. -/
theorem noneSplitEvaluated_congr (f g : SVFragmentEvidence) (s : Bool)
    (ha : g.alt = f.alt) (hr : g.ref = f.ref) :
    NoneSplitEvaluated g s ↔ NoneSplitEvaluated f s := by
  unfold NoneSplitEvaluated; rw [ha, hr]

/-- One loop iteration keeps invariant I1 on the fragment stored under any key. -/
theorem scoreSplitRead_together_at (c : SplitReadCollaborators)
    (svAlignInfo : SVAlignmentInfo) (minMapQ : Nat) (bamRead : bam_record)
    (st : evidenceTrack_t × SVSampleInfo) (k : String)
    (h : SplitEvaluatedTogether (evidenceAt st.1 k)) :
    SplitEvaluatedTogether (evidenceAt (scoreSplitRead c svAlignInfo minMapQ bamRead st).1 k) := by
  obtain ⟨hfil, hother, hself⟩ := scoreSplitRead_at c svAlignInfo minMapQ bamRead st k
  by_cases hk : k = bamRead.qname
  · cases hf : isSplitReadFiltered bamRead
    · obtain ⟨hA, hB⟩ := hself hf hk
      cases he : ((evidenceAt st.1 k).alt.bp1.getRead bamRead.is_first).isSplitEvaluated
      · obtain ⟨hall, hrest⟩ := hB he
        intro s
        by_cases hs : s = bamRead.is_first
        · left; rw [hs]; exact hall
        · obtain ⟨e1, e2, e3, e4⟩ := hrest s hs
          rcases h s with hh | hh
          · left
            unfold AllSplitEvaluated at hh ⊢
            rw [e1, e2, e3, e4]; exact hh
          · right
            unfold NoneSplitEvaluated at hh ⊢
            rw [e1, e2, e3, e4]; exact hh
      · obtain ⟨_, ha, hr⟩ := hA he
        intro s
        rcases h s with hh | hh
        · left; exact (allSplitEvaluated_congr _ _ s ha hr).mpr hh
        · right; exact (noneSplitEvaluated_congr _ _ s ha hr).mpr hh
    · rw [hfil hf]; exact h
  · rw [hother hk]; exact h

/-- Every entry of the track after one iteration is an old entry or the entry of
the record. -/
theorem scoreSplitRead_mem (c : SplitReadCollaborators) (svAlignInfo : SVAlignmentInfo)
    (minMapQ : Nat) (bamRead : bam_record) (st : evidenceTrack_t × SVSampleInfo)
    (kv : String × SVFragmentEvidence)
    (h : kv ∈ (scoreSplitRead c svAlignInfo minMapQ bamRead st).1) :
    kv ∈ st.1 ∨
      kv = (bamRead.qname,
        evidenceAt (scoreSplitRead c svAlignInfo minMapQ bamRead st).1 bamRead.qname) := by
  unfold scoreSplitRead at h ⊢
  dsimp only at h ⊢
  split_ifs at h ⊢
  · left; exact h
  · left; exact h
  · left; exact h
  · left; exact h
  · rcases mem_evidenceAssign _ _ _ _ h with h | h
    · right; rw [evidenceAt_assign_same]; exact h
    · left; exact h
  · rcases mem_evidenceAssign _ _ _ _ h with h | h
    · right; rw [evidenceAt_assign_same]; exact h
    · left; exact h

/-- One loop iteration keeps invariant I1 on the whole track. -/
theorem scoreSplitRead_together (c : SplitReadCollaborators) (svAlignInfo : SVAlignmentInfo)
    (minMapQ : Nat) (bamRead : bam_record) (st : evidenceTrack_t × SVSampleInfo)
    (h : TrackSplitEvaluatedTogether st.1) :
    TrackSplitEvaluatedTogether (scoreSplitRead c svAlignInfo minMapQ bamRead st).1 := by
  intro kv hkv
  rcases scoreSplitRead_mem c svAlignInfo minMapQ bamRead st kv hkv with hm | he
  · exact h kv hm
  · rw [he]
    exact scoreSplitRead_together_at c svAlignInfo minMapQ bamRead st _
      (splitEvaluatedTogether_at _ h _)

/-- The record loop keeps invariant I1 on the whole track. -/
theorem scoreSplitReadRecords_together (c : SplitReadCollaborators)
    (svAlignInfo : SVAlignmentInfo) (minMapQ : Nat) (records : List bam_record) :
    ∀ st : evidenceTrack_t × SVSampleInfo, TrackSplitEvaluatedTogether st.1 →
      TrackSplitEvaluatedTogether (scoreSplitReadRecords c svAlignInfo minMapQ records st).1 := by
  induction records with
  | nil => intro st h; exact h
  | cons r rest ih =>
    intro st h
    exact ih _ (scoreSplitRead_together c svAlignInfo minMapQ r st h)

/-- C8 (invariant I1): if on entry every stored fragment has, for each read side,
its four `isSplitEvaluated` flags all set or all clear, then so has every stored
fragment after `scoreSplitReads` ran over any record stream. -/
theorem scoreSplitReads_together (c : SplitReadCollaborators) (bp : SVBreakend)
    (svAlignInfo : SVAlignmentInfo) (minMapQ : Nat) (sampleEvidence : evidenceTrack_t)
    (readStream : bam_streamer) (sample : SVSampleInfo)
    (h : TrackSplitEvaluatedTogether sampleEvidence) :
    TrackSplitEvaluatedTogether
      (scoreSplitReads c bp svAlignInfo minMapQ sampleEvidence readStream sample).1 :=
  scoreSplitReadRecords_together c svAlignInfo minMapQ _ (sampleEvidence, sample) h

/-- Once the four cells of a read side are set, every loop iteration keeps them
set. -/
theorem scoreSplitRead_allEvaluated (c : SplitReadCollaborators)
    (svAlignInfo : SVAlignmentInfo) (minMapQ : Nat) (bamRead : bam_record)
    (st : evidenceTrack_t × SVSampleInfo) (k : String) (s : Bool)
    (h : AllSplitEvaluated (evidenceAt st.1 k) s) :
    AllSplitEvaluated (evidenceAt (scoreSplitRead c svAlignInfo minMapQ bamRead st).1 k) s := by
  obtain ⟨hfil, hother, hself⟩ := scoreSplitRead_at c svAlignInfo minMapQ bamRead st k
  by_cases hk : k = bamRead.qname
  · cases hf : isSplitReadFiltered bamRead
    · obtain ⟨hA, hB⟩ := hself hf hk
      cases he : ((evidenceAt st.1 k).alt.bp1.getRead bamRead.is_first).isSplitEvaluated
      · obtain ⟨hall, hrest⟩ := hB he
        by_cases hs : s = bamRead.is_first
        · rw [hs]; exact hall
        · obtain ⟨e1, e2, e3, e4⟩ := hrest s hs
          unfold AllSplitEvaluated at h ⊢
          rw [e1, e2, e3, e4]; exact h
      · obtain ⟨_, ha, hr⟩ := hA he
        exact (allSplitEvaluated_congr _ _ s ha hr).mpr h
    · rw [hfil hf]; exact h
  · rw [hother hk]; exact h

/-- Once the four cells of a read side are set, the record loop keeps them set. -/
theorem scoreSplitReadRecords_allEvaluated (c : SplitReadCollaborators)
    (svAlignInfo : SVAlignmentInfo) (minMapQ : Nat) (records : List bam_record)
    (k : String) (s : Bool) :
    ∀ st : evidenceTrack_t × SVSampleInfo, AllSplitEvaluated (evidenceAt st.1 k) s →
      AllSplitEvaluated (evidenceAt (scoreSplitReadRecords c svAlignInfo minMapQ records st).1 k) s := by
  induction records with
  | nil => intro st h; exact h
  | cons r rest ih =>
    intro st h
    exact ih _ (scoreSplitRead_allEvaluated c svAlignInfo minMapQ r st k s h)

/-- After an unfiltered record is processed on a track satisfying I1, the four
cells of its fragment and read side are set. -/
theorem scoreSplitRead_sets_evaluated (c : SplitReadCollaborators)
    (svAlignInfo : SVAlignmentInfo) (minMapQ : Nat) (bamRead : bam_record)
    (st : evidenceTrack_t × SVSampleInfo) (h : TrackSplitEvaluatedTogether st.1)
    (hf : isSplitReadFiltered bamRead = false) :
    AllSplitEvaluated (evidenceAt (scoreSplitRead c svAlignInfo minMapQ bamRead st).1
      bamRead.qname) bamRead.is_first := by
  obtain ⟨_, _, hself⟩ := scoreSplitRead_at c svAlignInfo minMapQ bamRead st bamRead.qname
  obtain ⟨hA, hB⟩ := hself hf rfl
  cases he : ((evidenceAt st.1 bamRead.qname).alt.bp1.getRead bamRead.is_first).isSplitEvaluated
  · exact (hB he).1
  · obtain ⟨_, ha, hr⟩ := hA he
    refine (allSplitEvaluated_congr _ _ _ ha hr).mpr ?_
    rcases splitEvaluatedTogether_at _ h bamRead.qname bamRead.is_first with hh | hh
    · exact hh
    · rw [hh.1] at he; cases he

/-- A record whose fragment and read side are already evaluated changes neither
the sample record nor the allele evidence of any fragment. -/
theorem scoreSplitRead_noop (c : SplitReadCollaborators)
    (svAlignInfo : SVAlignmentInfo) (minMapQ : Nat) (bamRead : bam_record)
    (st : evidenceTrack_t × SVSampleInfo)
    (h : AllSplitEvaluated (evidenceAt st.1 bamRead.qname) bamRead.is_first) :
    (scoreSplitRead c svAlignInfo minMapQ bamRead st).2 = st.2 ∧
      SameAlleleEvidence (scoreSplitRead c svAlignInfo minMapQ bamRead st).1 st.1 := by
  cases hf : isSplitReadFiltered bamRead
  · constructor
    · obtain ⟨_, _, hself⟩ := scoreSplitRead_at c svAlignInfo minMapQ bamRead st bamRead.qname
      exact ((hself hf rfl).1 h.1).1
    · intro k
      obtain ⟨_, hother, hself⟩ := scoreSplitRead_at c svAlignInfo minMapQ bamRead st k
      by_cases hk : k = bamRead.qname
      · have := (hself hf hk).1 (by rw [hk]; exact h.1)
        exact ⟨this.2.1, this.2.2⟩
      · rw [hother hk]; exact ⟨rfl, rfl⟩
  · obtain ⟨hfil, _, _⟩ := scoreSplitRead_at c svAlignInfo minMapQ bamRead st bamRead.qname
    rw [hfil hf]
    exact ⟨rfl, fun _ => ⟨rfl, rfl⟩⟩

/-- The record loop over a concatenation is the loop over the second part run
after the loop over the first. -/
theorem scoreSplitReadRecords_append (c : SplitReadCollaborators)
    (svAlignInfo : SVAlignmentInfo) (minMapQ : Nat) (xs ys : List bam_record)
    (st : evidenceTrack_t × SVSampleInfo) :
    scoreSplitReadRecords c svAlignInfo minMapQ (xs ++ ys) st =
      scoreSplitReadRecords c svAlignInfo minMapQ ys
        (scoreSplitReadRecords c svAlignInfo minMapQ xs st) := by
  unfold scoreSplitReadRecords
  rw [List.foldl_append]

/-- C7: on a track satisfying I1, let the records of bp1's region followed by
those of bp2's region contain an unfiltered record `r` and later a record `r2`
with the same fragment name and read side.  After `r` is processed the four
`isSplitEvaluated` cells of that fragment and side are set; processing `r2`
leaves the sample's allele record and the alt/ref evidence of every fragment
unchanged; and the two calls of `scoreSplitReads` are the record loop over the
remaining records run from the state after `r2`. -/
theorem scoreSplitReads_visit_once (c : SplitReadCollaborators)
    (svAlignInfo : SVAlignmentInfo) (minMapQ : Nat) (bp1 bp2 : SVBreakend)
    (readStream : bam_streamer) (sampleEvidence : evidenceTrack_t) (sample : SVSampleInfo)
    (pre mid post : List bam_record) (r r2 : bam_record)
    (hI1 : TrackSplitEvaluatedTogether sampleEvidence)
    (hstream :
      readStream.records bp1.interval.tid bp1.interval.range.begin_pos
          bp1.interval.range.end_pos ++
        readStream.records bp2.interval.tid bp2.interval.range.begin_pos
          bp2.interval.range.end_pos = pre ++ r :: (mid ++ r2 :: post))
    (hr : isSplitReadFiltered r = false) (hq : r2.qname = r.qname)
    (hs : r2.is_first = r.is_first) :
    AllSplitEvaluated
        (evidenceAt
          (scoreSplitReadRecords c svAlignInfo minMapQ (pre ++ [r]) (sampleEvidence, sample)).1
          r.qname) r.is_first ∧
      (scoreSplitRead c svAlignInfo minMapQ r2
          (scoreSplitReadRecords c svAlignInfo minMapQ (pre ++ r :: mid)
            (sampleEvidence, sample))).2 =
        (scoreSplitReadRecords c svAlignInfo minMapQ (pre ++ r :: mid)
          (sampleEvidence, sample)).2 ∧
      SameAlleleEvidence
        (scoreSplitRead c svAlignInfo minMapQ r2
          (scoreSplitReadRecords c svAlignInfo minMapQ (pre ++ r :: mid)
            (sampleEvidence, sample))).1
        (scoreSplitReadRecords c svAlignInfo minMapQ (pre ++ r :: mid)
          (sampleEvidence, sample)).1 ∧
      scoreSplitReads c bp2 svAlignInfo minMapQ
          (scoreSplitReads c bp1 svAlignInfo minMapQ sampleEvidence readStream sample).1
          readStream
          (scoreSplitReads c bp1 svAlignInfo minMapQ sampleEvidence readStream sample).2 =
        scoreSplitReadRecords c svAlignInfo minMapQ post
          (scoreSplitRead c svAlignInfo minMapQ r2
            (scoreSplitReadRecords c svAlignInfo minMapQ (pre ++ r :: mid)
              (sampleEvidence, sample))) := by
  have h1 : AllSplitEvaluated
      (evidenceAt
        (scoreSplitReadRecords c svAlignInfo minMapQ (pre ++ [r]) (sampleEvidence, sample)).1
        r.qname) r.is_first := by
    rw [scoreSplitReadRecords_append]
    exact scoreSplitRead_sets_evaluated c svAlignInfo minMapQ r _
      (scoreSplitReadRecords_together c svAlignInfo minMapQ pre _ hI1) hr
  have h2 : AllSplitEvaluated
      (evidenceAt
        (scoreSplitReadRecords c svAlignInfo minMapQ (pre ++ r :: mid) (sampleEvidence, sample)).1
        r2.qname) r2.is_first := by
    have : pre ++ r :: mid = (pre ++ [r]) ++ mid := by simp
    rw [this, scoreSplitReadRecords_append, hq, hs]
    exact scoreSplitReadRecords_allEvaluated c svAlignInfo minMapQ mid _ _ _ h1
  obtain ⟨h3, h4⟩ := scoreSplitRead_noop c svAlignInfo minMapQ r2 _ h2
  refine ⟨h1, h3, h4, ?_⟩
  unfold scoreSplitReads
  rw [← scoreSplitReadRecords_append, hstream]
  have : pre ++ r :: (mid ++ r2 :: post) = (pre ++ r :: mid) ++ ([r2] ++ post) := by simp
  rw [this, scoreSplitReadRecords_append, scoreSplitReadRecords_append]
  rfl


/-- C7 at a concrete input: the read `Read-1` is yielded by both breakend
regions; it is evaluated in the first and skipped in the second, so the alt
`splitReadCount` ends at 1. -/
theorem scoreSplitReads_visit_once_witness :
    TrackSplitEvaluatedTogether [] ∧
      (singleRecordStream exampleSplitRead).records 0 0 0 ++
          (singleRecordStream exampleSplitRead).records 0 0 0 =
        [] ++ exampleSplitRead :: ([] ++ exampleSplitRead :: []) ∧
      isSplitReadFiltered exampleSplitRead = false ∧
      (AllSplitEvaluated
          (evidenceAt
            (scoreSplitReadRecords exampleCollaborators {} 15 ([] ++ [exampleSplitRead])
              ([], {})).1
            exampleSplitRead.qname) exampleSplitRead.is_first ∧
        (scoreSplitRead exampleCollaborators {} 15 exampleSplitRead
            (scoreSplitReadRecords exampleCollaborators {} 15 ([] ++ exampleSplitRead :: [])
              ([], {}))).2 =
          (scoreSplitReadRecords exampleCollaborators {} 15 ([] ++ exampleSplitRead :: [])
            ([], {})).2 ∧
        SameAlleleEvidence
          (scoreSplitRead exampleCollaborators {} 15 exampleSplitRead
            (scoreSplitReadRecords exampleCollaborators {} 15 ([] ++ exampleSplitRead :: [])
              ([], {}))).1
          (scoreSplitReadRecords exampleCollaborators {} 15 ([] ++ exampleSplitRead :: [])
            ([], {})).1 ∧
        scoreSplitReads exampleCollaborators {} {} 15
            (scoreSplitReads exampleCollaborators {} {} 15 []
              (singleRecordStream exampleSplitRead) {}).1
            (singleRecordStream exampleSplitRead)
            (scoreSplitReads exampleCollaborators {} {} 15 []
              (singleRecordStream exampleSplitRead) {}).2 =
          scoreSplitReadRecords exampleCollaborators {} 15 []
            (scoreSplitRead exampleCollaborators {} 15 exampleSplitRead
              (scoreSplitReadRecords exampleCollaborators {} 15 ([] ++ exampleSplitRead :: [])
                ([], {})))) ∧
      (scoreSplitReads exampleCollaborators {} {} 15
          (scoreSplitReads exampleCollaborators {} {} 15 []
            (singleRecordStream exampleSplitRead) {}).1
          (singleRecordStream exampleSplitRead)
          (scoreSplitReads exampleCollaborators {} {} 15 []
            (singleRecordStream exampleSplitRead) {}).2).2.alt.splitReadCount = 1 :=
  ⟨fun _ h => absurd h (List.not_mem_nil _), rfl, rfl,
    scoreSplitReads_visit_once exampleCollaborators {} 15 {} {}
      (singleRecordStream exampleSplitRead) [] {} [] [] [] exampleSplitRead exampleSplitRead
      (fun _ h => absurd h (List.not_mem_nil _)) rfl rfl rfl rfl,
    by decide⟩

/-- C8 at a concrete input: from the empty track, after one region was scored. -/
theorem scoreSplitReads_together_witness :
    TrackSplitEvaluatedTogether [] ∧
      TrackSplitEvaluatedTogether
        (scoreSplitReads exampleCollaborators {} {} 15 []
          (singleRecordStream exampleSplitRead) {}).1 :=
  ⟨fun _ h => absurd h (List.not_mem_nil _),
    scoreSplitReads_together exampleCollaborators {} {} 15 []
      (singleRecordStream exampleSplitRead) {} (fun _ h => absurd h (List.not_mem_nil _))⟩

/-! ## `incrementAlleleEvidence` -/

/-- C10: `incrementAlleleEvidence` sets `splitLnLhood` of both breakend cells to
the log-likelihood of the respective alignment in every case; a cell gets
`isSplitSupport = true` and `splitEvidence` = the alignment's evidence when its
alignment has evidence and keeps both fields otherwise (`isSplitEvaluated` is
kept as well). -/
theorem incrementAlleleEvidence_cells (bp1SR bp2SR : SplitReadAlignment) (readMapQ : Nat)
    (allele : SVSampleAlleleInfo)
    (bp1Support bp2Support : SVFragmentEvidenceAlleleBreakendPerRead) :
    (incrementAlleleEvidence bp1SR bp2SR readMapQ allele bp1Support bp2Support).2.1 =
        { isSplitEvaluated := bp1Support.isSplitEvaluated,
          isSplitSupport := if bp1SR.has_evidence then true else bp1Support.isSplitSupport,
          splitEvidence :=
            if bp1SR.has_evidence then bp1SR.evidence else bp1Support.splitEvidence,
          splitLnLhood := bp1SR.alignLnLhood } ∧
      (incrementAlleleEvidence bp1SR bp2SR readMapQ allele bp1Support bp2Support).2.2 =
        { isSplitEvaluated := bp2Support.isSplitEvaluated,
          isSplitSupport := if bp2SR.has_evidence then true else bp2Support.isSplitSupport,
          splitEvidence :=
            if bp2SR.has_evidence then bp2SR.evidence else bp2Support.splitEvidence,
          splitLnLhood := bp2SR.alignLnLhood } := by
  unfold incrementAlleleEvidence
  cases h1 : bp1SR.has_evidence <;> cases h2 : bp2SR.has_evidence <;> simp


/-- The local flag `isSkipSRSearch` is set exactly under the gate condition. -/
theorem isSkipSRSearch_iff (scorer : SVScorer) (sv : SVCandidate) (baseInfo : SVScoreInfo) :
    (sv.isImprecise || isSkipSRSearchDepth scorer sv baseInfo) = true ↔
      SkipsSplitReadWork scorer sv baseInfo := by
  unfold isSkipSRSearchDepth SkipsSplitReadWork maxDepthSRFactor
  cases hd : scorer._dFilterDiploid.isMaxDepthFilter <;>
    cases hs : scorer._dFilterSomatic.isMaxDepthFilter <;>
    simp

/-- The function returns its inputs under the gate condition and runs the
split-read search otherwise. -/
theorem getSVSplitReadSupport_eq (scorer : SVScorer) (c : SplitReadCollaborators)
    (sqrt : ℚ → ℚ) (SVAlignInfo : SVAlignmentInfo) (sv : SVCandidate)
    (baseInfo : SVScoreInfo) (evidence : SVEvidence) :
    getSVSplitReadSupport scorer c sqrt SVAlignInfo sv baseInfo evidence =
      if SkipsSplitReadWork scorer sv baseInfo then (baseInfo, evidence)
      else splitReadSearch scorer c sqrt SVAlignInfo sv baseInfo evidence := by
  unfold getSVSplitReadSupport
  by_cases h : SkipsSplitReadWork scorer sv baseInfo
  · rw [if_pos h]
    have := (isSkipSRSearch_iff scorer sv baseInfo).mpr h
    simp only [this, if_true]
  · rw [if_neg h]
    have : (sv.isImprecise || isSkipSRSearchDepth scorer sv baseInfo) = false := by
      rw [← Bool.not_eq_true]; exact fun hc => h ((isSkipSRSearch_iff scorer sv baseInfo).mp hc)
    simp only [this]
    rfl

/-! ## The diploid model -/

/-- C3: for every fragment whose two reads are observed anchors and that has any
pair support, the accumulator `refProbs.fragPair` (initially 1) is multiplied
by (1 − ε)·frag_prob(alt) + ε and `altProbs.fragPair` by (1 − ε)·frag_prob(ref)
+ ε with ε = 1/1000, and every genotype gains
ln(refAcc·(1 − f) + altAcc·f) with f one of 0, 1/2, 1, also as the last
iteration of the loop over a normal track. -/
theorem scoreDiploidSV_fragment_lhood (fragev : SVFragmentEvidence)
    (hanchor : fragev.read1.isObservedAnchor = true ∧ fragev.read2.isObservedAnchor = true)
    (hpair : fragev.isAnyPairSupport = true) :
    (diploidAlleleLhoods fragev).1.fragPair =
        1 * ((1 - 1 / 1000) * getSpanningPairAlleleLhood fragev.alt + 1 / 1000) ∧
      (diploidAlleleLhoods fragev).2.fragPair =
        1 * ((1 - 1 / 1000) * getSpanningPairAlleleLhood fragev.ref + 1 / 1000) ∧
      (∀ (loglhood : DIPLOID_GT → LnVal) (gt : DIPLOID_GT),
        diploidFragmentLoglhood loglhood fragev gt =
          loglhood gt +
            LnVal.log ((diploidAlleleLhoods fragev).1.fragPair * (1 - DIPLOID_GT.altFraction gt) +
              (diploidAlleleLhoods fragev).2.fragPair * DIPLOID_GT.altFraction gt)) ∧
      (∀ (normal : evidenceTrack_t) (qname : String) (gt : DIPLOID_GT),
        diploidLoglhood (normal ++ [(qname, fragev)]) gt =
          diploidLoglhood normal gt +
            LnVal.log ((diploidAlleleLhoods fragev).1.fragPair * (1 - DIPLOID_GT.altFraction gt) +
              (diploidAlleleLhoods fragev).2.fragPair * DIPLOID_GT.altFraction gt)) ∧
      DIPLOID_GT.altFraction DIPLOID_GT.REF = 0 ∧
      DIPLOID_GT.altFraction DIPLOID_GT.HET = 1 / 2 ∧
      DIPLOID_GT.altFraction DIPLOID_GT.HOM = 1 := by
  refine ⟨?_, ?_, fun _ _ => rfl, ?_, rfl, rfl, rfl⟩
  · unfold diploidAlleleLhoods incrementSpanningPairAlleleLhood chimeraProb ProbSet.mk1
    simp [hanchor.1, hanchor.2, hpair]
  · unfold diploidAlleleLhoods incrementSpanningPairAlleleLhood chimeraProb ProbSet.mk1
    simp [hanchor.1, hanchor.2, hpair]
  · intro normal qname gt
    unfold diploidLoglhood
    rw [List.foldl_append]
    rfl

/-- C3 at the alt-supporting fragment (frag_prob(alt) = 0.9, frag_prob(ref) =
1e-4): the ref accumulator becomes 0.9001 and the alt accumulator 0.0010999. -/
theorem scoreDiploidSV_fragment_lhood_witness :
    (altSupportingFragment.read1.isObservedAnchor = true ∧
        altSupportingFragment.read2.isObservedAnchor = true) ∧
      altSupportingFragment.isAnyPairSupport = true ∧
      (diploidAlleleLhoods altSupportingFragment).1.fragPair = 9001 / 10000 ∧
      (diploidAlleleLhoods altSupportingFragment).2.fragPair = 10999 / 10000000 := by
  have h := scoreDiploidSV_fragment_lhood altSupportingFragment ⟨rfl, rfl⟩ rfl
  refine ⟨⟨rfl, rfl⟩, rfl, ?_, ?_⟩
  · rw [h.1]; unfold getSpanningPairAlleleLhood altSupportingFragment; norm_num
  · rw [h.2.1]; unfold getSpanningPairAlleleLhood altSupportingFragment; norm_num

/-- The three genotype likelihoods of the "diploid call" scenario. -/
theorem diploidLoglhood_call :
    (diploidLoglhood diploidCallEvidence.normal DIPLOID_GT.REF).arg = (9001 / 10000) ^ 10 ∧
    (diploidLoglhood diploidCallEvidence.normal DIPLOID_GT.HET).arg = (9011999 / 20000000) ^ 10 ∧
    (diploidLoglhood diploidCallEvidence.normal DIPLOID_GT.HOM).arg = (10999 / 10000000) ^ 10 := by
  have hA : diploidAlleleLhoods altSupportingFragment =
      ({ fragPair := 9001 / 10000 }, { fragPair := 10999 / 10000000 }) := by
    unfold diploidAlleleLhoods incrementSpanningPairAlleleLhood chimeraProb ProbSet.mk1
      getSpanningPairAlleleLhood altSupportingFragment SVFragmentEvidence.isAnyPairSupport
    norm_num
  have hstep : ∀ (l : DIPLOID_GT → LnVal) (gt : DIPLOID_GT),
      (diploidFragmentLoglhood l altSupportingFragment gt).arg =
        (l gt).arg * (9001 / 10000 * (1 - DIPLOID_GT.altFraction gt) +
          10999 / 10000000 * DIPLOID_GT.altFraction gt) := by
    intro l gt
    unfold diploidFragmentLoglhood
    rw [hA]
    rfl
  have h0 : ((0 : LnVal)).arg = 1 := rfl
  refine ⟨?_, ?_, ?_⟩ <;>
  · simp only [diploidLoglhood, diploidCallEvidence, List.foldl_cons, List.foldl_nil, hstep, h0,
      DIPLOID_GT.altFraction]
    norm_num

/-- C2 on the code: with a uniform prior and a normal track of 10 fragments that
all support ALT (frag_prob_alt = 0.9, frag_prob_ref = 1e-4), `scoreDiploidSV`
calls genotype REF (HOMREF), and its alt score is the phred value of a HOMREF
posterior above 0.999, whatever the phred conversion. -/
theorem diploidCall_calls_REF (error_prob_to_qphred : ℚ → Nat) :
    (scoreDiploidSV error_prob_to_qphred diploidOptDefault uniformPrior {} noDepthFilter
        diploidCallEvidence {} {}).gt = DIPLOID_GT.REF ∧
      (scoreDiploidSV error_prob_to_qphred diploidOptDefault uniformPrior {} noDepthFilter
        diploidCallEvidence {} {}).altScore =
          error_prob_to_qphred (diploidPosterior uniformPrior diploidCallEvidence DIPLOID_GT.REF) ∧
      999 / 1000 < diploidPosterior uniformPrior diploidCallEvidence DIPLOID_GT.REF := by
  obtain ⟨hR, hH, hA⟩ := diploidLoglhood_call
  have hadd : ∀ a b : LnVal, (a + b).arg = a.arg * b.arg := fun _ _ => rfl
  refine ⟨?_, rfl, ?_⟩
  · show diploidMaxGt uniformPrior diploidCallEvidence = DIPLOID_GT.REF
    unfold diploidMaxGt normalize_ln_distro_max uniformPrior
    simp only [hadd, hR, hH, hA, LnVal.log]
    norm_num [hadd, hR, hH, hA]
  · unfold diploidPosterior normalize_ln_distro uniformPrior
    simp only [hadd, hR, hH, hA, LnVal.log, LnVal.exp]
    norm_num [hadd, hR, hH, hA]

/-! ## The evidence summary -/

/-- From `2^-1022` on, the conversion to `double` has a relative error of at most
`2^-53`. -/
theorem toDouble_rel_error (x : ℚ) (hx : 1 / 2 ^ 1022 ≤ x) :
    x * (1 - 1 / 2 ^ 53) ≤ toDouble x ∧ toDouble x ≤ x * (1 + 1 / 2 ^ 53) := by
  have h := roundFloat_rel_error 53 (-1074) x (by
    have : (2 : ℚ) ^ ((-1074 : Int) + (((53 : Nat) : Int) - 1)) = 1 / 2 ^ 1022 := by
      norm_num [zpow_neg]
    rw [this]; exact hx)
  rw [abs_le] at h
  unfold toDouble
  constructor
  · have := h.1
    norm_num at this ⊢
    linarith
  · have := h.2
    norm_num at this ⊢
    linarith

/-- A number `n / 2^24` with `0 ≤ n < 2^24` is a `float` and a `double`. -/
theorem float_of_24 (n : Nat) (h : n < 2 ^ 24) :
    toFloat ((n : ℚ) / 2 ^ 24) = (n : ℚ) / 2 ^ 24 ∧
      toDouble ((n : ℚ) / 2 ^ 24) = (n : ℚ) / 2 ^ 24 := by
  have e : (n : ℚ) / 2 ^ 24 = ((n : Int) : ℚ) * 2 ^ (-24 : Int) := by
    rw [zpow_neg]; norm_cast
  rw [e]
  constructor
  · exact roundFloat_representable 24 (-149) (n : Int) (-24)
      (by rw [abs_of_nonneg (by positivity)]; exact_mod_cast h) (by norm_num)
  · exact roundFloat_representable 53 (-1074) (n : Int) (-24)
      (by rw [abs_of_nonneg (by positivity)]
          have : n < 2 ^ 53 := lt_trans h (by norm_num)
          exact_mod_cast this) (by norm_num)

/-- The `double` literal 0.999. -/
theorem toDouble_999 : toDouble (999 / 1000) = 8998192055486251 / 9007199254740992 := by
  unfold toDouble
  rw [roundFloat_eq 53 (-1074) (999 / 1000) (-1) (-53) 8998192055486251
    (by norm_num [abs_of_pos]) (by norm_num [abs_of_pos]) (by norm_num) (by norm_num [abs_lt])]
  norm_num

/-- The `float` constant `splitSupportProb` is 16760439 / 2^24, about
0.99900001. -/
theorem splitSupportProb_eq : splitSupportProb = 16760439 / 16777216 := by
  unfold splitSupportProb
  rw [toDouble_999]
  unfold toFloat
  rw [roundFloat_eq 24 (-149) _ (-1) (-24) 16760439
    (by norm_num [abs_of_pos]) (by norm_num [abs_of_pos]) (by norm_num) (by norm_num [abs_lt])]
  norm_num

/-- The `double` literal 0.9. -/
theorem toDouble_9 : toDouble (9 / 10) = 8106479329266893 / 9007199254740992 := by
  unfold toDouble
  rw [roundFloat_eq 53 (-1074) (9 / 10) (-1) (-53) 8106479329266893
    (by norm_num [abs_of_pos]) (by norm_num [abs_of_pos]) (by norm_num) (by norm_num [abs_lt])]
  norm_num

/-- The `float` constant `pairSupportProb` is 15099494 / 2^24, about
0.89999998. -/
theorem pairSupportProb_eq : pairSupportProb = 15099494 / 16777216 := by
  unfold pairSupportProb
  rw [toDouble_9]
  unfold toFloat
  rw [roundFloat_eq 24 (-149) _ (-1) (-24) 15099494
    (by norm_num [abs_of_pos]) (by norm_num [abs_of_pos]) (by norm_num) (by norm_num [abs_lt])]
  norm_num

/-- Below its maximum the counter `confidentSplitReadCount` grows by exactly 1. -/
theorem incrConfidentSplitReadCount_eq (allele : SVSampleAlleleInfo)
    (h : allele.confidentSplitReadCount + 1 < UINT_RANGE) :
    incrConfidentSplitReadCount allele =
      { allele with confidentSplitReadCount := allele.confidentSplitReadCount + 1 } := by
  unfold incrConfidentSplitReadCount
  rw [Nat.mod_eq_of_lt h]

/-- The second value returned by `lnToProb`. -/
theorem lnToProb_snd (exp : ℚ → ℚ) (lower higher : ℚ) :
    (lnToProb exp lower higher).2 =
      toFloat (toDouble (1 / toDouble (expAsFloat exp (lower - higher) + 1))) := rfl

/-- The two cases of `addConservativeSplitReadSupport`: without split support the
record is returned as it was; with split support the winning allele is counted
exactly when the `float` value `p_high` exceeds the `float` constant
`splitSupportProb`. -/
theorem addConservativeSplitReadSupport_cases (exp : ℚ → ℚ)
    (fragev : SVFragmentEvidence) (isRead1 : Bool) (sample : SVSampleInfo)
    (hcA : sample.alt.confidentSplitReadCount + 1 < UINT_RANGE)
    (hcR : sample.ref.confidentSplitReadCount + 1 < UINT_RANGE) :
    (fragev.isAnySplitSupportForRead isRead1 = false →
        addConservativeSplitReadSupport exp fragev isRead1 sample = sample) ∧
      (fragev.isAnySplitSupportForRead isRead1 = true →
        addConservativeSplitReadSupport exp fragev isRead1 sample =
          if floatPHigh exp (splitAltLn fragev isRead1) (splitRefLn fragev isRead1) >
              16760439 / 16777216
          then
            (if splitAltLn fragev isRead1 > splitRefLn fragev isRead1
              then withAltConfidentSplit sample else withRefConfidentSplit sample)
          else sample) := by
  constructor
  · intro h
    unfold addConservativeSplitReadSupport
    simp [h]
  · intro h
    unfold addConservativeSplitReadSupport
    simp only [h, Bool.not_true, Bool.false_eq_true, if_false]
    rw [lnToProb_snd, lnToProb_snd, splitSupportProb_eq,
      incrConfidentSplitReadCount_eq _ hcA, incrConfidentSplitReadCount_eq _ hcR]
    unfold floatPHigh withAltConfidentSplit withRefConfidentSplit
    show (if splitAltLn fragev isRead1 > splitRefLn fragev isRead1 then _ else _) = _
    by_cases hgt : splitAltLn fragev isRead1 > splitRefLn fragev isRead1
    · rw [if_pos hgt, if_pos hgt, min_eq_right (le_of_lt hgt), max_eq_left (le_of_lt hgt)]
      rfl
    · rw [if_neg hgt, if_neg hgt, min_eq_left (not_lt.mp hgt), max_eq_right (not_lt.mp hgt)]
      rfl

/-- The `float` value of `1. / (e + 1.)` against the `float` constant 0.999: for a
non-negative `e` it does not exceed the constant when `1/(e + 1) ≤ 0.999`, and it
exceeds the constant when `1/(e + 1) ≥ 0.9990001`. -/
theorem floatQuotient_threshold (e : ℚ) (he : 0 ≤ e) :
    (1 / (e + 1) ≤ 999 / 1000 →
        ¬ toFloat (toDouble (1 / toDouble (e + 1))) > 16760439 / 16777216) ∧
      (1 / (e + 1) ≥ 9990001 / 10000000 →
        toFloat (toDouble (1 / toDouble (e + 1))) > 16760439 / 16777216) := by
  have he1 : (0 : ℚ) < e + 1 := by linarith
  obtain ⟨hlo, hhi⟩ := toDouble_rel_error (e + 1) (by
    have : (1 : ℚ) / 2 ^ 1022 ≤ 1 := by
      rw [div_le_one (by positivity)]
      exact one_le_pow₀ (by norm_num)
    linarith)
  have hDpos : (0 : ℚ) < toDouble (e + 1) := by
    have : (0 : ℚ) < (e + 1) * (1 - 1 / 2 ^ 53) := mul_pos he1 (by norm_num)
    linarith
  have hc := float_of_24 16760439 (by norm_num)
  have hc2 := float_of_24 16760440 (by norm_num)
  constructor
  · intro hP
    rw [div_le_iff₀ he1] at hP
    have h1 : 1 / toDouble (e + 1) ≤ ((16760439 : Nat) : ℚ) / 2 ^ 24 := by
      rw [div_le_iff₀ hDpos]
      have : (1 : ℚ) ≤ 16760439 / 2 ^ 24 * ((e + 1) * (1 - 1 / 2 ^ 53)) := by
        have h2 : (1000 / 999 : ℚ) ≤ e + 1 := by linarith
        have h3 : (0 : ℚ) ≤ 16760439 / 2 ^ 24 * (1 - 1 / 2 ^ 53) := by norm_num
        have := mul_le_mul_of_nonneg_left h2 h3
        have h4 : (1 : ℚ) ≤ 16760439 / 2 ^ 24 * (1 - 1 / 2 ^ 53) * (1000 / 999) := by norm_num
        linarith
      have h5 : (0 : ℚ) ≤ 16760439 / 2 ^ 24 := by norm_num
      have := mul_le_mul_of_nonneg_left hlo h5
      push_cast
      linarith
    have h0 : (0 : ℚ) ≤ 1 / toDouble (e + 1) := le_of_lt (div_pos one_pos hDpos)
    have h2 := toDouble_mono _ _ h0 h1
    rw [hc.2] at h2
    have h3 := toFloat_mono _ _ (toDouble_nonneg _ h0) h2
    rw [hc.1] at h3
    push_cast at h3
    rw [gt_iff_lt, not_lt]
    norm_num at h3 ⊢
    exact h3
  · intro hP
    rw [ge_iff_le, le_div_iff₀ he1] at hP
    have h1 : ((16760440 : Nat) : ℚ) / 2 ^ 24 ≤ 1 / toDouble (e + 1) := by
      rw [le_div_iff₀ hDpos]
      have h5 : (0 : ℚ) ≤ 16760440 / 2 ^ 24 := by norm_num
      have := mul_le_mul_of_nonneg_left hhi h5
      have h6 : (16760440 / 2 ^ 24 : ℚ) * (1 + 1 / 2 ^ 53) ≤ 9990001 / 10000000 := by norm_num
      have h7 := mul_le_mul_of_nonneg_right h6 (le_of_lt he1)
      push_cast
      linarith
    have h2 := toDouble_mono _ _ (by positivity) h1
    rw [hc2.2] at h2
    have h3 := toFloat_mono _ _ (by positivity) h2
    rw [hc2.1] at h3
    push_cast at h3
    norm_num at h3 ⊢
    linarith

/-- The example exponential is non-negative. -/
theorem expModel_nonneg (x : ℚ) : 0 ≤ expModel x := by
  unfold expModel
  split_ifs with h
  · apply pow_nonneg
    apply div_nonneg (by norm_num)
    linarith
  · apply pow_nonneg
    push_neg at h
    linarith

/-- The real exponential of −18 lies below 1/1000, the bound the "confident split
read" scenario needs. -/
theorem real_exp_neg_eighteen : Real.exp (-18) < 1 / 1000 := by
  have h2 : (2 : ℝ) ≤ Real.exp 1 := by
    have := Real.add_one_le_exp (1 : ℝ)
    linarith
  have h18 : Real.exp 18 = Real.exp 1 ^ 18 := by
    rw [← Real.exp_nat_mul]; norm_num
  have hbig : (1000 : ℝ) < Real.exp 18 := by
    rw [h18]
    calc (1000 : ℝ) < 2 ^ 18 := by norm_num
      _ ≤ Real.exp 1 ^ 18 := pow_le_pow_left₀ (by norm_num) h2 18
  rw [Real.exp_neg, inv_eq_one_div]
  exact one_div_lt_one_div_of_lt (by norm_num) hbig

/-- With a non-negative `e` the value `p_high = 1 − e/(e + 1)` is `1/(e + 1)`. -/
theorem one_sub_div_eq (e : ℚ) (he : 0 ≤ e) : 1 - e / (e + 1) = 1 / (e + 1) := by
  have h : e + 1 ≠ 0 := by linarith
  field_simp

/-- The exponential as `lnToProb` obtains it is non-negative when `exp` is. -/
theorem expAsFloat_nonneg (exp : ℚ → ℚ) (x : ℚ) (h : 0 ≤ exp (toFloat x)) :
    0 ≤ expAsFloat exp x := toFloat_nonneg _ h

/-- Away from the threshold the `float` test of `addConservativeSplitReadSupport`
agrees with exact arithmetic on the `float` exponential: with `p_high ≤ 0.999`
nothing is counted, with `p_high ≥ 0.9990001` the winning allele is counted. -/
theorem addConservativeSplitReadSupport_margin (exp : ℚ → ℚ) (hexp : ∀ x, 0 ≤ exp x)
    (fragev : SVFragmentEvidence) (isRead1 : Bool) (sample : SVSampleInfo)
    (hcA : sample.alt.confidentSplitReadCount + 1 < UINT_RANGE)
    (hcR : sample.ref.confidentSplitReadCount + 1 < UINT_RANGE)
    (hsup : fragev.isAnySplitSupportForRead isRead1 = true) :
    (splitPHigh (expAsFloat exp) (splitAltLn fragev isRead1) (splitRefLn fragev isRead1) ≤
          999 / 1000 →
        addConservativeSplitReadSupport exp fragev isRead1 sample = sample) ∧
      (splitPHigh (expAsFloat exp) (splitAltLn fragev isRead1) (splitRefLn fragev isRead1) ≥
          9990001 / 10000000 →
        addConservativeSplitReadSupport exp fragev isRead1 sample =
          if splitAltLn fragev isRead1 > splitRefLn fragev isRead1
            then withAltConfidentSplit sample else withRefConfidentSplit sample) := by
  rw [(addConservativeSplitReadSupport_cases exp fragev isRead1 sample hcA hcR).2 hsup]
  unfold splitPHigh splitPLow floatPHigh
  generalize splitAltLn fragev isRead1 = a
  generalize splitRefLn fragev isRead1 = r
  have he : 0 ≤ expAsFloat exp (min a r - max a r) := expAsFloat_nonneg exp _ (hexp _)
  rw [one_sub_div_eq _ he]
  obtain ⟨h1, h2⟩ := floatQuotient_threshold _ he
  constructor
  · intro h
    rw [if_neg (h1 h)]
  · intro h
    rw [if_pos (h2 h)]

/-- The number −18 is a `float`. -/
theorem toFloat_neg_eighteen : toFloat (-18) = -18 := by
  have := roundFloat_representable 24 (-149) (-18) 0 (by norm_num) (by norm_num)
  unfold toFloat
  norm_num at this ⊢
  exact this

/-- With `alt_ln = −2`, `ref_ln = −20` and an exponential whose value at −18 lies
between 0 and 1/1000 the alt allele is counted. -/
theorem confidentSplit_scenario (exp : ℚ → ℚ)
    (h0 : 0 ≤ exp (-18)) (h18 : exp (-18) ≤ 1 / 1000)
    (fragev : SVFragmentEvidence) (isRead1 : Bool)
    (sample : SVSampleInfo)
    (hcA : sample.alt.confidentSplitReadCount + 1 < UINT_RANGE)
    (hcR : sample.ref.confidentSplitReadCount + 1 < UINT_RANGE)
    (hsup : fragev.isAnySplitSupportForRead isRead1 = true)
    (halt : splitAltLn fragev isRead1 = -2) (href : splitRefLn fragev isRead1 = -20) :
    addConservativeSplitReadSupport exp fragev isRead1 sample = withAltConfidentSplit sample := by
  rw [(addConservativeSplitReadSupport_cases exp fragev isRead1 sample hcA hcR).2 hsup,
    halt, href]
  have e1 : min (-2 : ℚ) (-20) - max (-2 : ℚ) (-20) = -18 := by norm_num
  have he : expAsFloat exp (-18) = toFloat (exp (-18)) := by
    unfold expAsFloat
    rw [toFloat_neg_eighteen]
  have he0 : 0 ≤ toFloat (exp (-18)) := toFloat_nonneg _ h0
  have he1 : toFloat (exp (-18)) ≤ 8589935 / 8589934592 := by
    have h := toFloat_mono _ _ h0 h18
    have hv : toFloat (1 / 1000) = 8589935 / 8589934592 := by
      unfold toFloat
      rw [roundFloat_eq 24 (-149) _ (-10) (-33) 8589935
        (by norm_num [abs_of_pos]) (by norm_num [abs_of_pos]) (by norm_num)
        (by norm_num [abs_lt])]
      norm_num
    rw [hv] at h
    exact h
  have hp : floatPHigh exp (-2) (-20) > 16760439 / 16777216 := by
    unfold floatPHigh
    rw [e1, he]
    refine (floatQuotient_threshold _ he0).2 ?_
    rw [ge_iff_le, le_div_iff₀ (by linarith)]
    linarith
  rw [if_pos hp, if_pos (by norm_num)]

/-- The expanded form of the stand-in `expSeries`. -/
theorem expSeries_poly (x : ℚ) :
    expSeries x = (1 + x / 64 + (x / 64) ^ 2 / 2 + (x / 64) ^ 3 / 6 + (x / 64) ^ 4 / 24 +
      (x / 64) ^ 5 / 120 + (x / 64) ^ 6 / 720 + (x / 64) ^ 7 / 5040) ^ 64 := by
  unfold expSeries
  simp [Finset.sum_range_succ, Nat.factorial]

/-- The difference `ref_ln − alt_ln` of the boundary example is a `float`. -/
theorem toFloat_boundary_difference :
    toFloat (-9339425 / 1048576 - -2) = -7242273 / 1048576 := by
  have := roundFloat_representable 24 (-149) (-7242273) (-20) (by norm_num) (by norm_num)
  unfold toFloat
  norm_num at this ⊢
  exact this

/-- The `float` that the stand-in `expSeries` yields at the difference of the
boundary example. -/
theorem toFloat_expSeries_boundary :
    toFloat (expSeries (-7242273 / 1048576)) = 2149601 / 2147483648 := by
  rw [expSeries_poly]
  unfold toFloat
  rw [roundFloat_eq 24 (-149) _ (-10) (-33) 8598404
    (by norm_num [abs_of_pos]) (by norm_num [abs_of_pos]) (by norm_num) (by norm_num [abs_lt])]
  norm_num

/-- The real exponential of the difference `−7242273/2^20` of the boundary
example lies within half a unit in the last place (`2^-33`) of
`8598404 · 2^-33 = 2149601/2^31`: this number is the `float` nearest to it. -/
theorem real_exp_boundary :
    |Real.exp (-7242273 / 1048576) * 2 ^ 33 - 8598404| < 1 / 2 := by
  have hb := Real.exp_bound (x := (-7242273 / 67108864 : ℝ)) (by norm_num [abs_le]) (n := 8)
    (by norm_num)
  have hpow : Real.exp (-7242273 / 1048576) = Real.exp (-7242273 / 67108864) ^ 64 := by
    rw [← Real.exp_nat_mul]; norm_num
  have hsum : (∑ m in Finset.range 8, (-7242273 / 67108864 : ℝ) ^ m / (m.factorial : ℝ)) =
      3081618874776495593521587679148963694802137758770964245991 /
        3432790011539591042722697340816692571305975633691268874240 := by
    norm_num [Finset.sum_range_succ, Nat.factorial]
  have hE : |(-7242273 / 67108864 : ℝ)| ^ 8 *
      (((Nat.succ 8 : Nat) : ℝ) / (((Nat.factorial 8 : Nat) : ℝ) * ((8 : Nat) : ℝ))) ≤
      1 / 10 ^ 12 := by
    norm_num [abs_of_neg, Nat.factorial]
  rw [hsum] at hb
  have hb2 := abs_le.mp (le_trans hb hE)
  have hlo2 : (8977009559029 / 10000000000000 : ℝ) ≤ Real.exp (-7242273 / 67108864) := by
    linarith [hb2.1]
  have hhi2 : Real.exp (-7242273 / 67108864) ≤ (179540191181 / 200000000000 : ℝ) := by
    linarith [hb2.2]
  have h1 := pow_le_pow_left₀ (by norm_num) hlo2 64
  have h2 := pow_le_pow_left₀ (le_of_lt (Real.exp_pos _)) hhi2 64
  rw [hpow, abs_lt]
  constructor
  · have : (8598404 - 1 / 2 : ℝ) < (8977009559029 / 10000000000000 : ℝ) ^ 64 * 2 ^ 33 := by
      norm_num
    nlinarith
  · have : (179540191181 / 200000000000 : ℝ) ^ 64 * 2 ^ 33 < (8598404 + 1 / 2 : ℝ) := by
      norm_num
    nlinarith

/-- The `float` value `p_high` of the boundary example is the constant
`splitSupportProb` itself. -/
theorem floatPHigh_boundary :
    floatPHigh expSeries (-2) (-9339425 / 1048576) = 16760439 / 16777216 := by
  unfold floatPHigh expAsFloat
  have e1 : min (-2 : ℚ) (-9339425 / 1048576) - max (-2 : ℚ) (-9339425 / 1048576) =
      -9339425 / 1048576 - -2 := by
    rw [min_eq_right (by norm_num), max_eq_left (by norm_num)]
  rw [e1, toFloat_boundary_difference, toFloat_expSeries_boundary]
  have hD : toDouble (2149601 / 2147483648 + 1) = 2149633249 / 2147483648 := by
    unfold toDouble
    rw [roundFloat_eq 53 (-1074) _ 0 (-52) 4508107667406848
      (by norm_num [abs_of_pos]) (by norm_num [abs_of_pos]) (by norm_num)
      (by norm_num [abs_lt])]
    norm_num
  rw [hD]
  have hQ : toDouble (1 / (2149633249 / 2147483648)) =
      8998192190613101 / 9007199254740992 := by
    unfold toDouble
    rw [roundFloat_eq 53 (-1074) _ (-1) (-53) 8998192190613101
      (by norm_num [abs_of_pos]) (by norm_num [abs_of_pos]) (by norm_num)
      (by norm_num [abs_lt])]
    norm_num
  rw [hQ]
  unfold toFloat
  rw [roundFloat_eq 24 (-149) _ (-1) (-24) 16760439
    (by norm_num [abs_of_pos]) (by norm_num [abs_of_pos]) (by norm_num) (by norm_num [abs_lt])]
  norm_num

/-- C11 amended: for every fragment and read side (both
`confidentSplitReadCount` counters below their maximum),
`addConservativeSplitReadSupport` returns the sample record unchanged when no
cell of that read has split support; otherwise it raises
`confidentSplitReadCount` of the winning allele by 1 exactly when the `float`
value `p_high`, which is `1/(e + 1)` computed in `double` and stored in a
`float` with `e` the `float` exponential of `low − high`, exceeds the `float`
constant 0.999 = 16760439/2^24, and changes nothing else.  With a non-negative
exponential this agrees with exact arithmetic away from the threshold: for
`p_high = 1 − e/(e + 1) ≤ 0.999` nothing is counted and for
`p_high ≥ 0.9990001` the winning allele is counted.  With `alt_ln = −2`,
`ref_ln = −20` (and `0 ≤ exp(−18) ≤ 1/1000`) the alt allele is counted. -/
theorem addConservativeSplitReadSupport_spec (exp : ℚ → ℚ)
    (fragev : SVFragmentEvidence) (isRead1 : Bool) (sample : SVSampleInfo)
    (hcA : sample.alt.confidentSplitReadCount + 1 < UINT_RANGE)
    (hcR : sample.ref.confidentSplitReadCount + 1 < UINT_RANGE) :
    (fragev.isAnySplitSupportForRead isRead1 = false →
        addConservativeSplitReadSupport exp fragev isRead1 sample = sample) ∧
      (fragev.isAnySplitSupportForRead isRead1 = true →
        addConservativeSplitReadSupport exp fragev isRead1 sample =
          if floatPHigh exp (splitAltLn fragev isRead1) (splitRefLn fragev isRead1) >
              16760439 / 16777216
          then
            (if splitAltLn fragev isRead1 > splitRefLn fragev isRead1
              then withAltConfidentSplit sample else withRefConfidentSplit sample)
          else sample) ∧
      ((∀ x, 0 ≤ exp x) → fragev.isAnySplitSupportForRead isRead1 = true →
        splitPHigh (expAsFloat exp) (splitAltLn fragev isRead1) (splitRefLn fragev isRead1) ≤
          999 / 1000 →
        addConservativeSplitReadSupport exp fragev isRead1 sample = sample) ∧
      ((∀ x, 0 ≤ exp x) → fragev.isAnySplitSupportForRead isRead1 = true →
        splitPHigh (expAsFloat exp) (splitAltLn fragev isRead1) (splitRefLn fragev isRead1) ≥
          9990001 / 10000000 →
        addConservativeSplitReadSupport exp fragev isRead1 sample =
          if splitAltLn fragev isRead1 > splitRefLn fragev isRead1
            then withAltConfidentSplit sample else withRefConfidentSplit sample) ∧
      (fragev.isAnySplitSupportForRead isRead1 = true → splitAltLn fragev isRead1 = -2 →
        splitRefLn fragev isRead1 = -20 → 0 ≤ exp (-18) → exp (-18) ≤ 1 / 1000 →
        addConservativeSplitReadSupport exp fragev isRead1 sample =
          withAltConfidentSplit sample) :=
  ⟨(addConservativeSplitReadSupport_cases exp fragev isRead1 sample hcA hcR).1,
    (addConservativeSplitReadSupport_cases exp fragev isRead1 sample hcA hcR).2,
    fun hexp hsup =>
      (addConservativeSplitReadSupport_margin exp hexp fragev isRead1 sample hcA hcR hsup).1,
    fun hexp hsup =>
      (addConservativeSplitReadSupport_margin exp hexp fragev isRead1 sample hcA hcR hsup).2,
    fun hsup halt href h0 h18 =>
      confidentSplit_scenario exp h0 h18 fragev isRead1 sample hcA hcR hsup halt href⟩

/-- C11 amended, at the "confident split read" scenario with the example
exponential: read 1 of the fragment has `alt_ln = −2`, `ref_ln = −20`, and the
alt count goes from 0 to 1. -/
theorem addConservativeSplitReadSupport_spec_witness :
    ({} : SVSampleInfo).alt.confidentSplitReadCount + 1 < UINT_RANGE ∧
      ({} : SVSampleInfo).ref.confidentSplitReadCount + 1 < UINT_RANGE ∧
      confidentSplitFragment.isAnySplitSupportForRead true = true ∧
      addConservativeSplitReadSupport expModel confidentSplitFragment true {} =
        withAltConfidentSplit {} ∧
      (withAltConfidentSplit {}).alt.confidentSplitReadCount = 1 := by
  refine ⟨by decide, by decide, rfl, ?_, rfl⟩
  refine (addConservativeSplitReadSupport_spec expModel confidentSplitFragment
    true {} (by decide) (by decide)).2.2.2.2 rfl ?_ ?_ (expModel_nonneg _) ?_
  · unfold splitAltLn confidentSplitFragment confidentAltCell
      SVFragmentEvidenceAlleleBreakend.getRead
    simp
  · unfold splitRefLn confidentSplitFragment confidentRefCell
      SVFragmentEvidenceAlleleBreakend.getRead
    simp
  · unfold expModel
    norm_num

/-- C11 as stated fails: at the boundary fragment (`alt_ln = −2`,
`ref_ln = −9339425/2^20`, about −8.90677) the exponential of the difference is
the `float` 2149601/2^31, the `float` nearest to the real exponential, and
`p_high = 1 − p_low` exceeds 0.999 in exact arithmetic, with the real
exponential as well as with its `float` value; yet the `float` value of
`p_high` is the `float` constant 0.999 itself, and nothing is counted. -/
theorem addConservativeSplitReadSupport_not_exact :
    boundarySplitFragment.isAnySplitSupportForRead true = true ∧
      splitAltLn boundarySplitFragment true = -2 ∧
      splitRefLn boundarySplitFragment true = -9339425 / 1048576 ∧
      expAsFloat expSeries (-9339425 / 1048576 - -2) = 8598404 / 2 ^ 33 ∧
      |Real.exp (-9339425 / 1048576 - -2) * 2 ^ 33 - 8598404| < 1 / 2 ∧
      1 - Real.exp (-9339425 / 1048576 - -2) / (Real.exp (-9339425 / 1048576 - -2) + 1) >
        999 / 1000 ∧
      splitPHigh (expAsFloat expSeries) (-2) (-9339425 / 1048576) > 999 / 1000 ∧
      addConservativeSplitReadSupport expSeries boundarySplitFragment true {} = {} ∧
      addConservativeSplitReadSupport expSeries boundarySplitFragment true {} ≠
        withAltConfidentSplit {} := by
  have hsup : boundarySplitFragment.isAnySplitSupportForRead true = true := rfl
  have halt : splitAltLn boundarySplitFragment true = -2 := by
    unfold splitAltLn boundarySplitFragment confidentAltCell
      SVFragmentEvidenceAlleleBreakend.getRead
    simp
  have href : splitRefLn boundarySplitFragment true = -9339425 / 1048576 := by
    unfold splitRefLn boundarySplitFragment boundaryRefCell
      SVFragmentEvidenceAlleleBreakend.getRead
    simp
  have hexp : expAsFloat expSeries (-9339425 / 1048576 - -2) = 8598404 / 2 ^ 33 := by
    unfold expAsFloat
    rw [toFloat_boundary_difference, toFloat_expSeries_boundary]
    norm_num
  have hd : (-9339425 / 1048576 - -2 : ℝ) = -7242273 / 1048576 := by norm_num
  have hreal := real_exp_boundary
  have hrun : addConservativeSplitReadSupport expSeries boundarySplitFragment true {} = {} := by
    rw [(addConservativeSplitReadSupport_cases expSeries boundarySplitFragment true {}
      (by decide) (by decide)).2 hsup, halt, href, floatPHigh_boundary]
    rw [if_neg (lt_irrefl _)]
  refine ⟨hsup, halt, href, hexp, ?_, ?_, ?_, hrun, ?_⟩
  · rw [hd]; exact hreal
  · rw [hd]
    have hlt := (abs_lt.mp hreal).2
    have hpos := Real.exp_pos (-7242273 / 1048576)
    have hE : Real.exp (-7242273 / 1048576) < 1 / 999 := by
      have : (8598404 + 1 / 2 : ℝ) < 1 / 999 * 2 ^ 33 := by norm_num
      have h3 : Real.exp (-7242273 / 1048576) * 2 ^ 33 < 1 / 999 * 2 ^ 33 := by linarith
      have h4 : (0 : ℝ) < 2 ^ 33 := by norm_num
      exact lt_of_mul_lt_mul_right h3 (le_of_lt h4)
    rw [gt_iff_lt, lt_sub_iff_add_lt, ← lt_sub_iff_add_lt', div_lt_iff₀ (by linarith)]
    linarith
  · unfold splitPHigh splitPLow
    rw [min_eq_right (by norm_num), max_eq_left (by norm_num), hexp]
    norm_num
  · rw [hrun]
    intro h
    have := congrArg (fun s => s.alt.confidentSplitReadCount) h
    revert this
    decide

/-- Below its maximum the counter `confidentSpanningPairCount` grows by exactly 1. -/
theorem incrConfidentSpanningPairCount_eq (allele : SVSampleAlleleInfo)
    (h : allele.confidentSpanningPairCount + 1 < UINT_RANGE) :
    incrConfidentSpanningPairCount allele =
      { allele with confidentSpanningPairCount := allele.confidentSpanningPairCount + 1 } := by
  unfold incrConfidentSpanningPairCount
  rw [Nat.mod_eq_of_lt h]

/-- Without pair support or without two observed anchors the function returns the
record as it was. -/
theorem addConservativeSpanningPairSupport_skip (fragev : SVFragmentEvidence)
    (sample : SVSampleInfo)
    (h : ¬ (fragev.isAnyPairSupport = true ∧ fragev.read1.isObservedAnchor = true ∧
      fragev.read2.isObservedAnchor = true)) :
    addConservativeSpanningPairSupport fragev sample = Except.ok sample := by
  unfold addConservativeSpanningPairSupport
  cases hp : fragev.isAnyPairSupport
  · simp
  · cases h1 : fragev.read1.isObservedAnchor
    · simp
    · cases h2 : fragev.read2.isObservedAnchor
      · simp
      · exact absurd ⟨hp, h1, h2⟩ h

/-- With pair support and two observed anchors the function runs its assertions,
the logic check and the comparison of the `float` quotient with the `float`
constant. -/
theorem addConservativeSpanningPairSupport_run (fragev : SVFragmentEvidence)
    (sample : SVSampleInfo)
    (hp : fragev.isAnyPairSupport = true) (h1 : fragev.read1.isObservedAnchor = true)
    (h2 : fragev.read2.isObservedAnchor = true) :
    addConservativeSpanningPairSupport fragev sample =
      if ¬ (getSpanningPairAlleleLhood fragev.alt ≥ 0) then
        Except.error ScoringFailure.AssertionFailure
      else if ¬ (getSpanningPairAlleleLhood fragev.ref ≥ 0) then
        Except.error ScoringFailure.AssertionFailure
      else if getSpanningPairAlleleLhood fragev.alt ≤ 0 ∧
          getSpanningPairAlleleLhood fragev.ref ≤ 0 then
        Except.error ScoringFailure.LogicException
      else if getSpanningPairAlleleLhood fragev.alt > getSpanningPairAlleleLhood fragev.ref then
        if toFloat (getSpanningPairAlleleLhood fragev.alt /
            toFloat (getSpanningPairAlleleLhood fragev.alt +
              getSpanningPairAlleleLhood fragev.ref)) >
            pairSupportProb then
          Except.ok { sample with alt := incrConfidentSpanningPairCount sample.alt }
        else Except.ok sample
      else
        if toFloat (getSpanningPairAlleleLhood fragev.ref /
            toFloat (getSpanningPairAlleleLhood fragev.alt +
              getSpanningPairAlleleLhood fragev.ref)) >
            pairSupportProb then
          Except.ok { sample with ref := incrConfidentSpanningPairCount sample.ref }
        else Except.ok sample := by
  unfold addConservativeSpanningPairSupport
  simp only [hp, h1, h2, Bool.not_true, Bool.and_self, Bool.false_eq_true, if_false]

/-- The sum of two `float` likelihoods of which one is positive is a positive
`float`: the quotients of `addConservativeSpanningPairSupport` do not divide by
zero. -/
theorem toFloat_sum_pos (a r : ℚ) (ha : toFloat a = a) (hpos : 0 < a) (hr : 0 ≤ r) :
    0 < toFloat (a + r) := by
  have h := toFloat_mono a (a + r) (le_of_lt hpos) (by linarith)
  rw [ha] at h
  linarith

/-- The number 3/4 is a `float`. -/
theorem toFloat_three_quarters : toFloat (3 / 4) = 3 / 4 := by
  have := roundFloat_representable 24 (-149) 3 (-2) (by norm_num) (by norm_num)
  unfold toFloat
  norm_num at this ⊢
  exact this

/-- On a tie the `float` quotient does not exceed 3/4. -/
theorem floatShare_tie (a : ℚ) (ha : 0 ≤ a) :
    ¬ toFloat (a / toFloat (a + a)) > 15099494 / 16777216 := by
  rw [gt_iff_lt, not_lt]
  by_cases hz : toFloat (a + a) = 0
  · rw [hz, div_zero]
    unfold toFloat
    rw [roundFloat_zero]
    norm_num
  · have h0 : 0 ≤ toFloat (a + a) := toFloat_nonneg _ (by linarith)
    have hpos : 0 < toFloat (a + a) := lt_of_le_of_ne h0 (Ne.symm hz)
    have h3 : a + a ≤ 3 / 2 * toFloat (a + a) :=
      roundFloat_three_halves 24 (-149) (a + a) (by linarith) hz
    have hq : a / toFloat (a + a) ≤ 3 / 4 := by
      rw [div_le_iff₀ hpos]
      linarith
    have := toFloat_mono _ _ (div_nonneg ha h0) hq
    rw [toFloat_three_quarters] at this
    linarith

/-- Away from the threshold the `float` test on `w / (a + r)` agrees with exact
arithmetic: for a sum in the normal range of `float`, a share of at most
0.8999999 does not exceed the `float` constant 0.9, and a share of at least
0.9000001 exceeds it. -/
theorem floatShare_threshold (w s : ℚ) (hw : 0 ≤ w) (hs : 1 / 2 ^ 126 ≤ s) :
    (w / s ≤ 8999999 / 10000000 → ¬ toFloat (w / toFloat s) > 15099494 / 16777216) ∧
      (w / s ≥ 9000001 / 10000000 → toFloat (w / toFloat s) > 15099494 / 16777216) := by
  have hspos : (0 : ℚ) < s := lt_of_lt_of_le (by positivity) hs
  obtain ⟨hlo, hhi⟩ := toFloat_rel_error s hs
  have hSpos : (0 : ℚ) < toFloat s := by
    have : (0 : ℚ) < s * (1 - 1 / 2 ^ 24) := mul_pos hspos (by norm_num)
    linarith
  have hc := float_of_24 15099494 (by norm_num)
  have hc2 := float_of_24 15099495 (by norm_num)
  have h0 : 0 ≤ w / toFloat s := div_nonneg hw (le_of_lt hSpos)
  constructor
  · intro hP
    rw [div_le_iff₀ hspos] at hP
    have h1 : w / toFloat s ≤ ((15099494 : Nat) : ℚ) / 2 ^ 24 := by
      rw [div_le_iff₀ hSpos]
      push_cast
      have h5 : (0 : ℚ) ≤ 15099494 / 2 ^ 24 := by norm_num
      have := mul_le_mul_of_nonneg_left hlo h5
      have h6 : (8999999 / 10000000 : ℚ) ≤ 15099494 / 2 ^ 24 * (1 - 1 / 2 ^ 24) := by norm_num
      have h7 := mul_le_mul_of_nonneg_right h6 (le_of_lt hspos)
      linarith
    have h2 := toFloat_mono _ _ h0 h1
    rw [hc.1] at h2
    push_cast at h2
    rw [gt_iff_lt, not_lt]
    norm_num at h2 ⊢
    exact h2
  · intro hP
    rw [ge_iff_le, le_div_iff₀ hspos] at hP
    have h1 : ((15099495 : Nat) : ℚ) / 2 ^ 24 ≤ w / toFloat s := by
      rw [le_div_iff₀ hSpos]
      push_cast
      have h5 : (0 : ℚ) ≤ 15099495 / 2 ^ 24 := by norm_num
      have := mul_le_mul_of_nonneg_left hhi h5
      have h6 : (15099495 / 2 ^ 24 : ℚ) * (1 + 1 / 2 ^ 24) ≤ 9000001 / 10000000 := by norm_num
      have h7 := mul_le_mul_of_nonneg_right h6 (le_of_lt hspos)
      linarith
    have h2 := toFloat_mono _ _ (by positivity) h1
    rw [hc2.1] at h2
    push_cast at h2
    norm_num at h2 ⊢
    linarith

/-- The function with pair support, two observed anchors and non-negative
likelihoods that are not both zero, as a case distinction on the winner and on
the `float` test. -/
theorem addConservativeSpanningPairSupport_cases (fragev : SVFragmentEvidence)
    (sample : SVSampleInfo)
    (hcA : sample.alt.confidentSpanningPairCount + 1 < UINT_RANGE)
    (hcR : sample.ref.confidentSpanningPairCount + 1 < UINT_RANGE)
    (halt : 0 ≤ getSpanningPairAlleleLhood fragev.alt)
    (href : 0 ≤ getSpanningPairAlleleLhood fragev.ref)
    (hrun : fragev.isAnyPairSupport = true ∧ fragev.read1.isObservedAnchor = true ∧
      fragev.read2.isObservedAnchor = true)
    (hnz : ¬ (getSpanningPairAlleleLhood fragev.alt = 0 ∧
      getSpanningPairAlleleLhood fragev.ref = 0)) :
    addConservativeSpanningPairSupport fragev sample =
      Except.ok
        (if getSpanningPairAlleleLhood fragev.alt > getSpanningPairAlleleLhood fragev.ref
          then
            (if toFloat (getSpanningPairAlleleLhood fragev.alt /
                toFloat (getSpanningPairAlleleLhood fragev.alt +
                  getSpanningPairAlleleLhood fragev.ref)) > 15099494 / 16777216
              then withAltConfidentPair sample else sample)
          else if getSpanningPairAlleleLhood fragev.ref >
              getSpanningPairAlleleLhood fragev.alt then
            (if toFloat (getSpanningPairAlleleLhood fragev.ref /
                toFloat (getSpanningPairAlleleLhood fragev.alt +
                  getSpanningPairAlleleLhood fragev.ref)) > 15099494 / 16777216
              then withRefConfidentPair sample else sample)
          else sample) := by
  obtain ⟨hp, h1, h2⟩ := hrun
  rw [addConservativeSpanningPairSupport_run fragev sample hp h1 h2,
    incrConfidentSpanningPairCount_eq _ hcA, incrConfidentSpanningPairCount_eq _ hcR,
    pairSupportProb_eq]
  generalize getSpanningPairAlleleLhood fragev.alt = a at *
  generalize getSpanningPairAlleleLhood fragev.ref = r at *
  have hnz2 : ¬ (a ≤ 0 ∧ r ≤ 0) := fun h => hnz ⟨le_antisymm h.1 halt, le_antisymm h.2 href⟩
  rw [if_neg (not_not.mpr halt), if_neg (not_not.mpr href), if_neg hnz2]
  unfold withAltConfidentPair withRefConfidentPair
  by_cases hgt : a > r
  · rw [if_pos hgt, if_pos hgt]
    split_ifs <;> rfl
  · rw [if_neg hgt, if_neg hgt]
    by_cases hlt : r > a
    · rw [if_pos hlt]
      split_ifs <;> rfl
    · rw [if_neg hlt]
      have heq : a = r := le_antisymm (not_lt.mp hgt) (not_lt.mp hlt)
      subst heq
      rw [if_neg (floatShare_tie a halt)]

/-- Away from the threshold `addConservativeSpanningPairSupport` agrees with exact
arithmetic. -/
theorem addConservativeSpanningPairSupport_margin (fragev : SVFragmentEvidence)
    (sample : SVSampleInfo)
    (hcA : sample.alt.confidentSpanningPairCount + 1 < UINT_RANGE)
    (hcR : sample.ref.confidentSpanningPairCount + 1 < UINT_RANGE)
    (halt : 0 ≤ getSpanningPairAlleleLhood fragev.alt)
    (href : 0 ≤ getSpanningPairAlleleLhood fragev.ref)
    (hrun : fragev.isAnyPairSupport = true ∧ fragev.read1.isObservedAnchor = true ∧
      fragev.read2.isObservedAnchor = true)
    (hs : 1 / 2 ^ 126 ≤
      getSpanningPairAlleleLhood fragev.alt + getSpanningPairAlleleLhood fragev.ref) :
    (max (getSpanningPairAlleleLhood fragev.alt) (getSpanningPairAlleleLhood fragev.ref) /
          (getSpanningPairAlleleLhood fragev.alt + getSpanningPairAlleleLhood fragev.ref) ≤
          8999999 / 10000000 →
        addConservativeSpanningPairSupport fragev sample = Except.ok sample) ∧
      (max (getSpanningPairAlleleLhood fragev.alt) (getSpanningPairAlleleLhood fragev.ref) /
          (getSpanningPairAlleleLhood fragev.alt + getSpanningPairAlleleLhood fragev.ref) ≥
          9000001 / 10000000 →
        addConservativeSpanningPairSupport fragev sample =
          Except.ok
            (if getSpanningPairAlleleLhood fragev.alt > getSpanningPairAlleleLhood fragev.ref
              then withAltConfidentPair sample else withRefConfidentPair sample)) := by
  have hnz : ¬ (getSpanningPairAlleleLhood fragev.alt = 0 ∧
      getSpanningPairAlleleLhood fragev.ref = 0) := by
    rintro ⟨h1, h2⟩
    rw [h1, h2] at hs
    norm_num at hs
  rw [addConservativeSpanningPairSupport_cases fragev sample hcA hcR halt href hrun hnz]
  generalize getSpanningPairAlleleLhood fragev.alt = a at *
  generalize getSpanningPairAlleleLhood fragev.ref = r at *
  have hspos : (0 : ℚ) < a + r := lt_of_lt_of_le (by positivity) hs
  by_cases hgt : a > r
  · rw [if_pos hgt, max_eq_left (le_of_lt hgt)]
    obtain ⟨t1, t2⟩ := floatShare_threshold a (a + r) halt hs
    constructor
    · intro h; rw [if_neg (t1 h)]
    · intro h; rw [if_pos (t2 h), if_pos hgt]
  · rw [if_neg hgt, max_eq_right (not_lt.mp hgt)]
    obtain ⟨t1, t2⟩ := floatShare_threshold r (a + r) href hs
    by_cases hlt : r > a
    · rw [if_pos hlt]
      constructor
      · intro h; rw [if_neg (t1 h)]
      · intro h; rw [if_pos (t2 h), if_neg hgt]
    · rw [if_neg hlt]
      constructor
      · intro _; rfl
      · intro h
        exfalso
        have heq : a = r := le_antisymm (not_lt.mp hgt) (not_lt.mp hlt)
        subst heq
        rw [ge_iff_le, le_div_iff₀ hspos] at h
        linarith

/-- C12 amended: for every fragment with non-negative spanning likelihoods (and
both `confidentSpanningPairCount` counters below their maximum),
`addConservativeSpanningPairSupport` returns the sample record unchanged unless
the fragment has any pair support and both reads are observed anchors;
otherwise, when the two likelihoods are not both zero, it raises
`confidentSpanningPairCount` of the winning allele by 1 exactly when the `float`
quotient of the winner by the `float` sum alt + ref exceeds the `float`
constant 0.9 = 15099494/2^24, and changes nothing else, and on a tie it changes
nothing.  For a sum of at least 2^-126 this agrees with exact arithmetic away
from the threshold: for winner/(alt + ref) ≤ 0.8999999 nothing is counted and
for winner/(alt + ref) ≥ 0.9000001 the winning allele is counted. -/
theorem addConservativeSpanningPairSupport_spec (fragev : SVFragmentEvidence)
    (sample : SVSampleInfo)
    (hcA : sample.alt.confidentSpanningPairCount + 1 < UINT_RANGE)
    (hcR : sample.ref.confidentSpanningPairCount + 1 < UINT_RANGE)
    (halt : 0 ≤ getSpanningPairAlleleLhood fragev.alt)
    (href : 0 ≤ getSpanningPairAlleleLhood fragev.ref) :
    (¬ (fragev.isAnyPairSupport = true ∧ fragev.read1.isObservedAnchor = true ∧
          fragev.read2.isObservedAnchor = true) →
        addConservativeSpanningPairSupport fragev sample = Except.ok sample) ∧
      ((fragev.isAnyPairSupport = true ∧ fragev.read1.isObservedAnchor = true ∧
          fragev.read2.isObservedAnchor = true) →
        ¬ (getSpanningPairAlleleLhood fragev.alt = 0 ∧
          getSpanningPairAlleleLhood fragev.ref = 0) →
        addConservativeSpanningPairSupport fragev sample =
          Except.ok
            (if getSpanningPairAlleleLhood fragev.alt > getSpanningPairAlleleLhood fragev.ref
              then
                (if toFloat (getSpanningPairAlleleLhood fragev.alt /
                    toFloat (getSpanningPairAlleleLhood fragev.alt +
                      getSpanningPairAlleleLhood fragev.ref)) > 15099494 / 16777216
                  then withAltConfidentPair sample else sample)
              else if getSpanningPairAlleleLhood fragev.ref >
                  getSpanningPairAlleleLhood fragev.alt then
                (if toFloat (getSpanningPairAlleleLhood fragev.ref /
                    toFloat (getSpanningPairAlleleLhood fragev.alt +
                      getSpanningPairAlleleLhood fragev.ref)) > 15099494 / 16777216
                  then withRefConfidentPair sample else sample)
              else sample)) ∧
      ((fragev.isAnyPairSupport = true ∧ fragev.read1.isObservedAnchor = true ∧
          fragev.read2.isObservedAnchor = true) →
        1 / 2 ^ 126 ≤
          getSpanningPairAlleleLhood fragev.alt + getSpanningPairAlleleLhood fragev.ref →
        max (getSpanningPairAlleleLhood fragev.alt) (getSpanningPairAlleleLhood fragev.ref) /
            (getSpanningPairAlleleLhood fragev.alt + getSpanningPairAlleleLhood fragev.ref) ≤
          8999999 / 10000000 →
        addConservativeSpanningPairSupport fragev sample = Except.ok sample) ∧
      ((fragev.isAnyPairSupport = true ∧ fragev.read1.isObservedAnchor = true ∧
          fragev.read2.isObservedAnchor = true) →
        1 / 2 ^ 126 ≤
          getSpanningPairAlleleLhood fragev.alt + getSpanningPairAlleleLhood fragev.ref →
        max (getSpanningPairAlleleLhood fragev.alt) (getSpanningPairAlleleLhood fragev.ref) /
            (getSpanningPairAlleleLhood fragev.alt + getSpanningPairAlleleLhood fragev.ref) ≥
          9000001 / 10000000 →
        addConservativeSpanningPairSupport fragev sample =
          Except.ok
            (if getSpanningPairAlleleLhood fragev.alt > getSpanningPairAlleleLhood fragev.ref
              then withAltConfidentPair sample else withRefConfidentPair sample)) :=
  ⟨addConservativeSpanningPairSupport_skip fragev sample,
    addConservativeSpanningPairSupport_cases fragev sample hcA hcR halt href,
    fun hrun hs =>
      (addConservativeSpanningPairSupport_margin fragev sample hcA hcR halt href hrun hs).1,
    fun hrun hs =>
      (addConservativeSpanningPairSupport_margin fragev sample hcA hcR halt href hrun hs).2⟩

/-- C13 amended: `addConservativeSpanningPairSupport` fails with a
`LogicException` exactly when the fragment has any pair support, both reads are
observed anchors, and both the alt and the ref spanning likelihood are zero;
when both likelihoods are non-negative and at least one is positive it returns
normally. -/
theorem addConservativeSpanningPairSupport_fails (fragev : SVFragmentEvidence)
    (sample : SVSampleInfo) :
    (addConservativeSpanningPairSupport fragev sample =
          Except.error ScoringFailure.LogicException ↔
        (fragev.isAnyPairSupport = true ∧ fragev.read1.isObservedAnchor = true ∧
          fragev.read2.isObservedAnchor = true ∧
          getSpanningPairAlleleLhood fragev.alt = 0 ∧
          getSpanningPairAlleleLhood fragev.ref = 0)) ∧
      (0 ≤ getSpanningPairAlleleLhood fragev.alt → 0 ≤ getSpanningPairAlleleLhood fragev.ref →
        (0 < getSpanningPairAlleleLhood fragev.alt ∨ 0 < getSpanningPairAlleleLhood fragev.ref) →
        ∃ s, addConservativeSpanningPairSupport fragev sample = Except.ok s) := by
  by_cases hrun : (fragev.isAnyPairSupport = true ∧ fragev.read1.isObservedAnchor = true ∧
      fragev.read2.isObservedAnchor = true)
  · obtain ⟨hp, h1, h2⟩ := hrun
    rw [addConservativeSpanningPairSupport_run fragev sample hp h1 h2]
    generalize getSpanningPairAlleleLhood fragev.alt = a
    generalize getSpanningPairAlleleLhood fragev.ref = r
    constructor
    · constructor
      · intro h
        refine ⟨hp, h1, h2, ?_⟩
        split_ifs at h with c1 c2 c3
        all_goals first
          | exact ⟨le_antisymm c3.1 c1, le_antisymm c3.2 c2⟩
          | cases h
      · rintro ⟨_, _, _, ha, hr⟩
        subst ha; subst hr
        simp
    · intro ha hr hpos
      have hnz : ¬ (a ≤ 0 ∧ r ≤ 0) := by
        rintro ⟨h1, h2⟩
        rcases hpos with h | h <;> linarith
      rw [if_neg (not_not.mpr ha), if_neg (not_not.mpr hr), if_neg hnz]
      split_ifs <;> exact ⟨_, rfl⟩
  · rw [addConservativeSpanningPairSupport_skip fragev sample hrun]
    constructor
    · constructor
      · intro h; cases h
      · rintro ⟨hp, h1, h2, _, _⟩; exact absurd ⟨hp, h1, h2⟩ hrun
    · intro _ _ _; exact ⟨_, rfl⟩

/-- C13 as stated fails: a fragment with pair support whose two spanning
likelihoods are zero but whose reads are not observed anchors does not fail. -/
theorem logicException_not_as_claimed :
    ¬ (addConservativeSpanningPairSupport unanchoredZeroFragment {} =
          Except.error ScoringFailure.LogicException ↔
        (unanchoredZeroFragment.isAnyPairSupport = true ∧
          getSpanningPairAlleleLhood unanchoredZeroFragment.alt = 0 ∧
          getSpanningPairAlleleLhood unanchoredZeroFragment.ref = 0)) := by
  intro h
  have hrhs : unanchoredZeroFragment.isAnyPairSupport = true ∧
      getSpanningPairAlleleLhood unanchoredZeroFragment.alt = 0 ∧
      getSpanningPairAlleleLhood unanchoredZeroFragment.ref = 0 := by
    refine ⟨rfl, ?_, ?_⟩ <;>
    · unfold getSpanningPairAlleleLhood unanchoredZeroFragment
      simp
  have hl := h.mpr hrhs
  rw [addConservativeSpanningPairSupport_skip unanchoredZeroFragment {} (by
    rintro ⟨_, h1, _⟩; cases h1)] at hl
  cases hl

/-- The spanning likelihoods of the alt-supporting fragment. -/
theorem altSupportingFragment_lhoods :
    getSpanningPairAlleleLhood altSupportingFragment.alt = 9 / 10 ∧
      getSpanningPairAlleleLhood altSupportingFragment.ref = 1 / 10000 := by
  constructor <;>
  · unfold getSpanningPairAlleleLhood altSupportingFragment
    simp

/-- The alt-supporting fragment (alt 0.9, ref 1e-4, both reads anchored) counts
for the alt allele: 0.9/0.9001 lies above 0.9000001. -/
theorem altSupportingFragment_counted (sample : SVSampleInfo)
    (hcA : sample.alt.confidentSpanningPairCount + 1 < UINT_RANGE)
    (hcR : sample.ref.confidentSpanningPairCount + 1 < UINT_RANGE) :
    addConservativeSpanningPairSupport altSupportingFragment sample =
      Except.ok (withAltConfidentPair sample) := by
  obtain ⟨ha, hr⟩ := altSupportingFragment_lhoods
  have h := (addConservativeSpanningPairSupport_margin altSupportingFragment sample hcA hcR
    (by rw [ha]; norm_num) (by rw [hr]; norm_num) ⟨rfl, rfl, rfl⟩
    (by rw [ha, hr]; norm_num)).2 (by rw [ha, hr]; norm_num)
  rw [h, ha, hr, if_pos (by norm_num)]

/-- C12 amended, at the alt-supporting fragment (alt 0.9, ref 1e-4, both reads
anchored): the alt allele wins with 0.9/0.9001 ≥ 0.9000001 and its count goes
from 0 to 1. -/
theorem addConservativeSpanningPairSupport_spec_witness :
    ({} : SVSampleInfo).alt.confidentSpanningPairCount + 1 < UINT_RANGE ∧
      ({} : SVSampleInfo).ref.confidentSpanningPairCount + 1 < UINT_RANGE ∧
      0 ≤ getSpanningPairAlleleLhood altSupportingFragment.alt ∧
      0 ≤ getSpanningPairAlleleLhood altSupportingFragment.ref ∧
      addConservativeSpanningPairSupport altSupportingFragment {} =
        Except.ok (withAltConfidentPair {}) ∧
      (withAltConfidentPair {}).alt.confidentSpanningPairCount = 1 := by
  obtain ⟨ha, hr⟩ := altSupportingFragment_lhoods
  have h0a : 0 ≤ getSpanningPairAlleleLhood altSupportingFragment.alt := by rw [ha]; norm_num
  have h0r : 0 ≤ getSpanningPairAlleleLhood altSupportingFragment.ref := by rw [hr]; norm_num
  refine ⟨by decide, by decide, h0a, h0r, ?_, rfl⟩
  rw [(addConservativeSpanningPairSupport_spec altSupportingFragment {} (by decide) (by decide)
    h0a h0r).2.2.2 ⟨rfl, rfl, rfl⟩ (by rw [ha, hr]; norm_num) (by rw [ha, hr]; norm_num)]
  rw [ha, hr, if_pos (by norm_num)]

/-- The spanning likelihoods of the two fragments at the edge of the threshold. -/
theorem roundedPairFragment_lhoods :
    getSpanningPairAlleleLhood roundedUpPairFragment.alt = 5284823 / 8388608 ∧
      getSpanningPairAlleleLhood roundedUpPairFragment.ref = 9395241 / 134217728 ∧
      getSpanningPairAlleleLhood roundedDownPairFragment.alt = 9059697 / 33554432 ∧
      getSpanningPairAlleleLhood roundedDownPairFragment.ref = 16106127 / 536870912 := by
  refine ⟨?_, ?_, ?_, ?_⟩
  · unfold getSpanningPairAlleleLhood roundedUpPairFragment
    simp
  · unfold getSpanningPairAlleleLhood roundedUpPairFragment
    simp
  · unfold getSpanningPairAlleleLhood roundedDownPairFragment
    simp
  · unfold getSpanningPairAlleleLhood roundedDownPairFragment
    simp

/-- C12 as stated fails, in both directions.  With the `float` likelihoods 0.63f
and 0.07f the share alt/(alt + ref) is at most 0.9 in exact arithmetic, yet the
`float` sum is 11744051/2^24, the `float` quotient 15099495/2^24 exceeds the
`float` constant 0.9 = 15099494/2^24, and the alt allele is counted.  With
0.27f and 0.03f the share exceeds 0.9 in exact arithmetic, yet the `float`
quotient is the constant itself and nothing is counted. -/
theorem addConservativeSpanningPairSupport_not_exact :
    (roundedUpPairFragment.isAnyPairSupport = true ∧
        roundedUpPairFragment.read1.isObservedAnchor = true ∧
        roundedUpPairFragment.read2.isObservedAnchor = true ∧
        toFloat (getSpanningPairAlleleLhood roundedUpPairFragment.alt) =
          getSpanningPairAlleleLhood roundedUpPairFragment.alt ∧
        toFloat (getSpanningPairAlleleLhood roundedUpPairFragment.ref) =
          getSpanningPairAlleleLhood roundedUpPairFragment.ref ∧
        ¬ (getSpanningPairAlleleLhood roundedUpPairFragment.alt /
            (getSpanningPairAlleleLhood roundedUpPairFragment.alt +
              getSpanningPairAlleleLhood roundedUpPairFragment.ref) > 9 / 10) ∧
        addConservativeSpanningPairSupport roundedUpPairFragment {} =
          Except.ok (withAltConfidentPair {}) ∧
        (withAltConfidentPair {}).alt.confidentSpanningPairCount = 1) ∧
      (roundedDownPairFragment.isAnyPairSupport = true ∧
        roundedDownPairFragment.read1.isObservedAnchor = true ∧
        roundedDownPairFragment.read2.isObservedAnchor = true ∧
        toFloat (getSpanningPairAlleleLhood roundedDownPairFragment.alt) =
          getSpanningPairAlleleLhood roundedDownPairFragment.alt ∧
        toFloat (getSpanningPairAlleleLhood roundedDownPairFragment.ref) =
          getSpanningPairAlleleLhood roundedDownPairFragment.ref ∧
        getSpanningPairAlleleLhood roundedDownPairFragment.alt /
            (getSpanningPairAlleleLhood roundedDownPairFragment.alt +
              getSpanningPairAlleleLhood roundedDownPairFragment.ref) > 9 / 10 ∧
        addConservativeSpanningPairSupport roundedDownPairFragment {} = Except.ok {}) := by
  obtain ⟨ha, hr, ha2, hr2⟩ := roundedPairFragment_lhoods
  have f1 : toFloat (5284823 / 8388608) = 5284823 / 8388608 := by
    have := roundFloat_representable 24 (-149) 5284823 (-23) (by norm_num) (by norm_num)
    unfold toFloat
    norm_num at this ⊢
    exact this
  have f2 : toFloat (9395241 / 134217728) = 9395241 / 134217728 := by
    have := roundFloat_representable 24 (-149) 9395241 (-27) (by norm_num) (by norm_num)
    unfold toFloat
    norm_num at this ⊢
    exact this
  have f3 : toFloat (9059697 / 33554432) = 9059697 / 33554432 := by
    have := roundFloat_representable 24 (-149) 9059697 (-25) (by norm_num) (by norm_num)
    unfold toFloat
    norm_num at this ⊢
    exact this
  have f4 : toFloat (16106127 / 536870912) = 16106127 / 536870912 := by
    have := roundFloat_representable 24 (-149) 16106127 (-29) (by norm_num) (by norm_num)
    unfold toFloat
    norm_num at this ⊢
    exact this
  have s1 : toFloat (5284823 / 8388608 + 9395241 / 134217728) = 11744051 / 16777216 := by
    unfold toFloat
    rw [roundFloat_eq 24 (-149) _ (-1) (-24) 11744051
      (by norm_num [abs_of_pos]) (by norm_num [abs_of_pos]) (by norm_num)
      (by norm_num [abs_lt])]
    norm_num
  have q1 : toFloat (5284823 / 8388608 / (11744051 / 16777216)) = 15099495 / 16777216 := by
    unfold toFloat
    rw [roundFloat_eq 24 (-149) _ (-1) (-24) 15099495
      (by norm_num [abs_of_pos]) (by norm_num [abs_of_pos]) (by norm_num)
      (by norm_num [abs_lt])]
    norm_num
  have s2 : toFloat (9059697 / 33554432 + 16106127 / 536870912) = 5033165 / 16777216 := by
    unfold toFloat
    rw [roundFloat_eq 24 (-149) _ (-2) (-25) 10066330
      (by norm_num [abs_of_pos]) (by norm_num [abs_of_pos]) (by norm_num)
      (by norm_num [abs_lt])]
    norm_num
  have q2 : toFloat (9059697 / 33554432 / (5033165 / 16777216)) = 15099494 / 16777216 := by
    unfold toFloat
    rw [roundFloat_eq 24 (-149) _ (-1) (-24) 15099494
      (by norm_num [abs_of_pos]) (by norm_num [abs_of_pos]) (by norm_num)
      (by norm_num [abs_lt])]
    norm_num
  refine ⟨⟨rfl, rfl, rfl, ?_, ?_, ?_, ?_, rfl⟩, ⟨rfl, rfl, rfl, ?_, ?_, ?_, ?_⟩⟩
  · rw [ha, f1]
  · rw [hr, f2]
  · rw [ha, hr]; norm_num
  · rw [addConservativeSpanningPairSupport_cases roundedUpPairFragment {} (by decide)
      (by decide) (by rw [ha]; norm_num) (by rw [hr]; norm_num) ⟨rfl, rfl, rfl⟩
      (by rw [ha]; norm_num)]
    rw [ha, hr, s1, q1, if_pos (by norm_num), if_pos (by norm_num)]
  · rw [ha2, f3]
  · rw [hr2, f4]
  · rw [ha2, hr2]; norm_num
  · rw [addConservativeSpanningPairSupport_cases roundedDownPairFragment {} (by decide)
      (by decide) (by rw [ha2]; norm_num) (by rw [hr2]; norm_num) ⟨rfl, rfl, rfl⟩
      (by rw [ha2]; norm_num)]
    rw [ha2, hr2, s2, q2, if_pos (by norm_num), if_neg (lt_irrefl _)]

/-- C13 amended, at concrete inputs: the anchored fragment with two zero
likelihoods fails with a `LogicException`. -/
theorem addConservativeSpanningPairSupport_fails_witness :
    addConservativeSpanningPairSupport anchoredZeroFragment {} =
      Except.error ScoringFailure.LogicException := by
  refine (addConservativeSpanningPairSupport_fails anchoredZeroFragment {}).1.mpr
    ⟨rfl, rfl, rfl, ?_, ?_⟩ <;>
  · unfold getSpanningPairAlleleLhood anchoredZeroFragment unanchoredZeroFragment
    simp

/-! ## `finishRms` -/

/-- A sum of `n` squares of numbers bounded by `M` is at most `n M²`. -/
theorem sum_sq_le (mapqs : List Nat) (M : Nat) (hM : ∀ m ∈ mapqs, m ≤ M) :
    (mapqs.map (fun m : Nat => (m : ℚ) ^ 2)).sum ≤ (mapqs.length : ℚ) * (M : ℚ) ^ 2 := by
  induction mapqs with
  | nil => simp
  | cons m rest ih =>
    have h1 : m ≤ M := hM m (List.mem_cons_self _ _)
    have h2 := ih (fun x hx => hM x (List.mem_cons_of_mem _ hx))
    have h3 : (m : ℚ) ^ 2 ≤ (M : ℚ) ^ 2 := by
      have : (m : ℚ) ≤ (M : ℚ) := by exact_mod_cast h1
      exact pow_le_pow_left₀ (by positivity) this 2
    simp only [List.map_cons, List.sum_cons, List.length_cons, Nat.cast_succ, add_mul, one_mul]
    linarith

/-- A sum of squares is non-negative. -/
theorem sum_sq_nonneg (mapqs : List Nat) :
    0 ≤ (mapqs.map (fun m : Nat => (m : ℚ) ^ 2)).sum := by
  apply List.sum_nonneg
  intro x hx
  obtain ⟨m, _, rfl⟩ := List.mem_map.mp hx
  positivity

/-- The `float` radicand of `finishRms`: for a sum `S` with `0 ≤ S ≤ n M²` and
`n, M ≥ 1` the `float` quotient of the `float` sum by the `float` count is at
most `M² (1 + 2^-24)² / (1 − 2^-24)`. -/
theorem finishRms_radicand_le (S : ℚ) (n M : Nat) (hn : 1 ≤ n) (hM1 : 1 ≤ M) (hS0 : 0 ≤ S)
    (hS : S ≤ (n : ℚ) * (M : ℚ) ^ 2) :
    0 ≤ toFloat (toFloat S / toFloat (n : ℚ)) ∧
      toFloat (toFloat S / toFloat (n : ℚ)) ≤
        (M : ℚ) ^ 2 * ((1 + 1 / 2 ^ 24) ^ 2 / (1 - 1 / 2 ^ 24)) := by
  have hn1 : (1 : ℚ) ≤ (n : ℚ) := by exact_mod_cast hn
  have hM1q : (1 : ℚ) ≤ (M : ℚ) := by exact_mod_cast hM1
  have hM2 : (1 : ℚ) ≤ (M : ℚ) ^ 2 := one_le_pow₀ hM1q
  have hsmall : (1 : ℚ) / 2 ^ 126 ≤ 1 := by
    rw [div_le_one (by positivity)]
    exact one_le_pow₀ (by norm_num)
  have hnM : (1 : ℚ) ≤ (n : ℚ) * (M : ℚ) ^ 2 := by nlinarith
  have hnum : toFloat S ≤ (n : ℚ) * (M : ℚ) ^ 2 * (1 + 1 / 2 ^ 24) :=
    le_trans (toFloat_mono _ _ hS0 hS) (toFloat_rel_error _ (le_trans hsmall hnM)).2
  have hden : (n : ℚ) * (1 - 1 / 2 ^ 24) ≤ toFloat (n : ℚ) :=
    (toFloat_rel_error _ (le_trans hsmall hn1)).1
  have hdpos : (0 : ℚ) < (n : ℚ) * (1 - 1 / 2 ^ 24) := mul_pos (by linarith) (by norm_num)
  have hfpos : (0 : ℚ) < toFloat (n : ℚ) := lt_of_lt_of_le hdpos hden
  have hnum0 : 0 ≤ toFloat S := toFloat_nonneg _ hS0
  have hq0 : 0 ≤ toFloat S / toFloat (n : ℚ) := div_nonneg hnum0 (le_of_lt hfpos)
  have hq : toFloat S / toFloat (n : ℚ) ≤ (M : ℚ) ^ 2 * ((1 + 1 / 2 ^ 24) / (1 - 1 / 2 ^ 24)) := by
    rw [div_le_iff₀ hfpos]
    have hpos2 : (0 : ℚ) ≤ (M : ℚ) ^ 2 * ((1 + 1 / 2 ^ 24) / (1 - 1 / 2 ^ 24)) := by positivity
    have h1 := mul_le_mul_of_nonneg_left hden hpos2
    have h2 : (M : ℚ) ^ 2 * ((1 + 1 / 2 ^ 24) / (1 - 1 / 2 ^ 24)) *
        ((n : ℚ) * (1 - 1 / 2 ^ 24)) = (n : ℚ) * (M : ℚ) ^ 2 * (1 + 1 / 2 ^ 24) := by
      field_simp
      ring
    linarith
  have hB : (1 : ℚ) / 2 ^ 126 ≤ (M : ℚ) ^ 2 * ((1 + 1 / 2 ^ 24) / (1 - 1 / 2 ^ 24)) := by
    have : (1 : ℚ) ≤ (1 + 1 / 2 ^ 24) / (1 - 1 / 2 ^ 24) := by norm_num
    have : (1 : ℚ) ≤ (M : ℚ) ^ 2 * ((1 + 1 / 2 ^ 24) / (1 - 1 / 2 ^ 24)) := by nlinarith
    linarith
  refine ⟨toFloat_nonneg _ hq0, ?_⟩
  have h3 := le_trans (toFloat_mono _ _ hq0 hq) (toFloat_rel_error _ hB).2
  have h4 : (M : ℚ) ^ 2 * ((1 + 1 / 2 ^ 24) / (1 - 1 / 2 ^ 24)) * (1 + 1 / 2 ^ 24) =
      (M : ℚ) ^ 2 * ((1 + 1 / 2 ^ 24) ^ 2 / (1 - 1 / 2 ^ 24)) := by ring
  rw [h4] at h3
  exact h3

/-- The value of `finishRms` for a sum of squares of mapping qualities bounded by
`M`, with a square root that is non-negative and exceeds the exact root by at
most the relative error `2^-24` of a `float`: it lies in `[0, M (1 + 2^-22)]`. -/
theorem finishRms_bounds (sqrt : ℚ → ℚ)
    (hs0 : ∀ y : ℚ, 0 ≤ y → 0 ≤ sqrt y)
    (hub : ∀ y : ℚ, 0 ≤ y → sqrt y ^ 2 ≤ y * (1 + 1 / 2 ^ 24) ^ 2)
    (mapqs : List Nat) (M : Nat) (hM : ∀ m ∈ mapqs, m ≤ M) :
    0 ≤ finishRms sqrt (toFloat (mapqs.map (fun m : Nat => (m : ℚ) ^ 2)).sum) mapqs.length ∧
      finishRms sqrt (toFloat (mapqs.map (fun m : Nat => (m : ℚ) ^ 2)).sum) mapqs.length ≤
        (M : ℚ) * (1 + 1 / 2 ^ 22) := by
  have hSle := sum_sq_le mapqs M hM
  have hS0 := sum_sq_nonneg mapqs
  generalize (mapqs.map (fun m : Nat => (m : ℚ) ^ 2)).sum = S at hSle hS0
  generalize mapqs.length = n at hSle
  have hMb : (0 : ℚ) ≤ (M : ℚ) * (1 + 1 / 2 ^ 22) := by positivity
  unfold finishRms
  split_ifs with h0
  · exact ⟨le_refl _, hMb⟩
  · have hn : 1 ≤ n := Nat.one_le_iff_ne_zero.mpr h0
    rcases eq_or_lt_of_le hS0 with hz | hpos
    · rw [← hz]
      have ht : toFloat 0 = 0 := roundFloat_zero 24 (-149)
      rw [ht, zero_div, ht]
      have h1 := hs0 0 (le_refl _)
      have h2 := hub 0 (le_refl _)
      rw [zero_mul] at h2
      have h3 : sqrt 0 = 0 := by
        have := sq_nonneg (sqrt 0)
        exact pow_eq_zero_iff (two_ne_zero) |>.mp (le_antisymm h2 this)
      rw [h3]
      exact ⟨le_refl _, hMb⟩
    · have hM1 : 1 ≤ M := by
        rcases Nat.eq_zero_or_pos M with hM0 | hMp
        · rw [hM0] at hSle
          norm_num at hSle
          linarith
        · exact hMp
      obtain ⟨hr0, hr⟩ := finishRms_radicand_le S n M hn hM1 hS0 hSle
      refine ⟨hs0 _ hr0, ?_⟩
      have h1 := hub _ hr0
      have h2 : toFloat (toFloat S / toFloat (n : ℚ)) * (1 + 1 / 2 ^ 24) ^ 2 ≤
          (M : ℚ) ^ 2 * ((1 + 1 / 2 ^ 24) ^ 2 / (1 - 1 / 2 ^ 24)) * (1 + 1 / 2 ^ 24) ^ 2 :=
        mul_le_mul_of_nonneg_right hr (by positivity)
      have h3 : (M : ℚ) ^ 2 * ((1 + 1 / 2 ^ 24) ^ 2 / (1 - 1 / 2 ^ 24)) * (1 + 1 / 2 ^ 24) ^ 2 ≤
          ((M : ℚ) * (1 + 1 / 2 ^ 22)) ^ 2 := by
        have hc : ((1 : ℚ) + 1 / 2 ^ 24) ^ 2 / (1 - 1 / 2 ^ 24) * (1 + 1 / 2 ^ 24) ^ 2 ≤
            (1 + 1 / 2 ^ 22) ^ 2 := by norm_num
        have hM2 : (0 : ℚ) ≤ (M : ℚ) ^ 2 := by positivity
        have := mul_le_mul_of_nonneg_left hc hM2
        calc (M : ℚ) ^ 2 * ((1 + 1 / 2 ^ 24) ^ 2 / (1 - 1 / 2 ^ 24)) * (1 + 1 / 2 ^ 24) ^ 2
            = (M : ℚ) ^ 2 * ((1 + 1 / 2 ^ 24) ^ 2 / (1 - 1 / 2 ^ 24) * (1 + 1 / 2 ^ 24) ^ 2) := by
              ring
          _ ≤ (M : ℚ) ^ 2 * (1 + 1 / 2 ^ 22) ^ 2 := this
          _ = ((M : ℚ) * (1 + 1 / 2 ^ 22)) ^ 2 := by ring
      have h4 : sqrt (toFloat (toFloat S / toFloat (n : ℚ))) ^ 2 ≤
          ((M : ℚ) * (1 + 1 / 2 ^ 22)) ^ 2 := le_trans h1 (le_trans h2 h3)
      exact le_of_sq_le_sq h4 hMb |> fun h => h

/-- C14 amended: for a square root that is non-negative and exceeds the exact root
by at most the relative error `2^-24` of a `float`, and an allele record whose
`splitReadMapQ` holds the sum `S` of mapq² over its `n = splitReadCount` counted
reads, `finishRms` sets `splitReadMapQ` to 0 when `n = 0` and, when `n > 0`, to
the square root of the `float` quotient of `S` and `n`, both converted to
`float`, and changes no other field; this is sqrt(S/n) when `S`, `n` and `S/n`
are `float` values.  The finalized value lies in `[0, M (1 + 2^-22)]` for every
bound `M` on the counted mapq values. -/
theorem finishRms_spec (sqrt : ℚ → ℚ)
    (hs0 : ∀ y : ℚ, 0 ≤ y → 0 ≤ sqrt y)
    (hub : ∀ y : ℚ, 0 ≤ y → sqrt y ^ 2 ≤ y * (1 + 1 / 2 ^ 24) ^ 2)
    (sai : SVSampleAlleleInfo) (mapqs : List Nat) (M : Nat)
    (hn : sai.splitReadCount = mapqs.length)
    (hS : sai.splitReadMapQ = (mapqs.map (fun m : Nat => (m : ℚ) ^ 2)).sum)
    (hM : ∀ m ∈ mapqs, m ≤ M) :
    finishRmsAllele sqrt sai =
        { sai with splitReadMapQ :=
            if sai.splitReadCount = 0 then 0
            else sqrt (toFloat (toFloat sai.splitReadMapQ /
              toFloat (sai.splitReadCount : ℚ))) } ∧
      (sai.splitReadCount ≠ 0 → toFloat sai.splitReadMapQ = sai.splitReadMapQ →
        toFloat (sai.splitReadCount : ℚ) = (sai.splitReadCount : ℚ) →
        toFloat (sai.splitReadMapQ / (sai.splitReadCount : ℚ)) =
          sai.splitReadMapQ / (sai.splitReadCount : ℚ) →
        (finishRmsAllele sqrt sai).splitReadMapQ =
          sqrt (sai.splitReadMapQ / (sai.splitReadCount : ℚ))) ∧
      0 ≤ (finishRmsAllele sqrt sai).splitReadMapQ ∧
      (finishRmsAllele sqrt sai).splitReadMapQ ≤ (M : ℚ) * (1 + 1 / 2 ^ 22) := by
  refine ⟨rfl, ?_, ?_⟩
  · intro h0 h1 h2 h3
    unfold finishRmsAllele finishRms
    dsimp only
    rw [if_neg h0, h1, h2, h3]
  · unfold finishRmsAllele
    dsimp only
    rw [hS, hn]
    exact finishRms_bounds sqrt hs0 hub mapqs M hM

/-- The example square root is non-negative. -/
theorem sqrtModel_nonneg (y : ℚ) : 0 ≤ sqrtModel y := by
  unfold sqrtModel; positivity

/-- The example square root is monotone. -/
theorem sqrtModel_mono (a b : ℚ) (h : a ≤ b) : sqrtModel a ≤ sqrtModel b := by
  unfold sqrtModel
  exact_mod_cast Nat.sqrt_le_sqrt (Nat.floor_mono h)

/-- The example square root is exact on perfect squares. -/
theorem sqrtModel_sq (m : Nat) : sqrtModel ((m : ℚ) ^ 2) = m := by
  unfold sqrtModel
  have : ⌊((m : ℚ) ^ 2)⌋₊ = m * m := by
    rw [pow_two]
    exact_mod_cast Nat.floor_natCast (m * m)
  rw [this, Nat.sqrt_eq]

/-- The example square root does not exceed the exact root. -/
theorem sqrtModel_sq_le (y : ℚ) (hy : 0 ≤ y) :
    sqrtModel y ^ 2 ≤ y * (1 + 1 / 2 ^ 24) ^ 2 := by
  unfold sqrtModel
  have h1 : (Nat.sqrt ⌊y⌋₊ : ℚ) ^ 2 ≤ (⌊y⌋₊ : ℚ) := by
    rw [pow_two]
    exact_mod_cast Nat.sqrt_le ⌊y⌋₊
  have h2 : (⌊y⌋₊ : ℚ) ≤ y := Nat.floor_le hy
  have h3 : y ≤ y * (1 + 1 / 2 ^ 24) ^ 2 := by
    have : (1 : ℚ) ≤ (1 + 1 / 2 ^ 24) ^ 2 := by norm_num
    nlinarith
  linarith

/-- C14 as stated fails: one counted read of mapping quality 255 (S = 255², n = 1)
finalizes to 255, which is not in [0, 60]. -/
theorem finishRms_not_below_60 :
    ¬ ((finishRmsAllele sqrtModel { splitReadCount := 1, splitReadMapQ := 255 ^ 2 }).splitReadMapQ
        ≤ 60) := by
  have h : (finishRmsAllele sqrtModel
      { splitReadCount := 1, splitReadMapQ := 255 ^ 2 }).splitReadMapQ = 255 := by
    unfold finishRmsAllele finishRms
    simp only [one_ne_zero, if_false, Nat.cast_one]
    have e1 : toFloat ((255 : ℚ) ^ 2) = 255 ^ 2 := by
      have := toFloat_natCast (255 ^ 2) (by norm_num)
      exact_mod_cast this
    have e2 : toFloat (1 : ℚ) = 1 := by
      have := toFloat_natCast 1 (by norm_num)
      exact_mod_cast this
    rw [e1, e2, div_one, e1]
    exact_mod_cast sqrtModel_sq 255
  rw [h]; norm_num

/-- C14 amended, at a concrete input: two counted reads of mapping quality 60 and
20 (S = 4000, n = 2) with the example square root. -/
theorem finishRms_spec_witness :
    (∀ y : ℚ, 0 ≤ y → 0 ≤ sqrtModel y) ∧
      (∀ y : ℚ, 0 ≤ y → sqrtModel y ^ 2 ≤ y * (1 + 1 / 2 ^ 24) ^ 2) ∧
      twoReadAllele.splitReadCount = [60, 20].length ∧
      twoReadAllele.splitReadMapQ = ([60, 20].map (fun m : Nat => (m : ℚ) ^ 2)).sum ∧
      (∀ m ∈ [60, 20], m ≤ 60) ∧
      (finishRmsAllele sqrtModel twoReadAllele =
          { twoReadAllele with
            splitReadMapQ :=
              if twoReadAllele.splitReadCount = 0 then 0
              else sqrtModel (toFloat (toFloat twoReadAllele.splitReadMapQ /
                toFloat (twoReadAllele.splitReadCount : ℚ))) } ∧
        (twoReadAllele.splitReadCount ≠ 0 →
          toFloat twoReadAllele.splitReadMapQ = twoReadAllele.splitReadMapQ →
          toFloat (twoReadAllele.splitReadCount : ℚ) = (twoReadAllele.splitReadCount : ℚ) →
          toFloat (twoReadAllele.splitReadMapQ / (twoReadAllele.splitReadCount : ℚ)) =
            twoReadAllele.splitReadMapQ / (twoReadAllele.splitReadCount : ℚ) →
          (finishRmsAllele sqrtModel twoReadAllele).splitReadMapQ =
            sqrtModel (twoReadAllele.splitReadMapQ / (twoReadAllele.splitReadCount : ℚ))) ∧
        0 ≤ (finishRmsAllele sqrtModel twoReadAllele).splitReadMapQ ∧
        (finishRmsAllele sqrtModel twoReadAllele).splitReadMapQ ≤
          ((60 : Nat) : ℚ) * (1 + 1 / 2 ^ 22)) := by
  have hS : twoReadAllele.splitReadMapQ = ([60, 20].map (fun m : Nat => (m : ℚ) ^ 2)).sum := by
    unfold twoReadAllele; norm_num
  exact ⟨fun y _ => sqrtModel_nonneg y, sqrtModel_sq_le, rfl, hS, by decide,
    finishRms_spec sqrtModel (fun y _ => sqrtModel_nonneg y) sqrtModel_sq_le
      twoReadAllele [60, 20] 60 rfl hS (by decide)⟩

/-- The stand-in `sqrtFloatModel` is non-negative. -/
theorem sqrtFloatModel_nonneg (y : ℚ) : 0 ≤ sqrtFloatModel y := by
  unfold sqrtFloatModel
  exact toFloat_nonneg _ (by positivity)

/-- The stand-in `sqrtFloatModel` exceeds the exact root by at most the relative
error `2^-24`. -/
theorem sqrtFloatModel_sq_le (y : ℚ) (hy : 0 ≤ y) :
    sqrtFloatModel y ^ 2 ≤ y * (1 + 1 / 2 ^ 24) ^ 2 := by
  unfold sqrtFloatModel
  have hN : ((⌊y * 2 ^ 60⌋₊ : Nat) : ℚ) ≤ y * 2 ^ 60 := Nat.floor_le (by positivity)
  generalize ⌊y * 2 ^ 60⌋₊ = N at hN
  have hsq : ((Nat.sqrt N : Nat) : ℚ) ^ 2 ≤ (N : ℚ) := by
    rw [pow_two]
    exact_mod_cast Nat.sqrt_le N
  generalize Nat.sqrt N = k at hsq
  have hs2 : ((k : ℚ) / 2 ^ 30) ^ 2 ≤ y := by
    rw [div_pow, div_le_iff₀ (by positivity)]
    have : ((2 : ℚ) ^ 30) ^ 2 = 2 ^ 60 := by norm_num
    rw [this]
    linarith
  rcases Nat.eq_zero_or_pos k with hk | hk
  · rw [hk]
    have ht : toFloat 0 = 0 := roundFloat_zero 24 (-149)
    simp only [Nat.cast_zero, zero_div, ht]
    have : (0 : ℚ) ≤ y * (1 + 1 / 2 ^ 24) ^ 2 := by positivity
    simpa using this
  · have hk1 : (1 : ℚ) ≤ (k : ℚ) := by exact_mod_cast hk
    have hs : (1 : ℚ) / 2 ^ 126 ≤ (k : ℚ) / 2 ^ 30 := by
      rw [div_le_div_iff₀ (by positivity) (by positivity)]
      have : (2 : ℚ) ^ 30 ≤ 2 ^ 126 := by norm_num
      nlinarith
    have h1 := (toFloat_rel_error _ hs).2
    have h0 : 0 ≤ toFloat ((k : ℚ) / 2 ^ 30) := toFloat_nonneg _ (by positivity)
    have h2 : toFloat ((k : ℚ) / 2 ^ 30) ^ 2 ≤ ((k : ℚ) / 2 ^ 30 * (1 + 1 / 2 ^ 24)) ^ 2 :=
      pow_le_pow_left₀ h0 h1 2
    have h3 : ((k : ℚ) / 2 ^ 30 * (1 + 1 / 2 ^ 24)) ^ 2 =
        ((k : ℚ) / 2 ^ 30) ^ 2 * (1 + 1 / 2 ^ 24) ^ 2 := by ring
    have h4 : ((k : ℚ) / 2 ^ 30) ^ 2 * (1 + 1 / 2 ^ 24) ^ 2 ≤ y * (1 + 1 / 2 ^ 24) ^ 2 :=
      mul_le_mul_of_nonneg_right hs2 (by positivity)
    linarith

/-- The sum 16841475 of the squares of 259 mapping qualities 255 lies halfway
between two `float` values and is converted to 16841476. -/
theorem toFloat_manyRead_sum : toFloat 16841475 = 16841476 := by
  have he : ulpExponent 24 (-149) 16841475 = 1 := by
    unfold ulpExponent
    rw [int_log_eq |(16841475 : ℚ)| 24 (by norm_num [abs_of_pos]) (by norm_num [abs_of_pos])]
    norm_num
  have ht := (roundHalfEven_tie 4210368).2
  unfold toFloat roundFloat
  rw [he]
  have e : (16841475 : ℚ) / 2 ^ (1 : Int) = ((2 * 4210368 + 1 : Int) : ℚ) + 1 / 2 := by norm_num
  rw [e, ht]
  norm_num

/-- The bound `M` itself does not hold: after 259 counted reads of mapping
quality 255 the `float` sum is 16841476, the `float` quotient 65025 + 1/256, and
a square root rounded to `float` finalizes to 255 + 2^-16, above every counted
mapping quality. -/
theorem finishRms_above_mapq :
    (∀ y : ℚ, 0 ≤ y → 0 ≤ sqrtFloatModel y) ∧
      (∀ y : ℚ, 0 ≤ y → sqrtFloatModel y ^ 2 ≤ y * (1 + 1 / 2 ^ 24) ^ 2) ∧
      manyReadAllele.splitReadCount = (List.replicate 259 255).length ∧
      manyReadAllele.splitReadMapQ =
        ((List.replicate 259 255).map (fun m : Nat => (m : ℚ) ^ 2)).sum ∧
      (∀ m ∈ List.replicate 259 255, m ≤ 255) ∧
      (finishRmsAllele sqrtFloatModel manyReadAllele).splitReadMapQ = 255 + 1 / 65536 := by
  refine ⟨fun y _ => sqrtFloatModel_nonneg y, sqrtFloatModel_sq_le, ?_, ?_, ?_, ?_⟩
  · rw [List.length_replicate]
    rfl
  · rw [List.map_replicate, List.sum_replicate]
    show (16841475 : ℚ) = _
    norm_num
  · intro m hm
    rw [List.eq_of_mem_replicate hm]
  · unfold finishRmsAllele finishRms manyReadAllele
    simp only [if_neg (by decide : ¬ (259 : Nat) = 0)]
    have e2 : toFloat ((259 : Nat) : ℚ) = ((259 : Nat) : ℚ) := toFloat_natCast 259 (by norm_num)
    rw [toFloat_manyRead_sum, e2]
    have e3 : toFloat (16841476 / ((259 : Nat) : ℚ)) = 16646401 / 256 := by
      unfold toFloat
      rw [roundFloat_eq 24 (-149) _ 15 (-8) 16646401
        (by norm_num [abs_of_pos]) (by norm_num [abs_of_pos]) (by norm_num)
        (by norm_num [abs_lt])]
      norm_num
    rw [e3]
    unfold sqrtFloatModel
    have e4 : ⌊(16646401 / 256 : ℚ) * 2 ^ 60⌋₊ = 74968725340659851984896 := by
      have : (16646401 / 256 : ℚ) * 2 ^ 60 = ((74968725340659851984896 : Nat) : ℚ) := by
        norm_num
      rw [this, Nat.floor_natCast]
    have e5 : Nat.sqrt 74968725340659851984896 = 273804173344 := by
      symm
      rw [Nat.eq_sqrt]
      norm_num
    rw [e4, e5]
    unfold toFloat
    rw [roundFloat_eq 24 (-149) _ 7 (-16) 16711681
      (by norm_num [abs_of_pos]) (by norm_num [abs_of_pos]) (by norm_num)
      (by norm_num [abs_lt])]
    norm_num

/-! ## `scoreSomaticSV`: single rules and filters -/

/-- Under any veto a cleared somatic record keeps score 0. -/
theorem scoreSomaticSV_zero_of_veto (somaticOpt : CallOptionsSomatic) (sv : SVCandidate)
    (dFilter : ChromDepthFilterUtil) (baseInfo : SVScoreInfo)
    (somaticInfo : SVScoreInfoSomatic) (hclear : somaticInfo.somaticScore = 0)
    (hv : vetoNormalSupport baseInfo ∨ vetoWeakTumor baseInfo ∨ vetoRatio baseInfo ∨
      vetoNoNormalRef baseInfo) :
    (scoreSomaticSV somaticOpt sv dFilter baseInfo somaticInfo).somaticScore = 0 := by
  have hq : ¬ isNonzeroSomaticQuality baseInfo = true :=
    fun h => (isNonzeroSomaticQuality_iff baseInfo).mp h hv
  unfold scoreSomaticSV
  simp [hq, hclear]

/-- C15: for every score info with `normal.alt.confidentSpanningPairCount > 1` or
`normal.alt.confidentSplitReadCount > 5`, `scoreSomaticSV` on a cleared record
yields `somaticScore = 0`, whatever the other counts are. -/
theorem scoreSomaticSV_normal_contamination (somaticOpt : CallOptionsSomatic)
    (sv : SVCandidate) (dFilter : ChromDepthFilterUtil) (baseInfo : SVScoreInfo)
    (somaticInfo : SVScoreInfoSomatic) (hclear : somaticInfo.somaticScore = 0)
    (hnormal : baseInfo.normal.alt.confidentSpanningPairCount > 1 ∨
      baseInfo.normal.alt.confidentSplitReadCount > 5) :
    (scoreSomaticSV somaticOpt sv dFilter baseInfo somaticInfo).somaticScore = 0 :=
  scoreSomaticSV_zero_of_veto somaticOpt sv dFilter baseInfo somaticInfo hclear (Or.inl hnormal)

/-- C15 at the "somatic veto by normal contamination" scenario: tumor alt pairs
20, normal alt pairs 3. -/
theorem scoreSomaticSV_normal_contamination_witness :
    ({} : SVScoreInfoSomatic).somaticScore = 0 ∧
      (somaticVetoInfo.normal.alt.confidentSpanningPairCount > 1 ∨
        somaticVetoInfo.normal.alt.confidentSplitReadCount > 5) ∧
      (scoreSomaticSV somaticOptDefault {} noDepthFilter somaticVetoInfo {}).somaticScore = 0 :=
  ⟨rfl, Or.inl (by decide),
    scoreSomaticSV_normal_contamination somaticOptDefault {} noDepthFilter somaticVetoInfo {} rfl
      (Or.inl (by decide))⟩

/-- For a nonzero normal counter the ratio is below 9 exactly when `t < 9 n`. -/
theorem countRatio_lt_nine (t n : Nat) (hn : n ≠ 0) : countRatio t n < 9 ↔ t < 9 * n := by
  unfold countRatio
  have hpos : (0 : ℚ) < (n : ℚ) := by exact_mod_cast Nat.pos_of_ne_zero hn
  rw [div_lt_iff₀ hpos]
  constructor
  · intro h; exact_mod_cast h
  · intro h; exact_mod_cast h

/-- C16: on a cleared record, for each of `confidentSpanningPairCount`,
`bp1SpanReadCount` and `bp2SpanReadCount` of the alt allele: if the normal value
`n` is nonzero and the tumor value `t` satisfies `t < 9 n`, `scoreSomaticSV`
yields `somaticScore = 0`; for nonzero `n` the test `t/n < 9` is the test
`t < 9 n`; and with `n = 0` the ratio test leaves the flag as it was, without
evaluating the quotient. -/
theorem scoreSomaticSV_ratio_rule (somaticOpt : CallOptionsSomatic)
    (sv : SVCandidate) (dFilter : ChromDepthFilterUtil) (baseInfo : SVScoreInfo)
    (somaticInfo : SVScoreInfoSomatic) (hclear : somaticInfo.somaticScore = 0) :
    ((baseInfo.normal.alt.confidentSpanningPairCount ≠ 0 ∧
          baseInfo.tumor.alt.confidentSpanningPairCount <
            9 * baseInfo.normal.alt.confidentSpanningPairCount) →
        (scoreSomaticSV somaticOpt sv dFilter baseInfo somaticInfo).somaticScore = 0) ∧
      ((baseInfo.normal.alt.bp1SpanReadCount ≠ 0 ∧
          baseInfo.tumor.alt.bp1SpanReadCount < 9 * baseInfo.normal.alt.bp1SpanReadCount) →
        (scoreSomaticSV somaticOpt sv dFilter baseInfo somaticInfo).somaticScore = 0) ∧
      ((baseInfo.normal.alt.bp2SpanReadCount ≠ 0 ∧
          baseInfo.tumor.alt.bp2SpanReadCount < 9 * baseInfo.normal.alt.bp2SpanReadCount) →
        (scoreSomaticSV somaticOpt sv dFilter baseInfo somaticInfo).somaticScore = 0) ∧
      (∀ t n : Nat, n ≠ 0 → (countRatio t n < 9 ↔ t < 9 * n)) ∧
      (∀ (t : Nat) (q : Bool), somaticRatioTest t 0 q = q) := by
  refine ⟨?_, ?_, ?_, countRatio_lt_nine, fun t q => by simp [somaticRatioTest]⟩
  · rintro ⟨hn, hlt⟩
    apply scoreSomaticSV_zero_of_veto _ _ _ _ _ hclear
    right; right; left; left
    exact ⟨hn, (countRatio_lt_nine _ _ hn).mpr hlt⟩
  · rintro ⟨hn, hlt⟩
    apply scoreSomaticSV_zero_of_veto _ _ _ _ _ hclear
    right; right; left; right; left
    exact ⟨hn, (countRatio_lt_nine _ _ hn).mpr hlt⟩
  · rintro ⟨hn, hlt⟩
    apply scoreSomaticSV_zero_of_veto _ _ _ _ _ hclear
    right; right; left; right; right
    exact ⟨hn, (countRatio_lt_nine _ _ hn).mpr hlt⟩

/-- C16 at a concrete input: tumor `bp1SpanReadCount = 17` against normal 2 (17 <
18) with every other rule satisfied gives score 0. -/
theorem scoreSomaticSV_ratio_rule_witness :
    ({} : SVScoreInfoSomatic).somaticScore = 0 ∧
      (somaticRatioInfo.normal.alt.bp1SpanReadCount ≠ 0 ∧
        somaticRatioInfo.tumor.alt.bp1SpanReadCount <
          9 * somaticRatioInfo.normal.alt.bp1SpanReadCount) ∧
      (scoreSomaticSV somaticOptDefault {} noDepthFilter somaticRatioInfo {}).somaticScore = 0 :=
  ⟨rfl, ⟨by decide, by decide⟩,
    (scoreSomaticSV_ratio_rule somaticOptDefault {} noDepthFilter somaticRatioInfo {} rfl).2.1
      ⟨by decide, by decide⟩⟩

/-! ## Filters -/

/-- C17 amended: `scoreDiploidSV` leaves the filter set as it was when `altScore`
is below `minOutputAltScore`; otherwise it adds the max-depth label exactly when
the depth filter is enabled and the depth at bp1 exceeds the threshold of bp1's
chromosome or the depth at bp2 exceeds that of bp2's, and the min-GT label
exactly when `gtScore < minGTScoreFilter`. -/
theorem scoreDiploidSV_filters (error_prob_to_qphred : ℚ → Nat)
    (diploidOpt : CallOptionsDiploid) (diploidDopt : CallOptionsDiploidDeriv)
    (sv : SVCandidate) (dFilter : ChromDepthFilterUtil) (evidence : SVEvidence)
    (baseInfo : SVScoreInfo) (diploidInfo : SVScoreInfoDiploid) :
    (scoreDiploidSV error_prob_to_qphred diploidOpt diploidDopt sv dFilter evidence baseInfo
        diploidInfo).filters =
      if (scoreDiploidSV error_prob_to_qphred diploidOpt diploidDopt sv dFilter evidence baseInfo
          diploidInfo).altScore ≥ diploidOpt.minOutputAltScore then
        (diploidInfo.filters ∪
          (if dFilter.isMaxDepthFilter = true ∧
              ((baseInfo.bp1MaxDepth : ℚ) > dFilter.maxDepth sv.bp1.interval.tid ∨
                (baseInfo.bp2MaxDepth : ℚ) > dFilter.maxDepth sv.bp2.interval.tid)
            then {diploidOpt.maxDepthFilterLabel} else ∅)) ∪
          (if (scoreDiploidSV error_prob_to_qphred diploidOpt diploidDopt sv dFilter evidence
              baseInfo diploidInfo).gtScore < diploidOpt.minGTScoreFilter
            then {diploidOpt.minGTFilterLabel} else ∅)
      else diploidInfo.filters := by
  unfold scoreDiploidSV diploidFilters
  dsimp only
  generalize error_prob_to_qphred (diploidPosterior diploidDopt evidence DIPLOID_GT.REF) = a
  generalize error_prob_to_qphred (prob_comp (diploidPosterior diploidDopt evidence)
    (diploidMaxGt diploidDopt evidence)) = g
  by_cases ha : a ≥ diploidOpt.minOutputAltScore
  · rw [if_pos ha, if_pos ha]
    cases dFilter.isMaxDepthFilter <;>
      by_cases h1 : (baseInfo.bp1MaxDepth : ℚ) > dFilter.maxDepth sv.bp1.interval.tid <;>
      by_cases h2 : (baseInfo.bp2MaxDepth : ℚ) > dFilter.maxDepth sv.bp2.interval.tid <;>
      by_cases hg : g < diploidOpt.minGTScoreFilter <;>
      simp [h1, h2, hg, Finset.union_comm, Finset.insert_eq]
  · rw [if_neg ha, if_neg ha]

/-- The filter set that `scoreSomaticSV` returns: the old labels and, with the
depth filter enabled and a breakend depth above its threshold, the max-depth
label. -/
theorem scoreSomaticSV_filters_eq (somaticOpt : CallOptionsSomatic) (sv : SVCandidate)
    (dFilter : ChromDepthFilterUtil) (baseInfo : SVScoreInfo)
    (somaticInfo : SVScoreInfoSomatic) :
    (scoreSomaticSV somaticOpt sv dFilter baseInfo somaticInfo).filters =
        somaticInfo.filters ∪
          (if dFilter.isMaxDepthFilter = true ∧
              ((baseInfo.bp1MaxDepth : ℚ) > dFilter.maxDepth sv.bp1.interval.tid ∨
                (baseInfo.bp2MaxDepth : ℚ) > dFilter.maxDepth sv.bp2.interval.tid)
            then {somaticOpt.maxDepthFilterLabel} else ∅) := by
  unfold scoreSomaticSV somaticFilters
  dsimp only
  cases isNonzeroSomaticQuality baseInfo <;> cases dFilter.isMaxDepthFilter <;>
    by_cases h1 : (baseInfo.bp1MaxDepth : ℚ) > dFilter.maxDepth sv.bp1.interval.tid <;>
    by_cases h2 : (baseInfo.bp2MaxDepth : ℚ) > dFilter.maxDepth sv.bp2.interval.tid <;>
    simp [h1, h2, Finset.union_comm, Finset.insert_eq]

/-- C17 as stated fails: with the depth filter switched off, a depth of 1000 at
bp1 against a threshold of 100 and `altScore = 40 ≥ minOutputAltScore = 10`, no
label is added. -/
theorem diploidMaxDepth_not_as_claimed :
    (scoreDiploidSV phredForty diploidOptDefault uniformPrior {} disabledDepthFilter {}
        deepScoreInfo {}).altScore ≥ diploidOptDefault.minOutputAltScore ∧
      (deepScoreInfo.bp1MaxDepth : ℚ) > disabledDepthFilter.maxDepth 0 ∧
      (scoreDiploidSV phredForty diploidOptDefault uniformPrior {} disabledDepthFilter {}
        deepScoreInfo {}).filters = ∅ := by
  refine ⟨by decide, ?_, ?_⟩
  · unfold deepScoreInfo disabledDepthFilter; norm_num
  · unfold scoreDiploidSV diploidFilters phredForty diploidOptDefault disabledDepthFilter
    simp

/-- C18 amended: `scoreSomaticSV` adds the max-depth label exactly when the depth
filter is enabled and the depth at bp1 exceeds the threshold of bp1's chromosome
or the depth at bp2 exceeds that of bp2's, whatever the somatic score is, and
adds no other label; on a record without labels and with both depths at or
under their thresholds the filter set stays empty. -/
theorem scoreSomaticSV_filters (somaticOpt : CallOptionsSomatic) (sv : SVCandidate)
    (dFilter : ChromDepthFilterUtil) (baseInfo : SVScoreInfo)
    (somaticInfo : SVScoreInfoSomatic) :
    (scoreSomaticSV somaticOpt sv dFilter baseInfo somaticInfo).filters =
        somaticInfo.filters ∪
          (if dFilter.isMaxDepthFilter = true ∧
              ((baseInfo.bp1MaxDepth : ℚ) > dFilter.maxDepth sv.bp1.interval.tid ∨
                (baseInfo.bp2MaxDepth : ℚ) > dFilter.maxDepth sv.bp2.interval.tid)
            then {somaticOpt.maxDepthFilterLabel} else ∅) ∧
      (somaticInfo.filters = ∅ →
        (baseInfo.bp1MaxDepth : ℚ) ≤ dFilter.maxDepth sv.bp1.interval.tid →
        (baseInfo.bp2MaxDepth : ℚ) ≤ dFilter.maxDepth sv.bp2.interval.tid →
        (scoreSomaticSV somaticOpt sv dFilter baseInfo somaticInfo).filters = ∅) := by
  refine ⟨scoreSomaticSV_filters_eq somaticOpt sv dFilter baseInfo somaticInfo, ?_⟩
  intro h0 h1 h2
  rw [scoreSomaticSV_filters_eq, h0, if_neg]
  · simp
  · rintro ⟨_, h | h⟩
    · exact absurd h (not_lt.mpr h1)
    · exact absurd h (not_lt.mpr h2)

/-- C18 amended, at a concrete input: filter enabled with threshold 100, depth
100 at both breakends: no label. -/
theorem scoreSomaticSV_filters_witness :
    ({} : SVScoreInfoSomatic).filters = ∅ ∧
      (scoreSomaticSV somaticOptDefault {} (constDepthFilter 100)
        { bp1MaxDepth := 100, bp2MaxDepth := 100 } {}).filters = ∅ :=
  ⟨rfl,
    (scoreSomaticSV_filters somaticOptDefault {} (constDepthFilter 100)
      { bp1MaxDepth := 100, bp2MaxDepth := 100 } {}).2 rfl
      (by unfold constDepthFilter; norm_num) (by unfold constDepthFilter; norm_num)⟩

/-- C18 as stated fails: with the depth filter switched off, a depth of 1000 at
bp1 against a threshold of 100 adds no label. -/
theorem somaticMaxDepth_not_as_claimed :
    (deepScoreInfo.bp1MaxDepth : ℚ) > disabledDepthFilter.maxDepth 0 ∧
      (scoreSomaticSV somaticOptDefault {} disabledDepthFilter deepScoreInfo {}).filters = ∅ := by
  refine ⟨?_, ?_⟩
  · unfold deepScoreInfo disabledDepthFilter; norm_num
  · rw [scoreSomaticSV_filters_eq]
    unfold disabledDepthFilter
    simp

/-! ## The diploid likelihood reads anchored pair evidence only -/

/-- Adding the logarithm 0 changes nothing. -/
theorem lnVal_add_zero (a : LnVal) : a + 0 = a := by
  cases a with
  | mk x =>
    show LnVal.add { arg := x } { arg := 1 } = { arg := x }
    unfold LnVal.add
    simp

/-- The logarithm of 1 is 0. -/
theorem lnVal_log_one : LnVal.log 1 = 0 := rfl

/-- A fragment that fails the guard leaves both accumulators at their initial 1. -/
theorem diploidAlleleLhoods_of_no_contribution (fragev : SVFragmentEvidence)
    (h : ¬ (fragev.read1.isObservedAnchor = true ∧ fragev.read2.isObservedAnchor = true ∧
      fragev.isAnyPairSupport = true)) :
    diploidAlleleLhoods fragev = ({}, {}) := by
  unfold diploidAlleleLhoods
  cases h1 : fragev.read1.isObservedAnchor
  · simp
  · cases h2 : fragev.read2.isObservedAnchor
    · simp
    · cases hp : fragev.isAnyPairSupport
      · simp
      · exact absurd ⟨h1, h2, hp⟩ h

/-- A fragment that fails the guard adds the logarithm 0 to every genotype. -/
theorem diploidFragmentLoglhood_of_no_contribution (loglhood : DIPLOID_GT → LnVal)
    (fragev : SVFragmentEvidence)
    (h : ¬ (fragev.read1.isObservedAnchor = true ∧ fragev.read2.isObservedAnchor = true ∧
      fragev.isAnyPairSupport = true)) (gt : DIPLOID_GT) :
    diploidFragmentLoglhood loglhood fragev gt = loglhood gt + 0 := by
  unfold diploidFragmentLoglhood
  rw [diploidAlleleLhoods_of_no_contribution fragev h]
  dsimp only
  have : ((1 : ℚ) * (1 - DIPLOID_GT.altFraction gt) + 1 * DIPLOID_GT.altFraction gt) = 1 := by
    ring
  rw [this, lnVal_log_one]

/-- The guard fails exactly when one of its three conditions fails. -/
theorem contributesToDiploid_false (fragev : SVFragmentEvidence)
    (h : ¬ contributesToDiploid fragev = true) :
    ¬ (fragev.read1.isObservedAnchor = true ∧ fragev.read2.isObservedAnchor = true ∧
      fragev.isAnyPairSupport = true) := by
  intro hc
  apply h
  unfold contributesToDiploid
  simp [hc.1, hc.2.1, hc.2.2]

/-- The loop of `scoreDiploidSV` over a track equals the loop over the fragments
that pass the guard, from any starting array. -/
theorem diploid_foldl_filter (normal : evidenceTrack_t) :
    ∀ init : DIPLOID_GT → LnVal,
      normal.foldl (fun loglhood val => diploidFragmentLoglhood loglhood val.2) init =
        (normal.filter (fun kv => contributesToDiploid kv.2)).foldl
          (fun loglhood val => diploidFragmentLoglhood loglhood val.2) init := by
  induction normal with
  | nil => intro init; rfl
  | cons kv rest ih =>
    intro init
    by_cases hc : contributesToDiploid kv.2 = true
    · simp only [List.filter_cons, hc, if_true, List.foldl_cons]
      exact ih _
    · simp only [List.filter_cons, hc, if_false, List.foldl_cons]
      have : diploidFragmentLoglhood init kv.2 = init := by
        funext gt
        rw [diploidFragmentLoglhood_of_no_contribution init kv.2
          (contributesToDiploid_false kv.2 hc) gt, lnVal_add_zero]
      rw [this]
      exact ih _

/-- C19 (invariant I4): a fragment that is not (read1 observed anchor and read2
observed anchor and any pair support) adds exactly 0 to each of the three
genotype log-likelihoods, so it leaves the array unchanged; and the
log-likelihoods of a whole normal track are those of its fragments that pass
this guard. -/
theorem scoreDiploidSV_anchored_only (loglhood : DIPLOID_GT → LnVal)
    (fragev : SVFragmentEvidence)
    (h : ¬ (fragev.read1.isObservedAnchor = true ∧ fragev.read2.isObservedAnchor = true ∧
      fragev.isAnyPairSupport = true)) :
    (∀ gt : DIPLOID_GT,
        diploidFragmentLoglhood loglhood fragev gt = loglhood gt + 0 ∧
          loglhood gt + 0 = loglhood gt) ∧
      diploidFragmentLoglhood loglhood fragev = loglhood ∧
      (∀ normal : evidenceTrack_t,
        diploidLoglhood normal =
          diploidLoglhood (normal.filter (fun kv => contributesToDiploid kv.2))) := by
  refine ⟨fun gt => ⟨diploidFragmentLoglhood_of_no_contribution loglhood fragev h gt,
    lnVal_add_zero _⟩, ?_, fun normal => diploid_foldl_filter normal _⟩
  funext gt
  rw [diploidFragmentLoglhood_of_no_contribution loglhood fragev h gt, lnVal_add_zero]

/-- The spanning likelihood of an allele reads no split-read field. -/
theorem getSpanningPairAlleleLhood_congr (x y : SVFragmentEvidenceAllele)
    (h1 : SameExceptSplitBreakend x.bp1 y.bp1) (h2 : SameExceptSplitBreakend x.bp2 y.bp2) :
    getSpanningPairAlleleLhood x = getSpanningPairAlleleLhood y := by
  unfold getSpanningPairAlleleLhood
  rw [h1.1, h1.2, h2.1, h2.2]

/-- The accumulators of a fragment read no split-read field. -/
theorem diploidAlleleLhoods_congr (f g : SVFragmentEvidence) (h : SameExceptSplit f g) :
    diploidAlleleLhoods f = diploidAlleleLhoods g := by
  obtain ⟨h1, h2, ha1, ha2, hr1, hr2⟩ := h
  unfold diploidAlleleLhoods incrementSpanningPairAlleleLhood SVFragmentEvidence.isAnyPairSupport
  rw [h1, h2, getSpanningPairAlleleLhood_congr _ _ ha1 ha2,
    getSpanningPairAlleleLhood_congr _ _ hr1 hr2, ha1.1, ha2.1, hr1.1, hr2.1]

/-- The loop of `scoreDiploidSV` gives the same array on two tracks that differ
only in split-read fields. -/
theorem diploid_foldl_congr (m1 m2 : evidenceTrack_t) (h : TrackSameExceptSplit m1 m2) :
    ∀ init : DIPLOID_GT → LnVal,
      m1.foldl (fun loglhood val => diploidFragmentLoglhood loglhood val.2) init =
        m2.foldl (fun loglhood val => diploidFragmentLoglhood loglhood val.2) init := by
  induction h with
  | nil => intro init; rfl
  | @cons a b l1 l2 hab _ ih =>
    intro init
    simp only [List.foldl_cons]
    have : diploidFragmentLoglhood init a.2 = diploidFragmentLoglhood init b.2 := by
      unfold diploidFragmentLoglhood
      rw [diploidAlleleLhoods_congr _ _ hab.2]
    rw [this]
    exact ih _

/-- C20: for any two evidence stores whose normal tracks hold the same fragments
up to split-read fields (`isSplitEvaluated`, `isSplitSupport`, `splitEvidence`,
`splitLnLhood`), whatever their tumor tracks hold, `scoreDiploidSV` returns the
same record: genotype, alt score, gt score and filters. -/
theorem scoreDiploidSV_ignores_split (error_prob_to_qphred : ℚ → Nat)
    (diploidOpt : CallOptionsDiploid) (diploidDopt : CallOptionsDiploidDeriv)
    (sv : SVCandidate) (dFilter : ChromDepthFilterUtil) (e1 e2 : SVEvidence)
    (baseInfo : SVScoreInfo) (diploidInfo : SVScoreInfoDiploid)
    (hnormal : TrackSameExceptSplit e1.normal e2.normal) :
    scoreDiploidSV error_prob_to_qphred diploidOpt diploidDopt sv dFilter e1 baseInfo
        diploidInfo =
      scoreDiploidSV error_prob_to_qphred diploidOpt diploidDopt sv dFilter e2 baseInfo
        diploidInfo := by
  have hl : diploidLoglhood e1.normal = diploidLoglhood e2.normal :=
    diploid_foldl_congr _ _ hnormal _
  unfold scoreDiploidSV diploidPosterior diploidMaxGt
  rw [hl]

/-- C19 at a concrete input: the unanchored fragment adds 0 to an array of
zeros. -/
theorem scoreDiploidSV_anchored_only_witness :
    ¬ (unanchoredZeroFragment.read1.isObservedAnchor = true ∧
        unanchoredZeroFragment.read2.isObservedAnchor = true ∧
        unanchoredZeroFragment.isAnyPairSupport = true) ∧
      diploidFragmentLoglhood (fun _ => 0) unanchoredZeroFragment = fun _ => 0 :=
  ⟨fun h => Bool.noConfusion h.1,
    (scoreDiploidSV_anchored_only (fun _ => 0) unanchoredZeroFragment
      (fun h => Bool.noConfusion h.1)).2.1⟩

/-- The alt-supporting fragment and its copy with split-read fields filled in
differ only in split-read fields. -/
theorem altSupportingFragment_sameExceptSplit :
    TrackSameExceptSplit [("frag0", altSupportingFragment)]
      [("frag0", altSupportingFragmentSplit)] :=
  List.Forall₂.cons
    ⟨rfl, rfl, rfl, ⟨rfl, rfl⟩, ⟨rfl, rfl⟩, ⟨rfl, rfl⟩, ⟨rfl, rfl⟩⟩ List.Forall₂.nil

/-- C20 at a concrete input: one alt-supporting fragment with and without
split-read fields. -/
theorem scoreDiploidSV_ignores_split_witness :
    TrackSameExceptSplit [("frag0", altSupportingFragment)]
        [("frag0", altSupportingFragmentSplit)] ∧
      altSupportingFragment ≠ altSupportingFragmentSplit ∧
      scoreDiploidSV phredForty diploidOptDefault uniformPrior {} noDepthFilter
          { normal := [("frag0", altSupportingFragment)] } {} {} =
        scoreDiploidSV phredForty diploidOptDefault uniformPrior {} noDepthFilter
          { normal := [("frag0", altSupportingFragmentSplit)] } {} {} :=
  ⟨altSupportingFragment_sameExceptSplit,
    fun h => by
      have h2 := congrArg (fun f => f.alt.bp1.read1.isSplitSupport) h
      exact Bool.noConfusion h2,
    scoreDiploidSV_ignores_split phredForty diploidOptDefault uniformPrior {} noDepthFilter
      { normal := [("frag0", altSupportingFragment)] }
      { normal := [("frag0", altSupportingFragmentSplit)] } {} {}
      altSupportingFragment_sameExceptSplit⟩

/-! ## `getBreakendMaxMappedDepth` -/

/-- A read is always added in bounds, and it increments exactly the window
positions that its MATCH segments cover. -/
theorem addReadToDepthEst_incremented (bamRead : bam_record) (beginPos : Int)
    (depth : List Nat) :
    ∃ depth1, addReadToDepthEst bamRead beginPos depth = some depth1 ∧
      IncrementedOn (fun p => coveredByMatch p bamRead.cigar (bamRead.pos - 1) = true)
        beginPos depth depth1 :=
  addPathToDepthEst_spec beginPos (beginPos + depth.length) bamRead.cigar
    (bamRead.pos - 1) depth rfl

/-- The record loop never writes out of bounds and keeps the length of the depth
array. -/
theorem addStreamToDepthEst_length (searchRange : known_pos_range2)
    (records : List bam_record) :
    ∀ depth : List Nat, ∃ depth1,
      addStreamToDepthEst searchRange records depth = some depth1 ∧
        depth1.length = depth.length := by
  induction records with
  | nil => intro depth; exact ⟨depth, rfl, rfl⟩
  | cons bamRead rest ih =>
    intro depth
    unfold addStreamToDepthEst
    by_cases hu : bamRead.is_unmapped = true
    · rw [if_pos hu]; exact ih depth
    · rw [if_neg hu]
      by_cases hb : bamRead.pos - 1 ≥ searchRange.end_pos
      · rw [if_pos hb]; exact ⟨depth, rfl, rfl⟩
      · rw [if_neg hb]
        obtain ⟨d1, hd1, hlen, _⟩ :=
          addReadToDepthEst_incremented bamRead searchRange.begin_pos depth
        rw [hd1]
        obtain ⟨d2, hd2, hlen2⟩ := ih d1
        exact ⟨d2, hd2, hlen2.trans hlen⟩

/-- The file loop over the indices `k, k+1, ..., k+m-1` when the first normal
file has index `i` in that range: exactly the stream of file `i` is read. -/
theorem addFirstNormalToDepthEst_range (scorer : SVScorer) (bp : SVBreakend)
    (searchRange : known_pos_range2) (i : Nat) (bamStream : bam_streamer)
    (hnormal : scorer._isAlignmentTumor.getD i false = false)
    (hstream : scorer._bamStreams.get? i = some bamStream) (depth : List Nat) :
    ∀ (m k : Nat), k ≤ i → i < k + m →
      (∀ j : Nat, k ≤ j → j < i → scorer._isAlignmentTumor.getD j false = true) →
      addFirstNormalToDepthEst scorer bp searchRange (List.range' k m) depth =
        (addStreamToDepthEst searchRange
          (bamStream.records bp.interval.tid searchRange.begin_pos searchRange.end_pos)
          depth).map (fun depth1 => (depth1, true)) := by
  intro m
  induction m with
  | zero => intro k h1 h2; omega
  | succ m ih =>
    intro k h1 h2 htumor
    rw [List.range'_succ]
    unfold addFirstNormalToDepthEst
    by_cases hk : k = i
    · subst hk
      rw [hnormal, hstream]
      simp only [Bool.false_eq_true, if_false]
      cases addStreamToDepthEst searchRange
        (bamStream.records bp.interval.tid searchRange.begin_pos searchRange.end_pos)
        depth <;> rfl
    · have hlt : k < i := lt_of_le_of_ne h1 hk
      rw [htumor k (le_refl k) hlt]
      simp only [if_true]
      exact ih (k + 1) (by omega) (by omega) (fun j hj1 hj2 => htumor j (by omega) hj2)

/-- The file loop when every visited file is a tumor file: no stream is read and
`isNormalFound` stays false. -/
theorem addFirstNormalToDepthEst_none (scorer : SVScorer) (bp : SVBreakend)
    (searchRange : known_pos_range2) (depth : List Nat) :
    ∀ bamIndices : List Nat,
      (∀ j ∈ bamIndices, scorer._isAlignmentTumor.getD j false = true) →
      addFirstNormalToDepthEst scorer bp searchRange bamIndices depth =
        some (depth, false) := by
  intro bamIndices
  induction bamIndices with
  | nil => intro _; rfl
  | cons j rest ih =>
    intro h
    unfold addFirstNormalToDepthEst
    rw [h j (List.mem_cons_self _ _)]
    simp only [if_true]
    exact ih (fun j2 hj2 => h j2 (List.mem_cons_of_mem _ hj2))

/-- With a first normal file, the depth array is the one its stream produces. -/
theorem getBreakendDepth_of_normal (scorer : SVScorer) (bp : SVBreakend) (i : Nat)
    (bamStream : bam_streamer) (hnormal : IsFirstNormal scorer i bamStream) :
    ∃ depth, streamDepth bp bamStream = some depth ∧
      depth.length = (depthSearchRange bp).size ∧
      getBreakendDepth scorer bp = Except.ok depth := by
  obtain ⟨h1, h2, h3⟩ := hnormal
  have hi : i < scorer._bamStreams.length := by
    by_contra hc
    rw [List.get?_eq_none.mpr (not_lt.mp hc)] at h3
    cases h3
  obtain ⟨d1, hd1, hlen⟩ := addStreamToDepthEst_length (depthSearchRange bp)
    (bamStream.records bp.interval.tid (depthSearchRange bp).begin_pos
      (depthSearchRange bp).end_pos) (List.replicate (depthSearchRange bp).size 0)
  refine ⟨d1, hd1, by rw [hlen, List.length_replicate], ?_⟩
  unfold getBreakendDepth
  dsimp only
  rw [List.range_eq_range',
    addFirstNormalToDepthEst_range scorer bp (depthSearchRange bp) i bamStream h2 h3 _
      scorer._bamStreams.length 0 (Nat.zero_le _) (by omega) (fun j _ hj => h1 j hj),
    hd1]
  rfl

/-- The search range of a breakend whose center is not negative. -/
theorem depthSearchRange_size (bp : SVBreakend) (hc : 0 ≤ bp.interval.range.center_pos) :
    (depthSearchRange bp).begin_pos = max (bp.interval.range.center_pos - 50) 0 ∧
      (depthSearchRange bp).end_pos = bp.interval.range.center_pos + 50 ∧
      ((depthSearchRange bp).size : Int) =
        (if bp.interval.range.center_pos ≥ 50 then 100
          else bp.interval.range.center_pos + 50) ∧
      0 < (depthSearchRange bp).size ∧
      (depthSearchRange bp).end_pos =
        (depthSearchRange bp).begin_pos + (depthSearchRange bp).size := by
  unfold known_pos_range2.size depthSearchRange
  dsimp only
  refine ⟨rfl, rfl, ?_, ?_, ?_⟩
  · split_ifs with h <;> omega
  · omega
  · omega

/-- The value of `std::max_element` on a non-empty array: an element of the
array that no element exceeds. -/
theorem foldl_max_spec (depth : List Nat) :
    ∀ d : Nat, depth.foldl max d ∈ d :: depth ∧ ∀ x ∈ d :: depth, x ≤ depth.foldl max d := by
  induction depth with
  | nil => intro d; simp
  | cons a rest ih =>
    intro d
    obtain ⟨h1, h2⟩ := ih (max d a)
    simp only [List.foldl_cons]
    constructor
    · rcases List.mem_cons.mp h1 with h | h
      · rw [h]
        rcases le_total d a with hle | hle
        · rw [max_eq_right hle]; simp
        · rw [max_eq_left hle]; simp
      · exact List.mem_cons_of_mem _ (List.mem_cons_of_mem _ h)
    · intro x hx
      rcases List.mem_cons.mp hx with h | h
      · rw [h]; exact le_trans (le_max_left d a) (h2 _ (List.mem_cons_self _ _))
      · rcases List.mem_cons.mp h with h | h
        · rw [h]; exact le_trans (le_max_right d a) (h2 _ (List.mem_cons_self _ _))
        · exact h2 x (List.mem_cons_of_mem _ h)

/-- The maximum that `getBreakendMaxMappedDepth` takes of a non-empty depth
array. -/
theorem getBreakendMaxMappedDepth_of_depth (scorer : SVScorer) (bp : SVBreakend)
    (depth : List Nat) (h : getBreakendDepth scorer bp = Except.ok depth)
    (hne : 0 < depth.length) :
    ∃ m, getBreakendMaxMappedDepth scorer bp = Except.ok m ∧ m ∈ depth ∧
      ∀ d ∈ depth, d ≤ m := by
  unfold getBreakendMaxMappedDepth
  rw [h]
  cases depth with
  | nil => simp at hne
  | cons d rest => exact ⟨rest.foldl max d, rfl, foldl_max_spec rest d⟩

/-- Positions covered by a read that is one MATCH segment. -/
theorem coveredByMatch_single (p : Int) (len : Nat) (refPos : Int) :
    coveredByMatch p [{ type := align_t.MATCH, length := len }] refPos = true ↔
      refPos ≤ p ∧ p < refPos + len := by
  simp [coveredByMatch]

/-- The record loop over `N` copies of a mapped read that is one MATCH segment:
the counters of the covered window positions grow by `N` (modulo `2^32`), the
others stay. -/
theorem addStreamToDepthEst_replicate (searchRange : known_pos_range2)
    (bamRead : bam_record) (len : Nat) (hmapped : bamRead.is_unmapped = false)
    (hcigar : bamRead.cigar = [{ type := align_t.MATCH, length := len }]) :
    ∀ (N k : Nat) (depth : List Nat),
      searchRange.end_pos = searchRange.begin_pos + depth.length →
      (∀ j : Nat, j < depth.length → depth.getD j 0 =
        if bamRead.pos - 1 ≤ searchRange.begin_pos + j ∧
            searchRange.begin_pos + j < bamRead.pos - 1 + len then k % UINT_RANGE else 0) →
      ∃ depth1, addStreamToDepthEst searchRange (List.replicate N bamRead) depth =
          some depth1 ∧ depth1.length = depth.length ∧
        ∀ j : Nat, j < depth.length → depth1.getD j 0 =
          if bamRead.pos - 1 ≤ searchRange.begin_pos + j ∧
              searchRange.begin_pos + j < bamRead.pos - 1 + len then (k + N) % UINT_RANGE
          else 0 := by
  intro N
  induction N with
  | zero =>
    intro k depth _ h
    exact ⟨depth, rfl, rfl, by simpa using h⟩
  | succ N ih =>
    intro k depth hend h
    rw [List.replicate_succ]
    unfold addStreamToDepthEst
    rw [hmapped]
    simp only [Bool.false_eq_true, if_false]
    by_cases hb : bamRead.pos - 1 ≥ searchRange.end_pos
    · rw [if_pos hb]
      refine ⟨depth, rfl, rfl, ?_⟩
      intro j hj
      rw [h j hj]
      have : ¬ (bamRead.pos - 1 ≤ searchRange.begin_pos + j ∧
          searchRange.begin_pos + j < bamRead.pos - 1 + len) := by
        intro hc; omega
      rw [if_neg this, if_neg this]
    · rw [if_neg hb]
      obtain ⟨d1, hd1, hlen, hget⟩ :=
        addReadToDepthEst_incremented bamRead searchRange.begin_pos depth
      rw [hd1]
      have hinv : ∀ j : Nat, j < d1.length → d1.getD j 0 =
          if bamRead.pos - 1 ≤ searchRange.begin_pos + j ∧
              searchRange.begin_pos + j < bamRead.pos - 1 + len then (k + 1) % UINT_RANGE
          else 0 := by
        intro j hj
        rw [hlen] at hj
        rw [hget j hj, h j hj]
        dsimp only
        rw [hcigar]
        by_cases hcov : bamRead.pos - 1 ≤ searchRange.begin_pos + j ∧
            searchRange.begin_pos + j < bamRead.pos - 1 + len
        · rw [if_pos ((coveredByMatch_single _ _ _).mpr hcov), if_pos hcov, if_pos hcov]
          exact (Nat.mod_add_mod k UINT_RANGE 1).symm ▸ rfl
        · have hn : ¬ coveredByMatch (searchRange.begin_pos + j)
              [{ type := align_t.MATCH, length := len }] (bamRead.pos - 1) = true :=
            fun hc => hcov ((coveredByMatch_single _ _ _).mp hc)
          rw [if_neg hn, if_neg hcov, if_neg hcov]
      obtain ⟨d2, hd2, hlen2, hget2⟩ := ih (k + 1) d1 (by rw [hlen]; exact hend) hinv
      refine ⟨d2, hd2, hlen2.trans hlen, ?_⟩
      intro j hj
      rw [hget2 j (by rw [hlen]; exact hj)]
      have : k + 1 + N = k + (N + 1) := by omega
      rw [this]

/-- When the stream of the first normal file yields `N < 2^32` copies of a
mapped read that is one MATCH segment, the counters of the window positions the
read covers are `N` and the others stay 0; if the read covers the whole region,
`getBreakendMaxMappedDepth` returns `N`. -/
theorem getBreakendDepth_replicate (scorer : SVScorer) (bp : SVBreakend) (i : Nat)
    (bamStream : bam_streamer) (N : Nat) (bamRead : bam_record) (len : Nat)
    (hc : 0 ≤ bp.interval.range.center_pos)
    (hnormal : IsFirstNormal scorer i bamStream)
    (hrecords : bamStream.records bp.interval.tid (depthSearchRange bp).begin_pos
      (depthSearchRange bp).end_pos = List.replicate N bamRead)
    (hmapped : bamRead.is_unmapped = false)
    (hcigar : bamRead.cigar = [{ type := align_t.MATCH, length := len }])
    (hN : N < UINT_RANGE) :
    (∃ depth, getBreakendDepth scorer bp = Except.ok depth ∧
      depth.length = (depthSearchRange bp).size ∧
      ∀ j : Nat, j < (depthSearchRange bp).size → depth.getD j 0 =
        if bamRead.pos - 1 ≤ (depthSearchRange bp).begin_pos + j ∧
            (depthSearchRange bp).begin_pos + j < bamRead.pos - 1 + len then N else 0) ∧
    (bamRead.pos - 1 ≤ (depthSearchRange bp).begin_pos →
      (depthSearchRange bp).end_pos ≤ bamRead.pos - 1 + len →
      getBreakendMaxMappedDepth scorer bp = Except.ok N) := by
  obtain ⟨_, _, _, hpos, hend⟩ := depthSearchRange_size bp hc
  obtain ⟨depth, hs, hlen, hd⟩ := getBreakendDepth_of_normal scorer bp i bamStream hnormal
  unfold streamDepth at hs
  rw [hrecords] at hs
  obtain ⟨d1, hd1, hlen1, hget1⟩ := addStreamToDepthEst_replicate (depthSearchRange bp)
    bamRead len hmapped hcigar N 0 (List.replicate (depthSearchRange bp).size 0)
    (by rw [List.length_replicate]; exact hend)
    (by intro j hj; rw [List.length_replicate] at hj
        rw [List.getD_eq_getElem _ _ (by rw [List.length_replicate]; exact hj)]
        simp)
  rw [hd1] at hs
  cases hs
  rw [List.length_replicate] at hget1
  have hmod : (0 + N) % UINT_RANGE = N := by rw [Nat.zero_add]; exact Nat.mod_eq_of_lt hN
  rw [hmod] at hget1
  refine ⟨⟨depth, hd, hlen, hget1⟩, ?_⟩
  intro hb he
  obtain ⟨m, hm, hmem, _⟩ := getBreakendMaxMappedDepth_of_depth scorer bp depth hd
    (by rw [hlen]; exact hpos)
  rw [hm]
  obtain ⟨j, hj, hjm⟩ := List.getElem_of_mem hmem
  have hj2 : j < (depthSearchRange bp).size := by rw [← hlen]; exact hj
  have := hget1 j hj2
  rw [List.getD_eq_getElem _ _ hj, hjm] at this
  rw [this, if_pos]
  constructor <;> omega

/-- C21: when the stream of the first normal file yields `N < 2^32` copies of a
mapped read that is one MATCH segment, the counters of the window positions the
read covers are `N` and the others stay 0; if the read covers the whole region,
`getBreakendMaxMappedDepth` returns `N`. -/
theorem getBreakendMaxMappedDepth_pileup (scorer : SVScorer) (bp : SVBreakend) (i : Nat)
    (bamStream : bam_streamer) (N : Nat) (bamRead : bam_record) (len : Nat)
    (hc : 0 ≤ bp.interval.range.center_pos)
    (hnormal : IsFirstNormal scorer i bamStream)
    (hrecords : bamStream.records bp.interval.tid (depthSearchRange bp).begin_pos
      (depthSearchRange bp).end_pos = List.replicate N bamRead)
    (hmapped : bamRead.is_unmapped = false)
    (hcigar : bamRead.cigar = [{ type := align_t.MATCH, length := len }])
    (hN : N < UINT_RANGE) :
    (∃ depth, getBreakendDepth scorer bp = Except.ok depth ∧
      depth.length = (depthSearchRange bp).size ∧
      ∀ j : Nat, j < (depthSearchRange bp).size → depth.getD j 0 =
        if bamRead.pos - 1 ≤ (depthSearchRange bp).begin_pos + j ∧
            (depthSearchRange bp).begin_pos + j < bamRead.pos - 1 + len then N else 0) ∧
    (bamRead.pos - 1 ≤ (depthSearchRange bp).begin_pos →
      (depthSearchRange bp).end_pos ≤ bamRead.pos - 1 + len →
      getBreakendMaxMappedDepth scorer bp = Except.ok N) :=
  getBreakendDepth_replicate scorer bp i bamStream N bamRead len hc hnormal hrecords hmapped
    hcigar hN

/-- Unmapped records can be dropped from the stream without changing the result
of the record loop. -/
theorem addStreamToDepthEst_filter (searchRange : known_pos_range2)
    (records : List bam_record) :
    ∀ depth : List Nat,
      addStreamToDepthEst searchRange (records.filter (fun r => !r.is_unmapped)) depth =
        addStreamToDepthEst searchRange records depth := by
  induction records with
  | nil => intro depth; rfl
  | cons bamRead rest ih =>
    intro depth
    by_cases hu : bamRead.is_unmapped = true
    · rw [List.filter_cons_of_neg (by simp [hu])]
      rw [ih depth]
      conv_rhs => unfold addStreamToDepthEst
      rw [if_pos hu]
    · rw [List.filter_cons_of_pos (by simpa using hu)]
      unfold addStreamToDepthEst
      simp only [if_neg hu]
      by_cases hb : bamRead.pos - 1 ≥ searchRange.end_pos
      · simp only [if_pos hb]
      · simp only [if_neg hb]
        cases addReadToDepthEst bamRead searchRange.begin_pos depth with
        | none => rfl
        | some d1 => exact ih d1

/-- The record loop reads only the unmapped flag, the position and the CIGAR of
a record. -/
theorem addStreamToDepthEst_map (searchRange : known_pos_range2)
    (f : bam_record → bam_record)
    (hf : ∀ r, (f r).is_unmapped = r.is_unmapped ∧ (f r).pos = r.pos ∧
      (f r).cigar = r.cigar)
    (records : List bam_record) :
    ∀ depth : List Nat,
      addStreamToDepthEst searchRange (records.map f) depth =
        addStreamToDepthEst searchRange records depth := by
  induction records with
  | nil => intro depth; rfl
  | cons bamRead rest ih =>
    intro depth
    rw [List.map_cons]
    unfold addStreamToDepthEst
    obtain ⟨h1, h2, h3⟩ := hf bamRead
    have h4 : addReadToDepthEst (f bamRead) searchRange.begin_pos depth =
        addReadToDepthEst bamRead searchRange.begin_pos depth := by
      unfold addReadToDepthEst
      rw [h2, h3]
    rw [h1, h2, h4]
    by_cases hu : bamRead.is_unmapped = true
    · rw [if_pos hu, if_pos hu]; exact ih depth
    · rw [if_neg hu, if_neg hu]
      by_cases hb : bamRead.pos - 1 ≥ searchRange.end_pos
      · rw [if_pos hb, if_pos hb]
      · rw [if_neg hb, if_neg hb]
        cases addReadToDepthEst bamRead searchRange.begin_pos depth with
        | none => rfl
        | some d1 => exact ih d1

/-- A change of the records that the record loop does not see is not seen by
`getBreakendMaxMappedDepth` either. -/
theorem getBreakendMaxMappedDepth_mapRecords (scorer : SVScorer) (bp : SVBreakend)
    (g : List bam_record → List bam_record)
    (hg : ∀ (searchRange : known_pos_range2) (records : List bam_record)
      (depth : List Nat),
      addStreamToDepthEst searchRange (g records) depth =
        addStreamToDepthEst searchRange records depth) :
    getBreakendMaxMappedDepth (scorer.mapRecords g) bp =
      getBreakendMaxMappedDepth scorer bp := by
  have hloop : ∀ (bamIndices : List Nat) (depth : List Nat),
      addFirstNormalToDepthEst (scorer.mapRecords g) bp (depthSearchRange bp) bamIndices
          depth =
        addFirstNormalToDepthEst scorer bp (depthSearchRange bp) bamIndices depth := by
    intro bamIndices
    induction bamIndices with
    | nil => intro depth; rfl
    | cons j rest ih =>
      intro depth
      unfold addFirstNormalToDepthEst
      have h1 : (scorer.mapRecords g)._isAlignmentTumor = scorer._isAlignmentTumor := rfl
      have h2 : (scorer.mapRecords g)._bamStreams.get? j =
          (scorer._bamStreams.get? j).map
            (fun bamStream => { records := fun tid b e => g (bamStream.records tid b e) }) := by
        unfold SVScorer.mapRecords
        simp only [List.get?_eq_getElem?, List.getElem?_map]
      rw [h1, h2, ih depth]
      cases scorer._bamStreams.get? j with
      | none => rfl
      | some bamStream =>
        simp only [Option.map_some', hg]
  unfold getBreakendMaxMappedDepth getBreakendDepth
  dsimp only
  have h3 : (scorer.mapRecords g)._bamStreams.length = scorer._bamStreams.length := by
    unfold SVScorer.mapRecords
    simp only [List.length_map]
  rw [h3, hloop]

/-- C22 (amended): `getBreakendMaxMappedDepth` skips exactly the unmapped records:
dropping them from every stream does not change its result, and neither does
any change of the records that keeps the unmapped flag, the position and the
CIGAR, such as lowering the mapping quality or setting the duplicate flag. -/
theorem getBreakendMaxMappedDepth_mapped_only (scorer : SVScorer) (bp : SVBreakend)
    (f : bam_record → bam_record)
    (hf : ∀ r, (f r).is_unmapped = r.is_unmapped ∧ (f r).pos = r.pos ∧
      (f r).cigar = r.cigar) :
    getBreakendMaxMappedDepth
        (scorer.mapRecords (List.filter (fun r => !r.is_unmapped))) bp =
      getBreakendMaxMappedDepth scorer bp ∧
    getBreakendMaxMappedDepth (scorer.mapRecords (List.map f)) bp =
      getBreakendMaxMappedDepth scorer bp :=
  ⟨getBreakendMaxMappedDepth_mapRecords scorer bp _
      (fun searchRange records depth => addStreamToDepthEst_filter searchRange records depth),
    getBreakendMaxMappedDepth_mapRecords scorer bp _
      (fun searchRange records depth => addStreamToDepthEst_map searchRange f hf records depth)⟩

/-- C23: for a breakend with center `c ≥ 0` the search range is
`[max(c - 50, 0), c + 50)`, its size is 100 when `c ≥ 50` and `c + 50` otherwise
and never 0; the depth array has that many entries and is the one that the
stream of the first normal file produces, and the function returns its
maximum. -/
theorem getBreakendMaxMappedDepth_region (scorer : SVScorer) (bp : SVBreakend) (i : Nat)
    (bamStream : bam_streamer) (hc : 0 ≤ bp.interval.range.center_pos)
    (hnormal : IsFirstNormal scorer i bamStream) :
    (depthSearchRange bp).begin_pos = max (bp.interval.range.center_pos - 50) 0 ∧
      (depthSearchRange bp).end_pos = bp.interval.range.center_pos + 50 ∧
      ((depthSearchRange bp).size : Int) =
        (if bp.interval.range.center_pos ≥ 50 then 100
          else bp.interval.range.center_pos + 50) ∧
      0 < (depthSearchRange bp).size ∧
      ∃ depth, streamDepth bp bamStream = some depth ∧
        depth.length = (depthSearchRange bp).size ∧
        getBreakendDepth scorer bp = Except.ok depth ∧
        ∃ m, getBreakendMaxMappedDepth scorer bp = Except.ok m ∧ m ∈ depth ∧
          ∀ d ∈ depth, d ≤ m := by
  obtain ⟨h1, h2, h3, h4, _⟩ := depthSearchRange_size bp hc
  obtain ⟨depth, hs, hlen, hd⟩ := getBreakendDepth_of_normal scorer bp i bamStream hnormal
  exact ⟨h1, h2, h3, h4, depth, hs, hlen, hd,
    getBreakendMaxMappedDepth_of_depth scorer bp depth hd (by rw [hlen]; exact h4)⟩

/-- When some file is not a tumor file there is a first one. -/
theorem exists_firstNormal (scorer : SVScorer)
    (h : ∃ j : Nat, j < scorer._bamStreams.length ∧
      scorer._isAlignmentTumor.getD j false = false) :
    ∃ (i : Nat) (bamStream : bam_streamer), IsFirstNormal scorer i bamStream := by
  classical
  have hfind := Nat.find_spec h
  have hmin := fun j => Nat.find_min (H := h) (m := j)
  refine ⟨Nat.find h, scorer._bamStreams.get ⟨Nat.find h, hfind.1⟩, ?_, hfind.2, ?_⟩
  · intro j hj
    have := hmin j hj
    by_contra hc
    apply this
    exact ⟨lt_trans hj hfind.1, by simpa using hc⟩
  · rw [List.get?_eq_get hfind.1]

/-- The assertion `isNormalFound` fails exactly when every file is a tumor
file. -/
theorem getBreakendMaxMappedDepth_assert_iff (scorer : SVScorer) (bp : SVBreakend) :
    getBreakendMaxMappedDepth scorer bp = Except.error DepthFailure.AssertionFailure ↔
      ∀ j : Nat, j < scorer._bamStreams.length →
        scorer._isAlignmentTumor.getD j false = true := by
  constructor
  · intro h
    by_contra hc
    push_neg at hc
    obtain ⟨j, hj, hjf⟩ := hc
    obtain ⟨i, bamStream, hn⟩ := exists_firstNormal scorer ⟨j, hj, by simpa using hjf⟩
    obtain ⟨depth, _, _, hd⟩ := getBreakendDepth_of_normal scorer bp i bamStream hn
    unfold getBreakendMaxMappedDepth at h
    rw [hd] at h
    cases depth with
    | nil => simp at h
    | cons d rest => simp at h
  · intro h
    unfold getBreakendMaxMappedDepth getBreakendDepth
    dsimp only
    rw [addFirstNormalToDepthEst_none scorer bp _ _ _
      (fun j hj => h j (List.mem_range.mp hj))]
    rfl

/-- C24: for a scorer with one tumor flag per alignment file, the assertion
`isNormalFound` fails exactly when every flag is true (also when there is no
file at all); when some flag is false and the center of the breakend is not
negative, a depth is returned. -/
theorem getBreakendMaxMappedDepth_assertion (scorer : SVScorer) (bp : SVBreakend)
    (hlen : scorer._isAlignmentTumor.length = scorer._bamStreams.length) :
    (getBreakendMaxMappedDepth scorer bp = Except.error DepthFailure.AssertionFailure ↔
      ∀ b ∈ scorer._isAlignmentTumor, b = true) ∧
    (0 ≤ bp.interval.range.center_pos →
      (∃ b ∈ scorer._isAlignmentTumor, b = false) →
      ∃ m, getBreakendMaxMappedDepth scorer bp = Except.ok m) := by
  have hflags : (∀ j : Nat, j < scorer._bamStreams.length →
      scorer._isAlignmentTumor.getD j false = true) ↔
      ∀ b ∈ scorer._isAlignmentTumor, b = true := by
    constructor
    · intro h b hb
      obtain ⟨j, hj, hjb⟩ := List.getElem_of_mem hb
      have := h j (by rw [← hlen]; exact hj)
      rw [List.getD_eq_getElem _ _ hj, hjb] at this
      exact this
    · intro h j hj
      have hj2 : j < scorer._isAlignmentTumor.length := by rw [hlen]; exact hj
      rw [List.getD_eq_getElem _ _ hj2]
      exact h _ (List.getElem_mem _)
  refine ⟨(getBreakendMaxMappedDepth_assert_iff scorer bp).trans hflags, ?_⟩
  intro hc ⟨b, hb, hbf⟩
  obtain ⟨j, hj, hjb⟩ := List.getElem_of_mem hb
  obtain ⟨i, bamStream, hn⟩ := exists_firstNormal scorer
    ⟨j, by rw [← hlen]; exact hj, by rw [List.getD_eq_getElem _ _ hj, hjb, hbf]⟩
  obtain ⟨depth, _, hl, hd⟩ := getBreakendDepth_of_normal scorer bp i bamStream hn
  obtain ⟨m, hm, _⟩ := getBreakendMaxMappedDepth_of_depth scorer bp depth hd
    (by rw [hl]; exact (depthSearchRange_size bp hc).2.2.2.1)
  exact ⟨m, hm⟩

/-- The second file of `depthScorer` is its first normal file. -/
theorem depthScorer_firstNormal :
    IsFirstNormal depthScorer 1 (repeatedRecordStream 3 (read200M 60)) :=
  ⟨by intro j hj; interval_cases j; rfl, rfl, rfl⟩

/-- C21 at a concrete input: three `200M` reads over the range `[50, 150)` give the
depth 3. -/
theorem getBreakendMaxMappedDepth_pileup_witness :
    0 ≤ depthBreakend.interval.range.center_pos ∧
      IsFirstNormal depthScorer 1 (repeatedRecordStream 3 (read200M 60)) ∧
      getBreakendMaxMappedDepth depthScorer depthBreakend = Except.ok 3 :=
  ⟨by decide, depthScorer_firstNormal,
    (getBreakendMaxMappedDepth_pileup depthScorer depthBreakend 1
      (repeatedRecordStream 3 (read200M 60)) 3 (read200M 60) 200 (by decide)
      depthScorer_firstNormal rfl rfl rfl (by decide)).2 (by decide) (by decide)⟩

/-- C22 as stated fails: a mapped read whose mapping quality 0 is below the
minimum mapping quality of the scorer is counted, the depth is 1. -/
theorem unanchoredRead_counted :
    (read200M 0).map_qual < unanchoredDepthScorer.minMapQ ∧
      (read200M 0).is_unmapped = false ∧
      getBreakendMaxMappedDepth unanchoredDepthScorer depthBreakend = Except.ok 1 :=
  ⟨by decide, rfl,
    (getBreakendDepth_replicate unanchoredDepthScorer depthBreakend 0
      (repeatedRecordStream 1 (read200M 0)) 1 (read200M 0) 200 (by decide)
      ⟨by intro j hj; omega, rfl, rfl⟩ rfl rfl rfl (by decide)).2 (by decide) (by decide)⟩

/-- C22 (amended) at a concrete input: marking every record of `depthScorer` as a
duplicate of mapping quality 0 does not change the depth. -/
theorem getBreakendMaxMappedDepth_mapped_only_witness :
    getBreakendMaxMappedDepth
        (depthScorer.mapRecords (List.filter (fun r => !r.is_unmapped))) depthBreakend =
      getBreakendMaxMappedDepth depthScorer depthBreakend ∧
    getBreakendMaxMappedDepth
        (depthScorer.mapRecords
          (List.map (fun r => { r with map_qual := 0, is_dup := true }))) depthBreakend =
      getBreakendMaxMappedDepth depthScorer depthBreakend :=
  getBreakendMaxMappedDepth_mapped_only depthScorer depthBreakend
    (fun r => { r with map_qual := 0, is_dup := true }) (fun _ => ⟨rfl, rfl, rfl⟩)

/-- C23 at a concrete input: the search range of `depthBreakend` is `[50, 150)`
with 100 counters. -/
theorem getBreakendMaxMappedDepth_region_witness :
    (depthSearchRange depthBreakend).begin_pos = 50 ∧
      (depthSearchRange depthBreakend).end_pos = 150 ∧
      (depthSearchRange depthBreakend).size = 100 ∧
      ∃ depth, streamDepth depthBreakend (repeatedRecordStream 3 (read200M 60)) =
          some depth ∧
        depth.length = (depthSearchRange depthBreakend).size ∧
        getBreakendDepth depthScorer depthBreakend = Except.ok depth ∧
        ∃ m, getBreakendMaxMappedDepth depthScorer depthBreakend = Except.ok m ∧
          m ∈ depth ∧ ∀ d ∈ depth, d ≤ m :=
  ⟨by decide, by decide, by decide,
    (getBreakendMaxMappedDepth_region depthScorer depthBreakend 1
      (repeatedRecordStream 3 (read200M 60)) (by decide) depthScorer_firstNormal).2.2.2.2⟩

/-- C24 at concrete inputs: `depthScorer` has a normal file and returns a depth,
while a scorer with one tumor file only fails the assertion. -/
theorem getBreakendMaxMappedDepth_assertion_witness :
    depthScorer._isAlignmentTumor.length = depthScorer._bamStreams.length ∧
      (∃ m, getBreakendMaxMappedDepth depthScorer depthBreakend = Except.ok m) ∧
      getBreakendMaxMappedDepth
          (thresholdScorer 100 [true] [singleRecordStream exampleSplitRead]) depthBreakend =
        Except.error DepthFailure.AssertionFailure :=
  ⟨rfl,
    (getBreakendMaxMappedDepth_assertion depthScorer depthBreakend rfl).2 (by decide)
      ⟨false, by decide, rfl⟩,
    (getBreakendMaxMappedDepth_assertion
      (thresholdScorer 100 [true] [singleRecordStream exampleSplitRead]) depthBreakend
      rfl).1.mpr (by decide)⟩

/-! ## The gate of `getSVSplitReadSupport`, continued -/

/-- C25: under the gate condition (imprecise SV, or both depth filters enabled and a
breakend depth above twice the larger threshold) `getSVSplitReadSupport`
returns the score info and the evidence store as they were, whatever the
streams hold; on a score info whose sample records are cleared the split-read
count, evidence and mapping quality of both alleles of both samples are 0. -/
theorem getSVSplitReadSupport_skipped (scorer : SVScorer) (c : SplitReadCollaborators)
    (sqrt : ℚ → ℚ) (SVAlignInfo : SVAlignmentInfo) (sv : SVCandidate)
    (baseInfo : SVScoreInfo) (evidence : SVEvidence)
    (h : SkipsSplitReadWork scorer sv baseInfo) :
    getSVSplitReadSupport scorer c sqrt SVAlignInfo sv baseInfo evidence =
        (baseInfo, evidence) ∧
      (∀ streams : List bam_streamer,
        getSVSplitReadSupport { scorer with _bamStreams := streams } c sqrt SVAlignInfo sv
          baseInfo evidence = (baseInfo, evidence)) ∧
      (baseInfo.normal = {} → baseInfo.tumor = {} →
        ∀ allele ∈
          [(getSVSplitReadSupport scorer c sqrt SVAlignInfo sv baseInfo evidence).1.normal.alt,
            (getSVSplitReadSupport scorer c sqrt SVAlignInfo sv baseInfo evidence).1.normal.ref,
            (getSVSplitReadSupport scorer c sqrt SVAlignInfo sv baseInfo evidence).1.tumor.alt,
            (getSVSplitReadSupport scorer c sqrt SVAlignInfo sv baseInfo evidence).1.tumor.ref],
          allele.splitReadCount = 0 ∧ allele.splitReadEvidence = 0 ∧
            allele.splitReadMapQ = 0) := by
  have h1 : getSVSplitReadSupport scorer c sqrt SVAlignInfo sv baseInfo evidence =
      (baseInfo, evidence) := by
    rw [getSVSplitReadSupport_eq, if_pos h]
  refine ⟨h1, ?_, ?_⟩
  · intro streams
    have h2 : SkipsSplitReadWork { scorer with _bamStreams := streams } sv baseInfo := h
    rw [getSVSplitReadSupport_eq, if_pos h2]
  · intro hn ht allele hmem
    rw [h1] at hmem
    simp only [hn, ht, List.mem_cons, List.mem_singleton, List.not_mem_nil, or_false,
      or_self] at hmem
    subst hmem
    exact ⟨rfl, rfl, rfl⟩

/-- C25 at a concrete input: an imprecise SV on a scorer whose stream holds a read. -/
theorem getSVSplitReadSupport_skipped_witness :
    SkipsSplitReadWork depthScorer { isImprecise := true } {} ∧
      getSVSplitReadSupport depthScorer exampleCollaborators sqrtModel {}
        { isImprecise := true } {} {} = ({}, {}) :=
  ⟨Or.inl rfl,
    (getSVSplitReadSupport_skipped depthScorer exampleCollaborators sqrtModel {}
      { isImprecise := true } {} {} (Or.inl rfl)).1⟩

/-! ## `scoreSV` -/

/-- C26: the result of `scoreSV` does not depend on what `modelScoreInfo` held
before the call: two calls on the same inputs with different prior records
end alike, and a second call on the record that the first call returned
returns that record again. -/
theorem scoreSV_reset {SetData AssemblyData : Type} (scorer : SVScorer)
    (opts : SVScorerOptions) (k : ScoreSVCollaborators SetData AssemblyData)
    (svData : SetData) (assemblyData : AssemblyData) (sv : SVCandidate) (isSomatic : Bool)
    (modelScoreInfo1 modelScoreInfo2 : SVModelScoreInfo) :
    scoreSV scorer opts k svData assemblyData sv isSomatic modelScoreInfo1 =
        scoreSV scorer opts k svData assemblyData sv isSomatic modelScoreInfo2 ∧
      ∀ r : SVModelScoreInfo,
        scoreSV scorer opts k svData assemblyData sv isSomatic modelScoreInfo1 =
          Except.ok r →
        scoreSV scorer opts k svData assemblyData sv isSomatic r = Except.ok r := by
  have h : ∀ m1 m2 : SVModelScoreInfo,
      scoreSV scorer opts k svData assemblyData sv isSomatic m1 =
        scoreSV scorer opts k svData assemblyData sv isSomatic m2 := by
    intro m1 m2
    unfold scoreSV SVModelScoreInfo.clear
    rfl
  refine ⟨h _ _, ?_⟩
  intro r hr
  rw [h r modelScoreInfo1, hr]

/-- C27: when the two depth estimates and the evidence summary succeed, `scoreSV`
returns the score info that went through the depths, the pair support, the
split-read support and the summary in this order, the diploid record computed
from it and from the collected evidence, and the somatic record computed from
it when `isSomatic` is true; with `isSomatic` false the somatic record is the
cleared one, with score 0 and no filter. -/
theorem scoreSV_pipeline {SetData AssemblyData : Type} (scorer : SVScorer)
    (opts : SVScorerOptions) (k : ScoreSVCollaborators SetData AssemblyData)
    (svData : SetData) (assemblyData : AssemblyData) (sv : SVCandidate) (isSomatic : Bool)
    (modelScoreInfo : SVModelScoreInfo) (bp1MaxDepth bp2MaxDepth : Nat)
    (pair split : SVScoreInfo × SVEvidence) (base : SVScoreInfo)
    (hbp1 : getBreakendMaxMappedDepth scorer sv.bp1 = Except.ok bp1MaxDepth)
    (hbp2 : getBreakendMaxMappedDepth scorer sv.bp2 = Except.ok bp2MaxDepth)
    (hpair : k.getSVPairSupport svData sv
      { bp1MaxDepth := bp1MaxDepth, bp2MaxDepth := bp2MaxDepth } {} = pair)
    (hsplit : getSVSplitReadSupport scorer k.split k.sqrt (k.SVAlignInfo sv assemblyData) sv
      pair.1 pair.2 = split)
    (hsummary : getSVSupportSummary k.exp split.2 split.1 = Except.ok base) :
    scoreSV scorer opts k svData assemblyData sv isSomatic modelScoreInfo =
        Except.ok
          { base := base,
            diploid := scoreDiploidSV k.error_prob_to_qphred opts._diploidOpt
              opts._diploidDopt sv scorer._dFilterDiploid split.2 base {},
            somatic :=
              if isSomatic then
                scoreSomaticSV opts._somaticOpt sv scorer._dFilterSomatic base {}
              else {} } ∧
      (isSomatic = false →
        ∃ r, scoreSV scorer opts k svData assemblyData sv isSomatic modelScoreInfo =
            Except.ok r ∧ r.somatic.somaticScore = 0 ∧ r.somatic.filters = ∅ ∧
          r.diploid = scoreDiploidSV k.error_prob_to_qphred opts._diploidOpt
            opts._diploidDopt sv scorer._dFilterDiploid split.2 base {}) := by
  have hmain : scoreSV scorer opts k svData assemblyData sv isSomatic modelScoreInfo =
      Except.ok
        { base := base,
          diploid := scoreDiploidSV k.error_prob_to_qphred opts._diploidOpt
            opts._diploidDopt sv scorer._dFilterDiploid split.2 base {},
          somatic :=
            if isSomatic then
              scoreSomaticSV opts._somaticOpt sv scorer._dFilterSomatic base {}
            else {} } := by
    subst hpair hsplit
    unfold scoreSV scoreSVShared SVModelScoreInfo.clear
    simp only [hbp1, hbp2]
    have hs := hsummary
    simp only [hs]
  refine ⟨hmain, ?_⟩
  intro hfalse
  subst hfalse
  exact ⟨_, hmain, rfl, rfl, rfl⟩

/-- The depth that `depthScorer` reports at `depthBreakend` is 3. -/
theorem depthScorer_depth :
    getBreakendMaxMappedDepth depthScorer depthBreakend = Except.ok 3 :=
  (getBreakendDepth_replicate depthScorer depthBreakend 1
    (repeatedRecordStream 3 (read200M 60)) 3 (read200M 60) 200 (by decide)
    depthScorer_firstNormal rfl rfl rfl (by decide)).2 (by decide) (by decide)

/-- C27 at a concrete input: an imprecise SV scored with `isSomatic` false on
`depthScorer`. -/
theorem scoreSV_pipeline_witness :
    getBreakendMaxMappedDepth depthScorer depthCandidate.bp1 = Except.ok 3 ∧
      ∃ r, scoreSV depthScorer exampleScorerOptions exampleScoreSVCollaborators () ()
            depthCandidate false { somatic := { somaticScore := 60 } } = Except.ok r ∧
        r.somatic.somaticScore = 0 ∧ r.somatic.filters = ∅ ∧
        r.diploid = scoreDiploidSV qphredModel diploidOptDefault uniformPrior depthCandidate
          depthScorer._dFilterDiploid {} { bp1MaxDepth := 3, bp2MaxDepth := 3 } {} :=
  ⟨depthScorer_depth,
    (scoreSV_pipeline depthScorer exampleScorerOptions exampleScoreSVCollaborators () ()
      depthCandidate false { somatic := { somaticScore := 60 } } 3 3
      ({ bp1MaxDepth := 3, bp2MaxDepth := 3 }, {}) ({ bp1MaxDepth := 3, bp2MaxDepth := 3 }, {})
      { bp1MaxDepth := 3, bp2MaxDepth := 3 } depthScorer_depth depthScorer_depth rfl rfl
      rfl).2 rfl⟩

/-! ## The diploid model without evidence -/

/-- Adding a logarithm to 0 returns it. -/
theorem lnVal_zero_add (a : LnVal) : 0 + a = a := by
  cases a with
  | mk x =>
    show LnVal.add { arg := 1 } { arg := x } = { arg := x }
    unfold LnVal.add
    simp

/-- Without fragments in the normal track the posterior is the normalized
prior. -/
theorem diploidPosterior_no_evidence (diploidDopt : CallOptionsDiploidDeriv)
    (evidence : SVEvidence) (hempty : evidence.normal = []) :
    diploidPosterior diploidDopt evidence = priorProb diploidDopt ∧
      diploidMaxGt diploidDopt evidence = normalize_ln_distro_max diploidDopt.prior := by
  have h : (fun gt => diploidLoglhood evidence.normal gt + diploidDopt.prior gt) =
      diploidDopt.prior := by
    funext gt
    rw [hempty]
    exact lnVal_zero_add _
  unfold diploidPosterior diploidMaxGt
  rw [h]
  exact ⟨rfl, rfl⟩

/-- C28 (amended): for an SV with no evidence in the normal track, the diploid
model reports `alt_score = phred(p)` where `p` is the normalized prior
probability of HOMREF, the called genotype being the one of largest prior. -/
theorem scoreDiploidSV_no_evidence (error_prob_to_qphred : ℚ → Nat)
    (diploidOpt : CallOptionsDiploid) (diploidDopt : CallOptionsDiploidDeriv)
    (sv : SVCandidate) (dFilter : ChromDepthFilterUtil) (evidence : SVEvidence)
    (baseInfo : SVScoreInfo) (diploidInfo : SVScoreInfoDiploid)
    (hempty : evidence.normal = []) :
    (scoreDiploidSV error_prob_to_qphred diploidOpt diploidDopt sv dFilter evidence baseInfo
        diploidInfo).altScore = error_prob_to_qphred (priorProb diploidDopt DIPLOID_GT.REF) ∧
      (scoreDiploidSV error_prob_to_qphred diploidOpt diploidDopt sv dFilter evidence baseInfo
        diploidInfo).gt = normalize_ln_distro_max diploidDopt.prior := by
  obtain ⟨h1, h2⟩ := diploidPosterior_no_evidence diploidDopt evidence hempty
  unfold scoreDiploidSV
  dsimp only
  rw [h1, h2]
  exact ⟨rfl, rfl⟩

/-- The search stops at the first `n` with `p ^ 20 * 10 ^ (2 n + 1) > 1`, the
nearest integer to `-10 log10 p`, when the fuel reaches that far. -/
theorem qphredSearch_eq (p : ℚ) (n : Nat)
    (hlow : ∀ m : Nat, m < n → p ^ 20 * 10 ^ (2 * m + 1) ≤ 1)
    (hstop : ¬ p ^ 20 * 10 ^ (2 * n + 1) ≤ 1) :
    ∀ (fuel start : Nat), start ≤ n → n - start < fuel → qphredSearch p fuel start = n := by
  intro fuel
  induction fuel with
  | zero => intro start _ h; omega
  | succ fuel ih =>
    intro start h1 h2
    rw [qphredSearch]
    by_cases hs : start = n
    · subst hs
      rw [if_neg hstop]
    · have hlt : start < n := lt_of_le_of_ne h1 hs
      rw [if_pos (hlow start hlt)]
      exact ih (start + 1) hlt (by omega)

/-- The phred model answers 5 for the probability 1/3. -/
theorem qphredModel_third : qphredModel (1 / 3) = 5 := by
  unfold qphredModel
  apply qphredSearch_eq (1 / 3) 5 _ _ 3000 0 (by omega) (by omega)
  · intro m hm
    interval_cases m <;> norm_num
  · norm_num

/-- The phred model answers 0 for the probability 199997/200000. -/
theorem qphredModel_sharp : qphredModel (199997 / 200000) = 0 := by
  unfold qphredModel
  apply qphredSearch_eq (199997 / 200000) 0 _ _ 3000 0 (by omega) (by omega)
  · intro m hm
    omega
  · norm_num

/-- C28 as stated fails: with an empty evidence store and the uniform prior the
diploid model reports `alt_score = 5`, the phred value of 1/3. -/
theorem noEvidence_altScore_not_zero :
    (scoreDiploidSV qphredModel diploidOptDefault uniformPrior {} noDepthFilter {} {}
      {}).altScore = 5 := by
  have h : priorProb uniformPrior DIPLOID_GT.REF = 1 / 3 := by
    unfold priorProb uniformPrior LnVal.exp LnVal.log
    norm_num
  have h2 := (diploidPosterior_no_evidence uniformPrior {} rfl).1
  unfold scoreDiploidSV
  dsimp only
  rw [h2, h, qphredModel_third]

/-- C28 (amended) at a concrete input: with a prior of `1 - 1.5e-5` on HOMREF the
empty evidence store gives `alt_score = 0`. -/
theorem scoreDiploidSV_no_evidence_witness :
    ({} : SVEvidence).normal = [] ∧
      (scoreDiploidSV qphredModel diploidOptDefault sharpPrior {} noDepthFilter {} {}
        {}).altScore = 0 := by
  refine ⟨rfl, ?_⟩
  rw [(scoreDiploidSV_no_evidence qphredModel diploidOptDefault sharpPrior {} noDepthFilter
    {} {} {} rfl).1]
  have h : priorProb sharpPrior DIPLOID_GT.REF = 199997 / 200000 := by
    unfold priorProb sharpPrior LnVal.exp LnVal.log
    norm_num
  rw [h, qphredModel_sharp]

/-! ## Records that `scoreSplitReads` passes over -/

/-- A key is present after a store when it is the stored key or was present. -/
theorem evidenceFind_assign_isSome (qname k : String) (v : SVFragmentEvidence)
    (m : evidenceTrack_t) (h : k = qname ∨ (evidenceFind k m).isSome = true) :
    (evidenceFind k (evidenceAssign qname v m)).isSome = true := by
  induction m with
  | nil =>
    rcases h with h | h
    · simp [evidenceAssign, evidenceFind, h]
    · simp [evidenceFind] at h
  | cons kw rest ih =>
    obtain ⟨k1, w⟩ := kw
    unfold evidenceAssign
    by_cases h1 : qname = k1
    · rw [if_pos h1]
      by_cases h2 : k = k1
      · simp [evidenceFind, h2]
      · rcases h with h | h
        · exact absurd (h.trans h1) h2
        · simpa [evidenceFind, h2] using h
    · rw [if_neg h1]
      by_cases h3 : qname.toList < k1.toList
      · rw [if_pos h3]
        by_cases h4 : k = qname
        · simp [evidenceFind, h4]
        · rcases h with h | h
          · exact absurd h h4
          · simpa [evidenceFind, h4] using h
      · rw [if_neg h3]
        by_cases h2 : k = k1
        · simp [evidenceFind, h2]
        · simp only [evidenceFind, if_neg h2]
          apply ih
          rcases h with h | h
          · left; exact h
          · right; simpa [evidenceFind, h2] using h

/-- A record with one of the four flags is passed over without any change of
state. -/
theorem scoreSplitRead_filtered (c : SplitReadCollaborators) (svAlignInfo : SVAlignmentInfo)
    (minMapQ : Nat) (bamRead : bam_record) (st : evidenceTrack_t × SVSampleInfo)
    (h : isSplitReadFiltered bamRead = true) :
    scoreSplitRead c svAlignInfo minMapQ bamRead st = st := by
  unfold isSplitReadFiltered at h
  unfold scoreSplitRead
  split_ifs with h1 h2 h3 h4
  · rfl
  · rfl
  · rfl
  · rfl
  all_goals simp [h1, h2, h3, h4] at h

/-- After one loop iteration the keys that were present are present, and so is
the key of a record that is not passed over. -/
theorem scoreSplitRead_isSome (c : SplitReadCollaborators) (svAlignInfo : SVAlignmentInfo)
    (minMapQ : Nat) (bamRead : bam_record) (st : evidenceTrack_t × SVSampleInfo)
    (k : String)
    (h : (isSplitReadFiltered bamRead = false ∧ k = bamRead.qname) ∨
      (evidenceFind k st.1).isSome = true) :
    (evidenceFind k (scoreSplitRead c svAlignInfo minMapQ bamRead st).1).isSome = true := by
  by_cases hf : isSplitReadFiltered bamRead = true
  · rw [scoreSplitRead_filtered c svAlignInfo minMapQ bamRead st hf]
    rcases h with h | h
    · rw [hf] at h; cases h.1
    · exact h
  · have h' : k = bamRead.qname ∨ (evidenceFind k st.1).isSome = true := by
      rcases h with h | h
      · left; exact h.2
      · right; exact h
    unfold isSplitReadFiltered at hf
    unfold scoreSplitRead
    dsimp only
    split_ifs with h1 h2 h3 h4 h5
    · simp [h1] at hf
    · simp [h2] at hf
    · simp [h3] at hf
    · simp [h4] at hf
    · exact evidenceFind_assign_isSome _ _ _ _ h'
    · exact evidenceFind_assign_isSome _ _ _ _ h'

/-- The record loop gives the same result on the stream without the records
that are passed over. -/
theorem scoreSplitReadRecords_filter (c : SplitReadCollaborators)
    (svAlignInfo : SVAlignmentInfo) (minMapQ : Nat) (records : List bam_record) :
    ∀ st : evidenceTrack_t × SVSampleInfo,
      scoreSplitReadRecords c svAlignInfo minMapQ
          (records.filter (fun r => !isSplitReadFiltered r)) st =
        scoreSplitReadRecords c svAlignInfo minMapQ records st := by
  induction records with
  | nil => intro st; rfl
  | cons r rest ih =>
    intro st
    by_cases hf : isSplitReadFiltered r = true
    · rw [List.filter_cons_of_neg (by simp [hf]), ih st]
      unfold scoreSplitReadRecords
      rw [List.foldl_cons, scoreSplitRead_filtered c svAlignInfo minMapQ r st hf]
    · rw [List.filter_cons_of_pos (by simpa using hf)]
      unfold scoreSplitReadRecords
      rw [List.foldl_cons, List.foldl_cons]
      exact ih _

/-- The record loop keeps every key of the track and adds the key of every record
that is not passed over. -/
theorem scoreSplitReadRecords_isSome (c : SplitReadCollaborators)
    (svAlignInfo : SVAlignmentInfo) (minMapQ : Nat) (k : String)
    (records : List bam_record) :
    ∀ st : evidenceTrack_t × SVSampleInfo,
      ((∃ r ∈ records, isSplitReadFiltered r = false ∧ k = r.qname) ∨
        (evidenceFind k st.1).isSome = true) →
      (evidenceFind k (scoreSplitReadRecords c svAlignInfo minMapQ records st).1).isSome =
        true := by
  induction records with
  | nil =>
    intro st h
    rcases h with ⟨r, hr, _⟩ | h
    · cases hr
    · exact h
  | cons r rest ih =>
    intro st h
    unfold scoreSplitReadRecords
    rw [List.foldl_cons]
    apply ih
    rcases h with ⟨r2, hr2, hf, hk⟩ | h
    · rcases List.mem_cons.mp hr2 with h2 | h2
      · subst h2
        right
        exact scoreSplitRead_isSome c svAlignInfo minMapQ r2 st k (Or.inl ⟨hf, hk⟩)
      · left; exact ⟨r2, h2, hf, hk⟩
    · right
      exact scoreSplitRead_isSome c svAlignInfo minMapQ r st k (Or.inr h)

/-- C29: in `scoreSplitReads` a record flagged filtered, duplicate, secondary or
supplementary leaves the evidence track and the sample record exactly as they
were, so that the function returns what it returns on the stream without these
records; the fragment name of every other record of the stream has an entry in
the track that is returned. -/
theorem scoreSplitReads_skips_flagged (c : SplitReadCollaborators) (bp : SVBreakend)
    (svAlignInfo : SVAlignmentInfo) (minMapQ : Nat) (sampleEvidence : evidenceTrack_t)
    (readStream : bam_streamer) (sample : SVSampleInfo) :
    (∀ (bamRead : bam_record) (st : evidenceTrack_t × SVSampleInfo),
      (bamRead.is_filter = true ∨ bamRead.is_dup = true ∨ bamRead.is_secondary = true ∨
        bamRead.is_supplement = true) →
      scoreSplitRead c svAlignInfo minMapQ bamRead st = st) ∧
    scoreSplitReads c bp svAlignInfo minMapQ sampleEvidence readStream sample =
      scoreSplitReadRecords c svAlignInfo minMapQ
        ((readStream.records bp.interval.tid bp.interval.range.begin_pos
          bp.interval.range.end_pos).filter
          (fun r => !(r.is_filter || r.is_dup || r.is_secondary || r.is_supplement)))
        (sampleEvidence, sample) ∧
    (∀ bamRead ∈ readStream.records bp.interval.tid bp.interval.range.begin_pos
        bp.interval.range.end_pos,
      bamRead.is_filter = false → bamRead.is_dup = false → bamRead.is_secondary = false →
      bamRead.is_supplement = false →
      (evidenceFind bamRead.qname
        (scoreSplitReads c bp svAlignInfo minMapQ sampleEvidence readStream sample).1).isSome =
        true) := by
  refine ⟨?_, ?_, ?_⟩
  · intro bamRead st h
    apply scoreSplitRead_filtered
    unfold isSplitReadFiltered
    rcases h with h | h | h | h <;> simp [h]
  · unfold scoreSplitReads
    exact (scoreSplitReadRecords_filter c svAlignInfo minMapQ _ _).symm
  · intro bamRead hmem h1 h2 h3 h4
    unfold scoreSplitReads
    apply scoreSplitReadRecords_isSome
    left
    refine ⟨bamRead, hmem, ?_, rfl⟩
    unfold isSplitReadFiltered
    simp [h1, h2, h3, h4]

/-! ## The search of `getSVSplitReadSupport` -/

/-- Reading a track after writing the track of sample `b`. -/
theorem SVEvidence.getSample_setSample (e : SVEvidence) (b b2 : Bool) (t : evidenceTrack_t) :
    (e.setSample b t).getSample b2 = if b2 = b then t else e.getSample b2 := by
  cases b <;> cases b2 <;> rfl

/-- One file of the split-read search keeps every key of both tracks and adds, to
the track of the file's sample, the key of every record of its two breakend
regions that is not passed over. -/
theorem scoreSplitReadsOfFile_isSome (scorer : SVScorer) (c : SplitReadCollaborators)
    (SVAlignInfo : SVAlignmentInfo) (sv : SVCandidate) (st : SVScoreInfo × SVEvidence)
    (bamIndex : Nat) (k : String) (isTumor : Bool)
    (h : (evidenceFind k (st.2.getSample isTumor)).isSome = true ∨
      ∃ bamStream, scorer._bamStreams.get? bamIndex = some bamStream ∧
        scorer._isAlignmentTumor.getD bamIndex false = isTumor ∧
        ∃ r ∈ bamStream.records sv.bp1.interval.tid sv.bp1.interval.range.begin_pos
              sv.bp1.interval.range.end_pos ++
            bamStream.records sv.bp2.interval.tid sv.bp2.interval.range.begin_pos
              sv.bp2.interval.range.end_pos,
          isSplitReadFiltered r = false ∧ k = r.qname) :
    (evidenceFind k
      ((scoreSplitReadsOfFile scorer c SVAlignInfo sv st bamIndex).2.getSample isTumor)).isSome =
      true := by
  unfold scoreSplitReadsOfFile
  cases hs : scorer._bamStreams.get? bamIndex with
  | none =>
    rcases h with h | ⟨s, hs2, _⟩
    · exact h
    · rw [hs] at hs2; cases hs2
  | some bamStream =>
    dsimp only
    rw [SVEvidence.getSample_setSample]
    by_cases hb : isTumor = scorer._isAlignmentTumor.getD bamIndex false
    · rw [if_pos hb]
      unfold scoreSplitReads
      apply scoreSplitReadRecords_isSome
      rcases h with h | ⟨s, hs2, _, r, hr, hf, hk⟩
      · right
        apply scoreSplitReadRecords_isSome
        right
        rw [← hb]
        exact h
      · rw [hs] at hs2
        cases hs2
        rcases List.mem_append.mp hr with h1 | h2
        · right
          apply scoreSplitReadRecords_isSome
          left
          exact ⟨r, h1, hf, hk⟩
        · left
          exact ⟨r, h2, hf, hk⟩
    · rw [if_neg hb]
      rcases h with h | ⟨s, _, hb2, _⟩
      · exact h
      · exact absurd hb2.symm hb

/-- The loop over the alignment files keeps every key of both tracks and adds the
key of every record of a visited file that is not passed over. -/
theorem scoreSplitReadsOfFiles_isSome (scorer : SVScorer) (c : SplitReadCollaborators)
    (SVAlignInfo : SVAlignmentInfo) (sv : SVCandidate) (k : String) (isTumor : Bool)
    (indices : List Nat) :
    ∀ st : SVScoreInfo × SVEvidence,
      ((evidenceFind k (st.2.getSample isTumor)).isSome = true ∨
        ∃ bamIndex ∈ indices, ∃ bamStream,
          scorer._bamStreams.get? bamIndex = some bamStream ∧
          scorer._isAlignmentTumor.getD bamIndex false = isTumor ∧
          ∃ r ∈ bamStream.records sv.bp1.interval.tid sv.bp1.interval.range.begin_pos
                sv.bp1.interval.range.end_pos ++
              bamStream.records sv.bp2.interval.tid sv.bp2.interval.range.begin_pos
                sv.bp2.interval.range.end_pos,
            isSplitReadFiltered r = false ∧ k = r.qname) →
      (evidenceFind k
        ((indices.foldl (scoreSplitReadsOfFile scorer c SVAlignInfo sv) st).2.getSample
          isTumor)).isSome = true := by
  induction indices with
  | nil =>
    intro st h
    rcases h with h | ⟨i, hi, _⟩
    · exact h
    · cases hi
  | cons i rest ih =>
    intro st h
    rw [List.foldl_cons]
    apply ih
    rcases h with h | ⟨j, hj, hrest⟩
    · left
      exact scoreSplitReadsOfFile_isSome scorer c SVAlignInfo sv st i k isTumor (Or.inl h)
    · rcases List.mem_cons.mp hj with h1 | h2
      · subst h1
        left
        exact scoreSplitReadsOfFile_isSome scorer c SVAlignInfo sv st j k isTumor (Or.inr hrest)
      · right
        exact ⟨j, h2, hrest⟩

/-- The split-read search registers the fragment of every record that is not
passed over: for every alignment file and every such record of one of its two
breakend regions, the track of the file's sample has an entry under the name of
the record. -/
theorem splitReadSearch_isSome (scorer : SVScorer) (c : SplitReadCollaborators)
    (sqrt : ℚ → ℚ) (SVAlignInfo : SVAlignmentInfo) (sv : SVCandidate)
    (baseInfo : SVScoreInfo) (evidence : SVEvidence)
    (bamIndex : Nat) (bamStream : bam_streamer)
    (hs : scorer._bamStreams.get? bamIndex = some bamStream)
    (bamRead : bam_record)
    (hmem : bamRead ∈ bamStream.records sv.bp1.interval.tid sv.bp1.interval.range.begin_pos
        sv.bp1.interval.range.end_pos ++
      bamStream.records sv.bp2.interval.tid sv.bp2.interval.range.begin_pos
        sv.bp2.interval.range.end_pos)
    (hf : isSplitReadFiltered bamRead = false) :
    (evidenceFind bamRead.qname
      ((splitReadSearch scorer c sqrt SVAlignInfo sv baseInfo evidence).2.getSample
        (scorer._isAlignmentTumor.getD bamIndex false))).isSome = true := by
  have hlt : bamIndex < scorer._bamStreams.length := by
    by_contra hge
    rw [List.get?_eq_none.mpr (not_lt.mp hge)] at hs
    cases hs
  unfold splitReadSearch
  dsimp only
  apply scoreSplitReadsOfFiles_isSome
  right
  exact ⟨bamIndex, List.mem_range.mpr hlt, bamStream, hs, rfl, bamRead, hmem, hf, rfl⟩

/-- The boundary of the depth gate: with both filters at threshold `t` a precise
SV whose two depths equal `2 t` is not under the gate condition, and a depth of
1000 at bp1 against the threshold 100 is. -/
theorem skipsSplitReadWork_boundary :
    (∀ (t : Nat) (isTumor : List Bool) (streams : List bam_streamer) (bp1 bp2 : SVBreakend)
        (normal tumor : SVSampleInfo),
        ¬ SkipsSplitReadWork (thresholdScorer t isTumor streams)
          { bp1 := bp1, bp2 := bp2, isImprecise := false }
          { normal := normal, tumor := tumor, bp1MaxDepth := 2 * t, bp2MaxDepth := 2 * t }) ∧
      (∀ (isTumor : List Bool) (streams : List bam_streamer) (sv : SVCandidate)
        (normal tumor : SVSampleInfo) (bp2MaxDepth : Nat),
        SkipsSplitReadWork (thresholdScorer 100 isTumor streams) sv
          { normal := normal, tumor := tumor, bp1MaxDepth := 1000,
            bp2MaxDepth := bp2MaxDepth }) := by
  constructor
  · intro t isTumor streams bp1 bp2 normal tumor
    unfold SkipsSplitReadWork thresholdScorer constDepthFilter
    simp
  · intro isTumor streams sv normal tumor bp2MaxDepth
    unfold SkipsSplitReadWork thresholdScorer constDepthFilter
    right
    refine ⟨rfl, rfl, Or.inl ?_⟩
    norm_num

/-- Without the gate condition the function is not the identity on every input:
on one normal file whose stream yields an unflagged record and an empty evidence
store it returns a store with an entry. -/
theorem getSVSplitReadSupport_not_identity (scorer : SVScorer) (sv : SVCandidate)
    (baseInfo : SVScoreInfo) (h : ¬ SkipsSplitReadWork scorer sv baseInfo) :
    getSVSplitReadSupport { scorer with _bamStreams := [singleRecordStream exampleSplitRead] }
      exampleCollaborators sqrtModel {} sv baseInfo {} ≠ (baseInfo, {}) := by
  intro heq
  have h2 : ¬ SkipsSplitReadWork
      { scorer with _bamStreams := [singleRecordStream exampleSplitRead] } sv baseInfo := h
  rw [getSVSplitReadSupport_eq, if_neg h2] at heq
  have hk := splitReadSearch_isSome
    { scorer with _bamStreams := [singleRecordStream exampleSplitRead] }
    exampleCollaborators sqrtModel {} sv baseInfo {} 0 (singleRecordStream exampleSplitRead) rfl
    exampleSplitRead (by simp [singleRecordStream]) rfl
  rw [heq] at hk
  revert hk
  generalize (List.getD scorer._isAlignmentTumor 0 false) = b
  cases b <;> simp [SVEvidence.getSample, evidenceFind]

/-- C6: `getSVSplitReadSupport` skips all split-read work exactly under the gate
condition (imprecise SV, or both depth filters enabled and a breakend depth
above twice the larger threshold of its chromosome).  Under the condition it
returns the score info and the evidence untouched; otherwise it runs the
split-read search, after which every record of an alignment file in one of the
two breakend regions that is not flagged filtered, duplicate, secondary or
supplementary has an entry under its name in the evidence track of the file's
sample.  The condition holds exactly when the function returns its inputs
untouched whatever the streams, the collaborators and the evidence store are.
With both filters at threshold `t` a precise SV with both depths equal to `2 t`
is not skipped: it is searched, and the unflagged record of a normal file is
entered into an empty store; a depth of 1000 at bp1 against a threshold of 100
is skipped. -/
theorem getSVSplitReadSupport_gate :
    (∀ (scorer : SVScorer) (c : SplitReadCollaborators) (sqrt : ℚ → ℚ)
        (SVAlignInfo : SVAlignmentInfo) (sv : SVCandidate) (baseInfo : SVScoreInfo)
        (evidence : SVEvidence),
        getSVSplitReadSupport scorer c sqrt SVAlignInfo sv baseInfo evidence =
          if SkipsSplitReadWork scorer sv baseInfo then (baseInfo, evidence)
          else splitReadSearch scorer c sqrt SVAlignInfo sv baseInfo evidence) ∧
      (∀ (t : Nat) (isTumor : List Bool) (streams : List bam_streamer)
        (c : SplitReadCollaborators) (sqrt : ℚ → ℚ) (SVAlignInfo : SVAlignmentInfo)
        (bp1 bp2 : SVBreakend) (normal tumor : SVSampleInfo) (evidence : SVEvidence),
        getSVSplitReadSupport (thresholdScorer t isTumor streams) c sqrt SVAlignInfo
            { bp1 := bp1, bp2 := bp2, isImprecise := false }
            { normal := normal, tumor := tumor, bp1MaxDepth := 2 * t, bp2MaxDepth := 2 * t }
            evidence =
          splitReadSearch (thresholdScorer t isTumor streams) c sqrt SVAlignInfo
            { bp1 := bp1, bp2 := bp2, isImprecise := false }
            { normal := normal, tumor := tumor, bp1MaxDepth := 2 * t, bp2MaxDepth := 2 * t }
            evidence) ∧
      (∀ (isTumor : List Bool) (streams : List bam_streamer)
        (c : SplitReadCollaborators) (sqrt : ℚ → ℚ) (SVAlignInfo : SVAlignmentInfo)
        (sv : SVCandidate) (normal tumor : SVSampleInfo) (bp2MaxDepth : Nat)
        (evidence : SVEvidence),
        getSVSplitReadSupport (thresholdScorer 100 isTumor streams) c sqrt SVAlignInfo sv
            { normal := normal, tumor := tumor, bp1MaxDepth := 1000,
              bp2MaxDepth := bp2MaxDepth } evidence =
          ({ normal := normal, tumor := tumor, bp1MaxDepth := 1000,
              bp2MaxDepth := bp2MaxDepth }, evidence)) ∧
      (∀ (scorer : SVScorer) (c : SplitReadCollaborators) (sqrt : ℚ → ℚ)
        (SVAlignInfo : SVAlignmentInfo) (sv : SVCandidate) (baseInfo : SVScoreInfo)
        (evidence : SVEvidence),
        ¬ SkipsSplitReadWork scorer sv baseInfo →
        ∀ (bamIndex : Nat) (bamStream : bam_streamer),
          scorer._bamStreams.get? bamIndex = some bamStream →
          ∀ bamRead ∈
              bamStream.records sv.bp1.interval.tid sv.bp1.interval.range.begin_pos
                sv.bp1.interval.range.end_pos ++
              bamStream.records sv.bp2.interval.tid sv.bp2.interval.range.begin_pos
                sv.bp2.interval.range.end_pos,
            bamRead.is_filter = false → bamRead.is_dup = false →
            bamRead.is_secondary = false → bamRead.is_supplement = false →
            (evidenceFind bamRead.qname
              ((getSVSplitReadSupport scorer c sqrt SVAlignInfo sv baseInfo evidence).2.getSample
                (scorer._isAlignmentTumor.getD bamIndex false))).isSome = true) ∧
      (∀ (scorer : SVScorer) (sv : SVCandidate) (baseInfo : SVScoreInfo),
        SkipsSplitReadWork scorer sv baseInfo ↔
          ∀ (streams : List bam_streamer) (c : SplitReadCollaborators) (sqrt : ℚ → ℚ)
            (SVAlignInfo : SVAlignmentInfo) (evidence : SVEvidence),
            getSVSplitReadSupport { scorer with _bamStreams := streams } c sqrt SVAlignInfo sv
              baseInfo evidence = (baseInfo, evidence)) ∧
      (∀ (t : Nat) (isTumor : List Bool) (streams : List bam_streamer) (bp1 bp2 : SVBreakend)
        (normal tumor : SVSampleInfo),
        ¬ SkipsSplitReadWork (thresholdScorer t isTumor streams)
          { bp1 := bp1, bp2 := bp2, isImprecise := false }
          { normal := normal, tumor := tumor, bp1MaxDepth := 2 * t, bp2MaxDepth := 2 * t }) ∧
      (∀ t : Nat,
        (evidenceFind exampleSplitRead.qname
          (getSVSplitReadSupport
            (thresholdScorer t [false] [singleRecordStream exampleSplitRead])
            exampleCollaborators sqrtModel {} { isImprecise := false }
            { bp1MaxDepth := 2 * t, bp2MaxDepth := 2 * t } {}).2.normal).isSome = true ∧
          evidenceFind exampleSplitRead.qname ({} : SVEvidence).normal = none) ∧
      (∀ (isTumor : List Bool) (streams : List bam_streamer) (sv : SVCandidate)
        (normal tumor : SVSampleInfo) (bp2MaxDepth : Nat),
        SkipsSplitReadWork (thresholdScorer 100 isTumor streams) sv
          { normal := normal, tumor := tumor, bp1MaxDepth := 1000,
            bp2MaxDepth := bp2MaxDepth }) := by
  have hsearch : ∀ (scorer : SVScorer) (c : SplitReadCollaborators) (sqrt : ℚ → ℚ)
      (SVAlignInfo : SVAlignmentInfo) (sv : SVCandidate) (baseInfo : SVScoreInfo)
      (evidence : SVEvidence),
      ¬ SkipsSplitReadWork scorer sv baseInfo →
      ∀ (bamIndex : Nat) (bamStream : bam_streamer),
        scorer._bamStreams.get? bamIndex = some bamStream →
        ∀ bamRead ∈
            bamStream.records sv.bp1.interval.tid sv.bp1.interval.range.begin_pos
              sv.bp1.interval.range.end_pos ++
            bamStream.records sv.bp2.interval.tid sv.bp2.interval.range.begin_pos
              sv.bp2.interval.range.end_pos,
          bamRead.is_filter = false → bamRead.is_dup = false →
          bamRead.is_secondary = false → bamRead.is_supplement = false →
          (evidenceFind bamRead.qname
            ((getSVSplitReadSupport scorer c sqrt SVAlignInfo sv baseInfo evidence).2.getSample
              (scorer._isAlignmentTumor.getD bamIndex false))).isSome = true := by
    intro scorer c sqrt SVAlignInfo sv baseInfo evidence hns bamIndex bamStream hs bamRead hmem
      h1 h2 h3 h4
    rw [getSVSplitReadSupport_eq, if_neg hns]
    refine splitReadSearch_isSome scorer c sqrt SVAlignInfo sv baseInfo evidence bamIndex
      bamStream hs bamRead hmem ?_
    unfold isSplitReadFiltered
    simp [h1, h2, h3, h4]
  refine ⟨getSVSplitReadSupport_eq, ?_, ?_, hsearch, ?_, skipsSplitReadWork_boundary.1, ?_,
    skipsSplitReadWork_boundary.2⟩
  · intro t isTumor streams c sqrt SVAlignInfo bp1 bp2 normal tumor evidence
    rw [getSVSplitReadSupport_eq,
      if_neg (skipsSplitReadWork_boundary.1 t isTumor streams bp1 bp2 normal tumor)]
  · intro isTumor streams c sqrt SVAlignInfo sv normal tumor bp2MaxDepth evidence
    rw [getSVSplitReadSupport_eq,
      if_pos (skipsSplitReadWork_boundary.2 isTumor streams sv normal tumor bp2MaxDepth)]
  · intro scorer sv baseInfo
    constructor
    · intro h streams c sqrt SVAlignInfo evidence
      have h2 : SkipsSplitReadWork { scorer with _bamStreams := streams } sv baseInfo := h
      rw [getSVSplitReadSupport_eq, if_pos h2]
    · intro h
      by_contra hns
      exact getSVSplitReadSupport_not_identity scorer sv baseInfo hns
        (h [singleRecordStream exampleSplitRead] exampleCollaborators sqrtModel {} {})
  · intro t
    refine ⟨?_, rfl⟩
    exact hsearch (thresholdScorer t [false] [singleRecordStream exampleSplitRead])
      exampleCollaborators sqrtModel {} { isImprecise := false }
      { bp1MaxDepth := 2 * t, bp2MaxDepth := 2 * t } {}
      (skipsSplitReadWork_boundary.1 t [false] [singleRecordStream exampleSplitRead] {} {} {} {})
      0 (singleRecordStream exampleSplitRead) rfl exampleSplitRead
      (by simp [singleRecordStream]) rfl rfl rfl rfl

/-! ## `getSpanningPairAlleleLhood` -/

/-- For an allele record with non-negative `fragLengthProb` values,
`getSpanningPairAlleleLhood` is the largest `fragLengthProb` of the supported
breakends, 0 when there is none, and not negative. -/
theorem getSpanningPairAlleleLhood_eq (allele : SVFragmentEvidenceAllele)
    (h1 : 0 ≤ allele.bp1.fragLengthProb) (h2 : 0 ≤ allele.bp2.fragLengthProb) :
    getSpanningPairAlleleLhood allele =
        (if allele.bp1.isFragmentSupport = true ∧ allele.bp2.isFragmentSupport = true then
          max allele.bp1.fragLengthProb allele.bp2.fragLengthProb
        else if allele.bp1.isFragmentSupport = true then allele.bp1.fragLengthProb
        else if allele.bp2.isFragmentSupport = true then allele.bp2.fragLengthProb
        else 0) ∧
      0 ≤ getSpanningPairAlleleLhood allele := by
  unfold getSpanningPairAlleleLhood
  dsimp only
  by_cases hb1 : allele.bp1.isFragmentSupport = true <;>
    by_cases hb2 : allele.bp2.isFragmentSupport = true <;>
    simp only [hb1, hb2, if_true, if_false, and_self, and_false, false_and, true_and,
      Bool.false_eq_true]
  · exact le_max_of_le_left h1
  · exact h1
  · exact ⟨max_eq_right h2, le_max_of_le_right h2⟩
  · exact le_refl _

/-- C30: for a fragment whose four `fragLengthProb` values are not negative,
`getSpanningPairAlleleLhood` returns on either allele the largest
`fragLengthProb` of the breakends with `isFragmentSupport`, 0 when there is
none; the result is not negative, and `addConservativeSpanningPairSupport` does
not fail an assertion on the fragment. -/
theorem getSpanningPairAlleleLhood_spec (fragev : SVFragmentEvidence)
    (ha1 : 0 ≤ fragev.alt.bp1.fragLengthProb) (ha2 : 0 ≤ fragev.alt.bp2.fragLengthProb)
    (hr1 : 0 ≤ fragev.ref.bp1.fragLengthProb) (hr2 : 0 ≤ fragev.ref.bp2.fragLengthProb) :
    (∀ allele ∈ [fragev.alt, fragev.ref],
      getSpanningPairAlleleLhood allele =
          (if allele.bp1.isFragmentSupport = true ∧ allele.bp2.isFragmentSupport = true then
            max allele.bp1.fragLengthProb allele.bp2.fragLengthProb
          else if allele.bp1.isFragmentSupport = true then allele.bp1.fragLengthProb
          else if allele.bp2.isFragmentSupport = true then allele.bp2.fragLengthProb
          else 0) ∧
        0 ≤ getSpanningPairAlleleLhood allele) ∧
      ∀ sampleBaseInfo : SVSampleInfo,
        addConservativeSpanningPairSupport fragev sampleBaseInfo ≠
          Except.error ScoringFailure.AssertionFailure := by
  have ha := getSpanningPairAlleleLhood_eq fragev.alt ha1 ha2
  have hr := getSpanningPairAlleleLhood_eq fragev.ref hr1 hr2
  refine ⟨?_, ?_⟩
  · intro allele hmem
    simp only [List.mem_cons, List.mem_singleton, List.not_mem_nil, or_false] at hmem
    rcases hmem with h | h
    · rw [h]; exact ha
    · rw [h]; exact hr
  · intro sampleBaseInfo
    by_cases hrun : fragev.isAnyPairSupport = true ∧ fragev.read1.isObservedAnchor = true ∧
        fragev.read2.isObservedAnchor = true
    · rw [addConservativeSpanningPairSupport_run fragev sampleBaseInfo hrun.1 hrun.2.1
        hrun.2.2]
      have h1 : ¬ ¬ getSpanningPairAlleleLhood fragev.alt ≥ 0 := not_not.mpr ha.2
      have h2 : ¬ ¬ getSpanningPairAlleleLhood fragev.ref ≥ 0 := not_not.mpr hr.2
      rw [if_neg h1, if_neg h2]
      split_ifs <;> intro hc <;> cases hc
    · rw [addConservativeSpanningPairSupport_skip fragev sampleBaseInfo hrun]
      intro hc
      cases hc

/-- C30 at a concrete input: the alt-supporting fragment, whose alt likelihood is
0.9 and whose ref likelihood is 1e-4. -/
theorem getSpanningPairAlleleLhood_spec_witness :
    getSpanningPairAlleleLhood altSupportingFragment.alt = 9 / 10 ∧
      0 ≤ getSpanningPairAlleleLhood altSupportingFragment.alt ∧
      ∀ sampleBaseInfo : SVSampleInfo,
        addConservativeSpanningPairSupport altSupportingFragment sampleBaseInfo ≠
          Except.error ScoringFailure.AssertionFailure := by
  have h := getSpanningPairAlleleLhood_spec altSupportingFragment
    (by norm_num [altSupportingFragment]) (by norm_num [altSupportingFragment])
    (by norm_num [altSupportingFragment]) (by norm_num [altSupportingFragment])
  have h1 := h.1 altSupportingFragment.alt (List.mem_cons_self _ _)
  refine ⟨?_, h1.2, h.2⟩
  rw [h1.1]
  simp [altSupportingFragment]

/-! ## The early exit of `getBreakendMaxMappedDepth` -/

/-- A read that starts at or behind the end of the depth window, or any read on
an empty window, leaves the depth array as it was. -/
theorem addReadToDepthEst_behind (bamRead : bam_record) (beginPos : Int) (depth : List Nat)
    (h : beginPos + depth.length ≤ bamRead.pos - 1 ∨ depth.length = 0) :
    addReadToDepthEst bamRead beginPos depth = some depth := by
  obtain ⟨d1, hd1, hlen, hget⟩ := addReadToDepthEst_incremented bamRead beginPos depth
  rw [hd1]
  congr 1
  apply List.ext_getElem hlen
  intro j h1 h2
  have hj := hget j h2
  rw [List.getD_eq_getElem _ _ h1, List.getD_eq_getElem _ _ h2] at hj
  rw [hj]
  rcases h with h | h
  · have hcov : ¬ coveredByMatch (beginPos + j) bamRead.cigar (bamRead.pos - 1) = true := by
      intro hc
      have := coveredByMatch_ge _ _ _ hc
      omega
    dsimp only
    rw [if_neg hcov]
  · omega

/-- Scanning records that all start at or behind the end of the range changes
nothing. -/
theorem scanStreamToDepthEst_behind (searchRange : known_pos_range2)
    (records : List bam_record) (depth : List Nat)
    (hrange : searchRange.begin_pos + depth.length ≤ searchRange.end_pos ∨ depth.length = 0)
    (h : ∀ r ∈ records, searchRange.end_pos ≤ r.pos - 1) :
    scanStreamToDepthEst searchRange records depth = some depth := by
  induction records with
  | nil => rfl
  | cons r rest ih =>
    unfold scanStreamToDepthEst
    have hr := h r (List.mem_cons_self _ _)
    have hnoop : addReadToDepthEst r searchRange.begin_pos depth = some depth := by
      apply addReadToDepthEst_behind
      rcases hrange with h1 | h1
      · left; omega
      · right; exact h1
    rw [hnoop]
    have := ih (fun r2 hr2 => h r2 (List.mem_cons_of_mem _ hr2))
    split_ifs
    · exact this
    · exact this

/-- On a stream sorted by start position the record loop with the early exit and
the loop that scans every record give the same depth array. -/
theorem addStreamToDepthEst_eq_scan (searchRange : known_pos_range2)
    (records : List bam_record) :
    ∀ depth : List Nat,
      (searchRange.begin_pos + depth.length ≤ searchRange.end_pos ∨ depth.length = 0) →
      records.Pairwise (fun a b => a.pos ≤ b.pos) →
      addStreamToDepthEst searchRange records depth =
        scanStreamToDepthEst searchRange records depth := by
  induction records with
  | nil => intro depth _ _; rfl
  | cons r rest ih =>
    intro depth hrange hsorted
    obtain ⟨hr, hrest⟩ := List.pairwise_cons.mp hsorted
    by_cases hu : r.is_unmapped = true
    · unfold addStreamToDepthEst scanStreamToDepthEst
      rw [if_pos hu, if_pos hu]
      exact ih depth hrange hrest
    · by_cases hb : r.pos - 1 ≥ searchRange.end_pos
      · rw [scanStreamToDepthEst_behind searchRange (r :: rest) depth hrange]
        · unfold addStreamToDepthEst
          rw [if_neg hu, if_pos hb]
        · intro r2 hr2
          rcases List.mem_cons.mp hr2 with h2 | h2
          · rw [h2]; exact hb
          · have := hr r2 h2
            omega
      · unfold addStreamToDepthEst scanStreamToDepthEst
        rw [if_neg hu, if_neg hu, if_neg hb]
        obtain ⟨d1, hd1, hlen, _⟩ :=
          addReadToDepthEst_incremented r searchRange.begin_pos depth
        rw [hd1]
        exact ih d1 (by rw [hlen]; exact hrange) hrest

/-- The zeroed depth array of a breakend fits its search range. -/
theorem depthSearchRange_fits (bp : SVBreakend) :
    (depthSearchRange bp).begin_pos +
        (List.replicate (depthSearchRange bp).size (0 : Nat)).length ≤
        (depthSearchRange bp).end_pos ∨
      (List.replicate (depthSearchRange bp).size (0 : Nat)).length = 0 := by
  rw [List.length_replicate]
  unfold known_pos_range2.size
  by_cases h : (depthSearchRange bp).begin_pos ≤ (depthSearchRange bp).end_pos
  · left; omega
  · right; omega

/-- C31: when the stream of the first normal file is sorted by start position,
the record loop with the early exit and the loop that scans every record of
the stream give the same depth array, which is the array whose maximum
`getBreakendMaxMappedDepth` returns. -/
theorem getBreakendMaxMappedDepth_early_exit (scorer : SVScorer) (bp : SVBreakend) (i : Nat)
    (bamStream : bam_streamer) (hnormal : IsFirstNormal scorer i bamStream)
    (hsorted : (bamStream.records bp.interval.tid (depthSearchRange bp).begin_pos
      (depthSearchRange bp).end_pos).Pairwise (fun a b => a.pos ≤ b.pos)) :
    addStreamToDepthEst (depthSearchRange bp)
        (bamStream.records bp.interval.tid (depthSearchRange bp).begin_pos
          (depthSearchRange bp).end_pos)
        (List.replicate (depthSearchRange bp).size 0) =
      scanStreamToDepthEst (depthSearchRange bp)
        (bamStream.records bp.interval.tid (depthSearchRange bp).begin_pos
          (depthSearchRange bp).end_pos)
        (List.replicate (depthSearchRange bp).size 0) ∧
    ∃ depth,
      scanStreamToDepthEst (depthSearchRange bp)
        (bamStream.records bp.interval.tid (depthSearchRange bp).begin_pos
          (depthSearchRange bp).end_pos)
        (List.replicate (depthSearchRange bp).size 0) = some depth ∧
      getBreakendDepth scorer bp = Except.ok depth ∧
      getBreakendMaxMappedDepth scorer bp =
        (match depth with
          | [] => Except.error DepthFailure.UndefinedBehaviour
          | d :: rest => Except.ok (rest.foldl max d)) := by
  have heq := addStreamToDepthEst_eq_scan (depthSearchRange bp)
    (bamStream.records bp.interval.tid (depthSearchRange bp).begin_pos
      (depthSearchRange bp).end_pos)
    (List.replicate (depthSearchRange bp).size 0) (depthSearchRange_fits bp) hsorted
  obtain ⟨depth, hs, _, hd⟩ := getBreakendDepth_of_normal scorer bp i bamStream hnormal
  unfold streamDepth at hs
  refine ⟨heq, depth, by rw [← heq]; exact hs, hd, ?_⟩
  unfold getBreakendMaxMappedDepth
  rw [hd]
  cases depth <;> rfl

/-- The second file of `sortedDepthScorer` is its first normal file. -/
theorem sortedDepthScorer_firstNormal :
    IsFirstNormal sortedDepthScorer 1 sortedRecordStream :=
  ⟨by intro j hj; interval_cases j; rfl, rfl, rfl⟩

/-- C31 at a concrete stream: two reads over the range and a third one that
starts behind it. -/
theorem getBreakendMaxMappedDepth_early_exit_witness :
    (sortedRecordStream.records depthBreakend.interval.tid
        (depthSearchRange depthBreakend).begin_pos
        (depthSearchRange depthBreakend).end_pos).Pairwise (fun a b => a.pos ≤ b.pos) ∧
      addStreamToDepthEst (depthSearchRange depthBreakend)
          (sortedRecordStream.records depthBreakend.interval.tid
            (depthSearchRange depthBreakend).begin_pos
            (depthSearchRange depthBreakend).end_pos)
          (List.replicate (depthSearchRange depthBreakend).size 0) =
        scanStreamToDepthEst (depthSearchRange depthBreakend)
          (sortedRecordStream.records depthBreakend.interval.tid
            (depthSearchRange depthBreakend).begin_pos
            (depthSearchRange depthBreakend).end_pos)
          (List.replicate (depthSearchRange depthBreakend).size 0) :=
  ⟨by decide,
    (getBreakendMaxMappedDepth_early_exit sortedDepthScorer depthBreakend 1
      sortedRecordStream sortedDepthScorer_firstNormal (by decide)).1⟩

/-- C32: for every read, every begin position and every depth array, also an empty
one, `addReadToDepthEst` ends without a write outside the array and keeps the
length of the array. -/
theorem addReadToDepthEst_in_bounds (bamRead : bam_record) (beginPos : Int)
    (depth : List Nat) :
    (∃ depth1, addReadToDepthEst bamRead beginPos depth = some depth1 ∧
      depth1.length = depth.length) ∧
    addReadToDepthEst bamRead beginPos [] = some [] := by
  obtain ⟨d1, hd1, hlen, _⟩ := addReadToDepthEst_incremented bamRead beginPos depth
  exact ⟨⟨d1, hd1, hlen⟩, addReadToDepthEst_behind bamRead beginPos [] (Or.inr rfl)⟩

/-! ## Depth against the number of mapped records -/

/-- One read raises every counter of the depth array by at most 1. -/
theorem addReadToDepthEst_le_succ (bamRead : bam_record) (beginPos : Int)
    (depth : List Nat) :
    ∃ depth1, addReadToDepthEst bamRead beginPos depth = some depth1 ∧
      depth1.length = depth.length ∧
      ∀ j : Nat, depth1.getD j 0 ≤ depth.getD j 0 + 1 := by
  obtain ⟨d1, hd1, hlen, hget⟩ := addReadToDepthEst_incremented bamRead beginPos depth
  refine ⟨d1, hd1, hlen, ?_⟩
  intro j
  by_cases hj : j < depth.length
  · rw [hget j hj]
    dsimp only
    split_ifs
    · exact Nat.mod_le _ _
    · exact Nat.le_succ _
  · have h1 : d1.getD j 0 = 0 := by
      rw [List.getD_eq_default]
      rw [hlen]; exact not_lt.mp hj
    rw [h1]
    exact Nat.zero_le _

/-- The record loop raises every counter by at most the number of mapped records
of the stream. -/
theorem addStreamToDepthEst_le (searchRange : known_pos_range2)
    (records : List bam_record) :
    ∀ (depth depth1 : List Nat),
      addStreamToDepthEst searchRange records depth = some depth1 →
      ∀ j : Nat, depth1.getD j 0 ≤
        depth.getD j 0 + (records.filter (fun r => !r.is_unmapped)).length := by
  induction records with
  | nil =>
    intro depth depth1 h j
    simp only [addStreamToDepthEst, Option.some.injEq] at h
    rw [h]
    simp
  | cons r rest ih =>
    intro depth depth1 h j
    unfold addStreamToDepthEst at h
    by_cases hu : r.is_unmapped = true
    · rw [if_pos hu] at h
      rw [List.filter_cons_of_neg (by simp [hu])]
      exact ih depth depth1 h j
    · rw [if_neg hu] at h
      rw [List.filter_cons_of_pos (by simpa using hu), List.length_cons]
      by_cases hb : r.pos - 1 ≥ searchRange.end_pos
      · rw [if_pos hb] at h
        cases h
        omega
      · rw [if_neg hb] at h
        obtain ⟨d1, hd1, _, hle⟩ := addReadToDepthEst_le_succ r searchRange.begin_pos depth
        rw [hd1] at h
        have h1 := ih d1 depth1 h j
        have h2 := hle j
        omega

/-- C36: the value that `getBreakendMaxMappedDepth` returns is at most the number
of mapped records that the stream of the first normal file yields for the
search range, every read raising every counter by at most 1; for a breakend
whose center is not negative a value is returned. -/
theorem getBreakendMaxMappedDepth_le_mapped (scorer : SVScorer) (bp : SVBreakend) (i : Nat)
    (bamStream : bam_streamer) (hnormal : IsFirstNormal scorer i bamStream) :
    (∀ m : Nat, getBreakendMaxMappedDepth scorer bp = Except.ok m →
      m ≤ ((bamStream.records bp.interval.tid (depthSearchRange bp).begin_pos
        (depthSearchRange bp).end_pos).filter (fun r => !r.is_unmapped)).length) ∧
    (0 ≤ bp.interval.range.center_pos →
      ∃ m, getBreakendMaxMappedDepth scorer bp = Except.ok m) ∧
    (∀ (bamRead : bam_record) (beginPos : Int) (depth : List Nat),
      ∃ depth1, addReadToDepthEst bamRead beginPos depth = some depth1 ∧
        depth1.length = depth.length ∧
        ∀ j : Nat, depth1.getD j 0 ≤ depth.getD j 0 + 1) := by
  obtain ⟨depth, hs, hlen, hd⟩ := getBreakendDepth_of_normal scorer bp i bamStream hnormal
  refine ⟨?_, ?_, addReadToDepthEst_le_succ⟩
  · intro m hm
    unfold getBreakendMaxMappedDepth at hm
    rw [hd] at hm
    cases hdepth : depth with
    | nil => rw [hdepth] at hm; cases hm
    | cons d rest =>
      rw [hdepth] at hm
      simp only [Except.ok.injEq] at hm
      have hmem := (foldl_max_spec rest d).1
      rw [hm, ← hdepth] at hmem
      obtain ⟨j, hj, hjm⟩ := List.getElem_of_mem hmem
      unfold streamDepth at hs
      have hle := addStreamToDepthEst_le _ _ _ _ hs j
      rw [List.getD_eq_getElem _ _ hj, hjm] at hle
      have hz : (List.replicate (depthSearchRange bp).size 0).getD j 0 = 0 := by
        by_cases hjn : j < (List.replicate (depthSearchRange bp).size 0).length
        · rw [List.getD_eq_getElem _ _ hjn]; simp
        · rw [List.getD_eq_default _ _ (not_lt.mp hjn)]
      rw [hz] at hle
      omega
  · intro hc
    obtain ⟨m, hm, _⟩ := getBreakendMaxMappedDepth_of_depth scorer bp depth hd
      (by rw [hlen]; exact (depthSearchRange_size bp hc).2.2.2.1)
    exact ⟨m, hm⟩

/-- C36 at a concrete input: the depth 3 of `depthScorer` against the three mapped
records of its normal stream. -/
theorem getBreakendMaxMappedDepth_le_mapped_witness :
    IsFirstNormal depthScorer 1 (repeatedRecordStream 3 (read200M 60)) ∧
      ∀ m : Nat, getBreakendMaxMappedDepth depthScorer depthBreakend = Except.ok m →
        m ≤ 3 :=
  ⟨depthScorer_firstNormal,
    (getBreakendMaxMappedDepth_le_mapped depthScorer depthBreakend 1
      (repeatedRecordStream 3 (read200M 60)) depthScorer_firstNormal).1⟩

/-! ## Monotonicity of `scoreSomaticSV` -/

/-- The score that `scoreSomaticSV` leaves: 60 when the flag survives, the former
score otherwise. -/
theorem scoreSomaticSV_somaticScore (somaticOpt : CallOptionsSomatic) (sv : SVCandidate)
    (dFilter : ChromDepthFilterUtil) (baseInfo : SVScoreInfo)
    (somaticInfo : SVScoreInfoSomatic) :
    (scoreSomaticSV somaticOpt sv dFilter baseInfo somaticInfo).somaticScore =
      if isNonzeroSomaticQuality baseInfo = true then 60 else somaticInfo.somaticScore := by
  unfold scoreSomaticSV
  by_cases h : isNonzeroSomaticQuality baseInfo = true
  · simp [h]
  · simp [h]

/-- One ratio veto survives a raise of the normal count and a cut of the tumor
count. -/
theorem ratioVeto_mono (t n t2 n2 : Nat) (ht : t2 ≤ t) (hn : n ≤ n2)
    (h : n ≠ 0 ∧ (t : ℚ) / (n : ℚ) < 9) : n2 ≠ 0 ∧ (t2 : ℚ) / (n2 : ℚ) < 9 := by
  obtain ⟨h0, hr⟩ := h
  have h1 : t < 9 * n := (countRatio_lt_nine t n h0).mp hr
  have h2 : n2 ≠ 0 := by omega
  exact ⟨h2, (countRatio_lt_nine t2 n2 h2).mpr (by omega)⟩

/-- A veto survives a raise of the normal alt counts and a cut of the tumor alt
counts. -/
theorem somaticVeto_mono (b b2 : SVScoreInfo)
    (hn : AltCountsLe b.normal.alt b2.normal.alt)
    (ht : AltCountsLe b2.tumor.alt b.tumor.alt)
    (href : b2.normal.ref = b.normal.ref)
    (hv : vetoNormalSupport b ∨ vetoWeakTumor b ∨ vetoRatio b ∨ vetoNoNormalRef b) :
    vetoNormalSupport b2 ∨ vetoWeakTumor b2 ∨ vetoRatio b2 ∨ vetoNoNormalRef b2 := by
  obtain ⟨hn1, hn2, hn3, hn4⟩ := hn
  obtain ⟨ht1, ht2, ht3, ht4⟩ := ht
  rcases hv with hv | hv | hv | hv
  · left
    unfold vetoNormalSupport at hv ⊢
    omega
  · right; left
    unfold vetoWeakTumor at hv ⊢
    omega
  · right; right; left
    unfold vetoRatio at hv ⊢
    rcases hv with hv | hv | hv
    · exact Or.inl (ratioVeto_mono _ _ _ _ ht1 hn1 hv)
    · exact Or.inr (Or.inl (ratioVeto_mono _ _ _ _ ht3 hn3 hv))
    · exact Or.inr (Or.inr (ratioVeto_mono _ _ _ _ ht4 hn4 hv))
  · right; right; right
    unfold vetoNoNormalRef at hv ⊢
    rw [href]
    exact hv

/-- The four alt counts of a record are at least themselves. -/
theorem altCountsLe_refl (x : SVSampleAlleleInfo) : AltCountsLe x x :=
  ⟨le_refl _, le_refl _, le_refl _, le_refl _⟩

/-- C33: with the tumor record and the normal ref counts fixed, raising alt counts
of the normal sample never turns a somatic score of 0 into 60; with the normal
record fixed, raising alt counts of the tumor sample never turns a somatic
score of 60 into 0. -/
theorem scoreSomaticSV_monotone (somaticOpt : CallOptionsSomatic) (sv : SVCandidate)
    (dFilter : ChromDepthFilterUtil) (b b2 : SVScoreInfo) (somaticInfo : SVScoreInfoSomatic) :
    (AltCountsLe b.normal.alt b2.normal.alt → b2.tumor = b.tumor →
      b2.normal.ref = b.normal.ref →
      (scoreSomaticSV somaticOpt sv dFilter b somaticInfo).somaticScore = 0 →
      (scoreSomaticSV somaticOpt sv dFilter b2 somaticInfo).somaticScore = 0) ∧
    (AltCountsLe b.tumor.alt b2.tumor.alt → b2.normal = b.normal →
      (scoreSomaticSV somaticOpt sv dFilter b somaticInfo).somaticScore = 60 →
      (scoreSomaticSV somaticOpt sv dFilter b2 somaticInfo).somaticScore = 60) := by
  rw [scoreSomaticSV_somaticScore, scoreSomaticSV_somaticScore]
  constructor
  · intro hn ht href h0
    have hq : ¬ isNonzeroSomaticQuality b = true := by
      intro hq; rw [if_pos hq] at h0; cases h0
    rw [if_neg hq] at h0
    have hv : vetoNormalSupport b ∨ vetoWeakTumor b ∨ vetoRatio b ∨ vetoNoNormalRef b := by
      by_contra hc
      exact hq ((isNonzeroSomaticQuality_iff b).mpr hc)
    have hv2 := somaticVeto_mono b b2 hn (by rw [ht]; exact altCountsLe_refl _) href hv
    have hq2 : ¬ isNonzeroSomaticQuality b2 = true :=
      fun h => (isNonzeroSomaticQuality_iff b2).mp h hv2
    rw [if_neg hq2]
    exact h0
  · intro ht hn h60
    by_cases hq : isNonzeroSomaticQuality b = true
    · have hq2 : isNonzeroSomaticQuality b2 = true := by
        rw [isNonzeroSomaticQuality_iff]
        intro hv2
        have hv := somaticVeto_mono b2 b (by rw [hn]; exact altCountsLe_refl _) ht
          (by rw [hn]) hv2
        exact (isNonzeroSomaticQuality_iff b).mp hq hv
      rw [if_pos hq2]
    · rw [if_neg hq] at h60
      rw [h60]
      split_ifs <;> rfl

/-- The passing score info gets the score 60. -/
theorem somaticPassInfo_score :
    (scoreSomaticSV somaticOptDefault {} noDepthFilter somaticPassInfo {}).somaticScore =
      60 := by
  rw [scoreSomaticSV_somaticScore, if_pos]
  rw [isNonzeroSomaticQuality_iff]
  unfold vetoNormalSupport vetoWeakTumor vetoRatio vetoNoNormalRef somaticPassInfo
  simp

/-- C33 at concrete inputs: two more alt pairs in the normal sample keep the score
0 of the contaminated info, and five more alt pairs in the tumor sample keep
the score 60 of the passing info. -/
theorem scoreSomaticSV_monotone_witness :
    (scoreSomaticSV somaticOptDefault {} noDepthFilter
        { somaticContaminatedInfo with
          normal := { alt := { confidentSpanningPairCount := 4 },
                      ref := { confidentSpanningPairCount := 10 } } } {}).somaticScore = 0 ∧
      (scoreSomaticSV somaticOptDefault {} noDepthFilter
        { somaticPassInfo with
          tumor := { alt := { confidentSpanningPairCount := 25 } } } {}).somaticScore = 60 :=
  ⟨(scoreSomaticSV_monotone somaticOptDefault {} noDepthFilter somaticContaminatedInfo
      { somaticContaminatedInfo with
        normal := { alt := { confidentSpanningPairCount := 4 },
                    ref := { confidentSpanningPairCount := 10 } } } {}).1
      (by unfold AltCountsLe; decide) rfl rfl
      (scoreSomaticSV_zero_of_veto _ _ _ _ _ rfl (Or.inl (Or.inl (by decide)))),
    (scoreSomaticSV_monotone somaticOptDefault {} noDepthFilter somaticPassInfo
      { somaticPassInfo with
        tumor := { alt := { confidentSpanningPairCount := 25 } } } {}).2
      (by unfold AltCountsLe; decide) rfl somaticPassInfo_score⟩

/-! ## Bounds on the confident counts of `getSampleCounts` -/

/-- One call of `addConservativeSplitReadSupport` raises the split sum by at most
1 and leaves the pair sum. -/
theorem addConservativeSplitReadSupport_sums (exp : ℚ → ℚ) (fragev : SVFragmentEvidence)
    (isRead1 : Bool) (s : SVSampleInfo) :
    confidentSplitSum (addConservativeSplitReadSupport exp fragev isRead1 s) ≤
        confidentSplitSum s + 1 ∧
      confidentPairSum (addConservativeSplitReadSupport exp fragev isRead1 s) =
        confidentPairSum s := by
  have hmod : ∀ x : Nat, (x + 1) % UINT_RANGE ≤ x + 1 := fun x => Nat.mod_le _ _
  unfold addConservativeSplitReadSupport
  dsimp only
  have h1 := hmod s.alt.confidentSplitReadCount
  have h2 := hmod s.ref.confidentSplitReadCount
  split_ifs <;> refine ⟨?_, ?_⟩ <;>
    simp only [confidentSplitSum, confidentPairSum, incrConfidentSplitReadCount] <;>
    omega

/-- One successful call of `addConservativeSpanningPairSupport` raises the pair sum
by at most 1 and leaves the split sum. -/
theorem addConservativeSpanningPairSupport_sums (fragev : SVFragmentEvidence)
    (s s1 : SVSampleInfo) (h : addConservativeSpanningPairSupport fragev s = Except.ok s1) :
    confidentPairSum s1 ≤ confidentPairSum s + 1 ∧
      confidentSplitSum s1 = confidentSplitSum s := by
  have hmod : ∀ x : Nat, (x + 1) % UINT_RANGE ≤ x + 1 := fun x => Nat.mod_le _ _
  have h1 := hmod s.alt.confidentSpanningPairCount
  have h2 := hmod s.ref.confidentSpanningPairCount
  unfold addConservativeSpanningPairSupport at h
  dsimp only at h
  split_ifs at h <;> cases h <;> refine ⟨?_, ?_⟩ <;>
    simp only [confidentSplitSum, confidentPairSum, incrConfidentSpanningPairCount] <;>
    omega

/-- The sums after `getSampleCounts` on a track of `n` fragments. -/
theorem getSampleCounts_sums (exp : ℚ → ℚ) (sampleEvidence : evidenceTrack_t) :
    ∀ s s1 : SVSampleInfo, getSampleCounts exp sampleEvidence s = Except.ok s1 →
      confidentPairSum s1 ≤ confidentPairSum s + sampleEvidence.length ∧
        confidentSplitSum s1 ≤ confidentSplitSum s + 2 * sampleEvidence.length := by
  induction sampleEvidence with
  | nil =>
    intro s s1 h
    simp only [getSampleCounts, Except.ok.injEq] at h
    subst h
    exact ⟨le_refl _, le_refl _⟩
  | cons val rest ih =>
    intro s s1 h
    unfold getSampleCounts at h
    dsimp only at h
    obtain ⟨ha1, ha2⟩ := addConservativeSplitReadSupport_sums exp val.2 true s
    obtain ⟨hb1, hb2⟩ := addConservativeSplitReadSupport_sums exp val.2 false
      (addConservativeSplitReadSupport exp val.2 true s)
    cases hc : addConservativeSpanningPairSupport val.2
        (addConservativeSplitReadSupport exp val.2 false
          (addConservativeSplitReadSupport exp val.2 true s)) with
    | error e => rw [hc] at h; cases h
    | ok s3 =>
      rw [hc] at h
      obtain ⟨hc1, hc2⟩ := addConservativeSpanningPairSupport_sums _ _ _ hc
      obtain ⟨hd1, hd2⟩ := ih s3 s1 h
      rw [List.length_cons]
      constructor <;> omega

/-- C34: when `getSampleCounts` succeeds on a track of `n` fragments, the sum
`alt.confidentSpanningPairCount + ref.confidentSpanningPairCount` has grown by
at most `n` and the sum `alt.confidentSplitReadCount +
ref.confidentSplitReadCount` by at most `2 n`; from a cleared sample record the
two sums are at most `n` and `2 n`, and for a single fragment at most 1
and 2. -/
theorem getSampleCounts_bounds (exp : ℚ → ℚ) (sampleEvidence : evidenceTrack_t)
    (s s1 : SVSampleInfo) (h : getSampleCounts exp sampleEvidence s = Except.ok s1) :
    s1.alt.confidentSpanningPairCount + s1.ref.confidentSpanningPairCount ≤
        s.alt.confidentSpanningPairCount + s.ref.confidentSpanningPairCount +
          sampleEvidence.length ∧
      s1.alt.confidentSplitReadCount + s1.ref.confidentSplitReadCount ≤
        s.alt.confidentSplitReadCount + s.ref.confidentSplitReadCount +
          2 * sampleEvidence.length ∧
      (s = {} →
        s1.alt.confidentSpanningPairCount + s1.ref.confidentSpanningPairCount ≤
            sampleEvidence.length ∧
          s1.alt.confidentSplitReadCount + s1.ref.confidentSplitReadCount ≤
            2 * sampleEvidence.length) := by
  obtain ⟨h1, h2⟩ := getSampleCounts_sums exp sampleEvidence s s1 h
  unfold confidentPairSum at h1
  unfold confidentSplitSum at h2
  refine ⟨h1, h2, ?_⟩
  intro hs
  subst hs
  constructor
  · simpa using h1
  · simpa using h2

/-- The summary of the alt-supporting fragment into a cleared record counts one
confident pair for the alt allele. -/
theorem getSampleCounts_altSupporting :
    getSampleCounts expModel [("frag0", altSupportingFragment)] {} =
      Except.ok (withAltConfidentPair {}) := by
  unfold getSampleCounts
  dsimp only
  have h1 : addConservativeSplitReadSupport expModel altSupportingFragment true {} = {} := rfl
  have h2 : addConservativeSplitReadSupport expModel altSupportingFragment false {} = {} := rfl
  rw [h1, h2, altSupportingFragment_counted {} (by decide) (by decide)]
  rfl

/-- C34 at a concrete input: the alt-supporting fragment raises the pair sum of a
cleared record to 1 and leaves the split sum 0. -/
theorem getSampleCounts_bounds_witness :
    getSampleCounts expModel [("frag0", altSupportingFragment)] {} =
        Except.ok (withAltConfidentPair {}) ∧
      (withAltConfidentPair {}).alt.confidentSpanningPairCount +
          (withAltConfidentPair {}).ref.confidentSpanningPairCount ≤ 1 ∧
      (withAltConfidentPair {}).alt.confidentSplitReadCount +
          (withAltConfidentPair {}).ref.confidentSplitReadCount ≤ 2 :=
  ⟨getSampleCounts_altSupporting,
    (getSampleCounts_bounds expModel [("frag0", altSupportingFragment)] {}
      (withAltConfidentPair {}) getSampleCounts_altSupporting).2.2 rfl⟩

/-! ## The inputs that `scoreDiploidSV` reads -/

/-- C35: `scoreDiploidSV` gives the same diploid record (genotype, `altScore`,
`gtScore`, filters) on two inputs that agree on the normal evidence track and
on the two breakend depths, whatever their tumor evidence tracks and their
sample allele counts are. -/
theorem scoreDiploidSV_normal_only (error_prob_to_qphred : ℚ → Nat)
    (diploidOpt : CallOptionsDiploid) (diploidDopt : CallOptionsDiploidDeriv)
    (sv : SVCandidate) (dFilter : ChromDepthFilterUtil) (evidence evidence2 : SVEvidence)
    (baseInfo baseInfo2 : SVScoreInfo) (diploidInfo : SVScoreInfoDiploid)
    (hnormal : evidence2.normal = evidence.normal)
    (hbp1 : baseInfo2.bp1MaxDepth = baseInfo.bp1MaxDepth)
    (hbp2 : baseInfo2.bp2MaxDepth = baseInfo.bp2MaxDepth) :
    scoreDiploidSV error_prob_to_qphred diploidOpt diploidDopt sv dFilter evidence2 baseInfo2
        diploidInfo =
      scoreDiploidSV error_prob_to_qphred diploidOpt diploidDopt sv dFilter evidence baseInfo
        diploidInfo := by
  unfold scoreDiploidSV diploidPosterior diploidMaxGt diploidFilters
  rw [hnormal, hbp1, hbp2]

/-- C35 at a concrete input: the ten alt-supporting fragments of the normal track,
with and without a tumor track and sample counts. -/
theorem scoreDiploidSV_normal_only_witness :
    scoreDiploidSV qphredModel diploidOptDefault uniformPrior {} noDepthFilter
        { diploidCallEvidence with tumor := [("frag0", altSupportingFragment)] }
        somaticPassInfo {} =
      scoreDiploidSV qphredModel diploidOptDefault uniformPrior {} noDepthFilter
        diploidCallEvidence {} {} :=
  scoreDiploidSV_normal_only qphredModel diploidOptDefault uniformPrior {} noDepthFilter
    diploidCallEvidence { diploidCallEvidence with tumor := [("frag0", altSupportingFragment)] }
    {} somaticPassInfo {} rfl rfl rfl

end Manta
